import Mathlib

/-!
# PiTrader core — shallow embedding and verification

A shallow embedding of the trading-core modules of the PiTrader repository
(`modules/risk.py`, `modules/health.py`, `modules/drawdown.py`,
`modules/trade.py`): Python floats are embedded as exact rationals,
timestamps as rational seconds, `None`-able values as `Option`, and the
shared mutable `state` dict as an explicit `World` record threaded through
each operation.  The theorems at the end of the file settle the testable
properties of the specification against these definitions.
-/

set_option maxHeartbeats 1000000

namespace PiTrader

/-! ## Numeric helpers -/

/-- Python's `round(x, 8)` embedded over ℚ as rounding to the nearest multiple
of `10⁻⁸`.  (CPython rounds exact decimal ties to even; the embedding breaks
the measure-zero tie case upward, and agrees with Python elsewhere.) -/
def round8 (x : ℚ) : ℚ := (round (x * 100000000) : ℤ) / 100000000

/-- Python `s.lower()` over the character list (Lean's `String.toLower`
is kernel-opaque). -/
def strLower (s : String) : String := String.mk (s.data.map Char.toLower)

/-- Python `s.upper()` over the character list. -/
def strUpper (s : String) : String := String.mk (s.data.map Char.toUpper)

/-- Python `s.strip()` over the character list. -/
def strTrim (s : String) : String :=
  String.mk (((s.data.dropWhile Char.isWhitespace).reverse.dropWhile
    Char.isWhitespace).reverse)

/-- Python `s.endswith(t)` over the character lists. -/
def strEndsWith (s t : String) : Bool := t.data.isSuffixOf s.data

/-- Python `c in s` over the character list. -/
def strContainsChar (s : String) (c : Char) : Bool := s.data.contains c

/-- Truncation of a string to its last `n` characters, as Python `s[-n:]`. -/
def strTakeRight (s : String) (n : ℕ) : String := s.drop (s.length - n)

/-- Truncation of a string to its first `n` characters, as Python `s[:n]`. -/
def strTakeLeft (s : String) (n : ℕ) : String := s.take n

/-- Left-pad a digit string with zeros to width `n`. -/
def padLeftZeros (s : String) (n : ℕ) : String :=
  String.mk (List.replicate (n - s.length) '0') ++ s

/-- Python's fixed-point formatting `f"{q:.nd f}"` over ℚ (nearest value,
ties upward; see `round8`). -/
def fmtFixed (nd : ℕ) (q : ℚ) : String :=
  let scaled : ℤ := round (q * ((10 : ℚ) ^ nd))
  let sign := if scaled < 0 then "-" else ""
  let a := scaled.natAbs
  if nd = 0 then sign ++ toString a
  else sign ++ toString (a / 10 ^ nd) ++ "." ++ padLeftZeros (toString (a % 10 ^ nd)) nd

/-- Python `max(low, min(high, value))` (`_clamp` in `trade.py`). -/
def clampQ (value low high : ℚ) : ℚ := max low (min high value)

/-- Python's falsy-coalescing `x or d` on floats: `0` falls back to the default. -/
def qOr (x d : ℚ) : ℚ := if x = 0 then d else x

/-- Python's falsy-coalescing `x or d` on ints. -/
def iOr (x d : ℤ) : ℤ := if x = 0 then d else x

/-! ## Association-list embedding of Python dicts -/

/-- `d.get(k)` on a dict embedded as an association list. -/
def alookup {α : Type} (l : List (String × α)) (k : String) : Option α :=
  (l.find? (fun p => p.1 == k)).map Prod.snd

/-- `d[k] = v`: replace the binding if present, else append it. -/
def aset {α : Type} (l : List (String × α)) (k : String) (v : α) : List (String × α) :=
  if (l.find? (fun p => p.1 == k)).isSome then
    l.map (fun p => if p.1 == k then (k, v) else p)
  else l ++ [(k, v)]

/-- `d.pop(k, None)`: remove the binding for `k`. -/
def adel {α : Type} (l : List (String × α)) (k : String) : List (String × α) :=
  l.filter (fun p => p.1 != k)

/-! ## `modules/risk.py` — stop/take-profit derivation -/

/-- `derive_stop_take_profit(decision, entry, atr, pump_score)` from
`modules/risk.py`: ATR-multiplier pair 1.8/2.7 for pump-score ≥ 60, else
2.5/3.8; stop below / take-profit above entry for longs and mirrored for
shorts; `None` ATR yields no levels. -/
def derive_stop_take_profit (decision : String) (entry : ℚ) (atr : Option ℚ)
    (pump_score : ℤ) : Option ℚ × Option ℚ :=
  match atr with
  | none => (none, none)
  | some a =>
    let stopMult : ℚ := if pump_score ≥ 60 then 18/10 else 25/10
    let tpMult : ℚ := if pump_score ≥ 60 then 27/10 else 38/10
    if decision = "open_long" then
      (some (entry - stopMult * a), some (entry + tpMult * a))
    else
      (some (entry + stopMult * a), some (entry - tpMult * a))

/-- `_calc_rr(decision, entry, stop, take_profit)` from `modules/trade.py`:
reward distance over risk distance from entry, `0` when either is
non-positive, `None` when a level is missing. -/
def calc_rr (decision : String) (entry : ℚ) (stop take_profit : Option ℚ) :
    Option ℚ :=
  match stop, take_profit with
  | some s, some tp =>
    let risk := if decision = "open_long" then entry - s else s - entry
    let reward := if decision = "open_long" then tp - entry else entry - tp
    if risk ≤ 0 ∨ reward ≤ 0 then some 0 else some (reward / risk)
  | _, _ => none

/-- `_calc_rr_now(side, entry, stop, current_price)` from `modules/trade.py`. -/
def calc_rr_now (side : String) (entry stop current_price : ℚ) : Option ℚ :=
  let risk := if side = "BUY" then entry - stop else stop - entry
  let reward := if side = "BUY" then current_price - entry else entry - current_price
  if risk ≤ 0 then none else some (reward / risk)

/-! ## `modules/health.py` — exchange-health state machine -/

/-- The four values taken by `state["health_state"]`. -/
inductive HState
  | healthy
  | degraded
  | recovering
  | outage
deriving DecidableEq, Repr

/-- The health-monitor slice of the shared state: the state tag, the
consecutive-failure and consecutive-success counters, and the
"already flattened this outage" flag (`modules/health.py`). -/
structure HealthSt where
  hstate : HState
  failures : ℕ
  successes : ℕ
  outageFlattened : Bool

/-- Health-monitor configuration (`config.py`; the loader clamps
`HEALTH_DEGRADED_FAILURES ≥ 1`, `HEALTH_OUTAGE_FAILURES ≥ degraded + 1`,
`HEALTH_RECOVER_SUCCESS_STREAK ≥ 1`). -/
structure HCfg where
  degradedFailures : ℕ
  outageFailures : ℕ
  recoverStreak : ℕ
  blockRecovering : Bool

/-- `_set_health_state`: a no-op when the state is unchanged; entering
outage clears the flattened flag. -/
def setHealthState (s : HealthSt) (new : HState) : HealthSt :=
  if s.hstate = new then s
  else if new = .outage then { s with hstate := new, outageFlattened := false }
  else { s with hstate := new }

/-- `mark_exchange_failure`: bump the failure streak, clear the success
streak, then transition on the thresholds. -/
def markExchangeFailure (cfg : HCfg) (s : HealthSt) : HealthSt :=
  let f := s.failures + 1
  let base : HealthSt := { s with failures := f, successes := 0 }
  if f ≥ cfg.outageFailures then setHealthState base .outage
  else if s.hstate = .healthy ∧ f ≥ cfg.degradedFailures then setHealthState base .degraded
  else if s.hstate = .recovering then setHealthState base .outage
  else base

/-- `mark_exchange_success`: clear the failure streak, bump the success
streak; one success leaves outage for recovering, a full streak restores
healthy. -/
def markExchangeSuccess (cfg : HCfg) (s : HealthSt) : HealthSt :=
  let sc := s.successes + 1
  let base : HealthSt := { s with failures := 0, successes := sc }
  if s.hstate = .healthy then base
  else if s.hstate = .outage then setHealthState base .recovering
  else if sc ≥ cfg.recoverStreak then setHealthState base .healthy
  else base

/-- `entries_blocked()` from `modules/health.py`. -/
def healthEntriesBlocked (cfg : HCfg) (s : HealthSt) : Bool :=
  s.hstate = .outage ∨ (s.hstate = .recovering ∧ cfg.blockRecovering)

/-- `n` consecutive failure events. -/
def failN (cfg : HCfg) : ℕ → HealthSt → HealthSt
  | 0, s => s
  | n + 1, s => failN cfg n (markExchangeFailure cfg s)

/-- `n` consecutive success events. -/
def succN (cfg : HCfg) : ℕ → HealthSt → HealthSt
  | 0, s => s
  | n + 1, s => succN cfg n (markExchangeSuccess cfg s)

/-! ## `modules/drawdown.py` — drawdown guard -/

/-- Drawdown configuration (`config.py`; limits clamped ≥ 0.1). -/
structure DDCfg where
  dailyLimitPct : ℚ
  weeklyLimitPct : ℚ
  athLimitPct : ℚ
  autoFlatten : Bool
  autoPark : Bool

/-- One point of the persisted equity curve (timestamp in seconds, equity). -/
structure EqPoint where
  ts : ℚ
  equity : ℚ

/-- The drawdown slice of the shared state (`drawdown_*` keys plus the
rolling `equity_history`, assumed already loaded from storage). -/
structure DDState where
  history : List EqPoint
  dailyPeak : ℚ
  dailyDate : Option ℤ
  athPeak : ℚ
  weeklyPeak : ℚ
  dailyDd : ℚ
  weeklyDd : ℚ
  athDd : ℚ
  paused : Bool
  pauseReason : String

/-- The result dict of `evaluate_drawdown_status`. -/
structure DDStatus where
  breached : Bool
  reason : Option String
  dailyDdPct : ℚ
  weeklyDdPct : ℚ
  athDdPct : ℚ
  dailyPeak : ℚ
  weeklyPeak : ℚ
  athPeak : ℚ
  equity : ℚ

/-- `now.date()` embedded as the UTC day index of a seconds timestamp. -/
def dayKey (t : ℚ) : ℤ := ⌊t / 86400⌋

/-- Python `l[-n:]`. -/
def lastN {α : Type} (n : ℕ) (l : List α) : List α := l.drop (l.length - n)

/-- `_pct_drawdown(current, peak)`: `max(0, (peak−current)/peak×100)`,
`0` for non-positive peaks. -/
def pctDrawdown (current peak : ℚ) : ℚ :=
  if peak ≤ 0 then 0 else max 0 ((peak - current) / peak * 100)

/-- `_append_equity_point`: append the point, drop entries older than
8 days, keep the last 5000. -/
def appendEquityPoint (now equity : ℚ) (h : List EqPoint) : List EqPoint :=
  let h := h ++ [⟨now, equity⟩]
  let cutoff := now - 8 * 86400
  lastN 5000 (h.filter (fun p => cutoff ≤ p.ts))

/-- `evaluate_drawdown_status(equity)`: append the equity point, recompute
the daily (day-boundary reset), 7-day rolling and all-time peaks, derive the
three drawdown percentages, and check the limits in the priority order
daily, weekly, ATH. -/
def evaluateDrawdownStatus (cfg : DDCfg) (now equity : ℚ) (s : DDState) :
    DDStatus × DDState :=
  let hist := appendEquityPoint now equity s.history
  let dk := dayKey now
  let dailyPeak := if s.dailyDate ≠ some dk then equity else max s.dailyPeak equity
  let weeklyCutoff := now - 7 * 86400
  let weeklyPeak := hist.foldl
    (fun acc p => if p.ts ≥ weeklyCutoff then max acc p.equity else acc) equity
  let athPeak := hist.foldl (fun acc p => max acc p.equity) (max s.athPeak equity)
  let dailyDd := pctDrawdown equity dailyPeak
  let weeklyDd := pctDrawdown equity weeklyPeak
  let athDd := pctDrawdown equity athPeak
  let breachedReason : Option String :=
    if dailyDd ≥ cfg.dailyLimitPct then some "daily"
    else if weeklyDd ≥ cfg.weeklyLimitPct then some "weekly"
    else if athDd ≥ cfg.athLimitPct then some "ath"
    else none
  ({ breached := breachedReason.isSome
     reason := breachedReason
     dailyDdPct := dailyDd, weeklyDdPct := weeklyDd, athDdPct := athDd
     dailyPeak := dailyPeak, weeklyPeak := weeklyPeak, athPeak := athPeak
     equity := equity },
   { s with history := hist, dailyDate := some dk, dailyPeak := dailyPeak
            weeklyPeak := weeklyPeak, athPeak := athPeak
            dailyDd := dailyDd, weeklyDd := weeklyDd, athDd := athDd })

/-- `_enforce_drawdown_pause(status)`: once paused nothing changes; otherwise
set the pause flag and reason, and emit the optional flatten/park actions.
The side effects on other subsystems (closing trades, the park marker file)
are surfaced as an action list. -/
def enforceDrawdownPause (cfg : DDCfg) (status : DDStatus) (s : DDState) :
    DDState × List String :=
  if s.paused then (s, [])
  else
    let reason := status.reason.getD "unknown"
    let s := { s with
      paused := true
      pauseReason := reason ++ ": daily=" ++ fmtFixed 2 status.dailyDdPct
        ++ "% weekly=" ++ fmtFixed 2 status.weeklyDdPct
        ++ "% ath=" ++ fmtFixed 2 status.athDdPct ++ "%" }
    (s, (if cfg.autoFlatten then ["flatten"] else [])
        ++ (if cfg.autoPark then ["park"] else []))

/-- One iteration of `drawdown_guard_loop`: evaluate the status for the
current equity and enforce the pause when breached. -/
def drawdownGuardStep (cfg : DDCfg) (now equity : ℚ) (s : DDState) :
    DDState × List String :=
  let es := evaluateDrawdownStatus cfg now equity s
  if es.1.breached then enforceDrawdownPause cfg es.1 es.2 else (es.2, [])

/-- Run the guard loop over a sequence of `(now, equity)` samples. -/
def runDrawdownGuard (cfg : DDCfg) : List (ℚ × ℚ) → DDState → DDState
  | [], s => s
  | x :: xs, s => runDrawdownGuard cfg xs (drawdownGuardStep cfg x.1 x.2 s).1

/-- The equity sequence never breaches a limit: every evaluation along the
run reports `breached = false`. -/
def NoBreach (cfg : DDCfg) : List (ℚ × ℚ) → DDState → Prop
  | [], _ => True
  | x :: xs, s =>
    (evaluateDrawdownStatus cfg x.1 x.2 s).1.breached = false ∧
      NoBreach cfg xs (drawdownGuardStep cfg x.1 x.2 s).1

/-- The initial drawdown state (all `drawdown_*` keys unset). -/
def DDState.init : DDState :=
  ⟨[], 0, none, 0, 0, 0, 0, 0, false, ""⟩

/-! ## `modules/trade.py` — data model -/

/-- Python's falsy-coalescing `x or d` on strings. -/
def sOr (x d : String) : String := if x = "" then d else x

/-- Python's falsy-coalescing on naturals. -/
def nOr (x d : ℕ) : ℕ := if x = 0 then d else x

/-- The per-asset `vol_cache` entry. -/
structure VolMetrics where
  atr1h : Option ℚ
  atr6h : Option ℚ

/-- The per-asset `exec_liq_cache` entry. -/
structure LiqMetrics where
  spreadPct : Option ℚ
  mid : Option ℚ
  volume1m : Option ℚ

/-- The per-asset `micro_cache` entry. -/
structure MicroMetrics where
  bidDepthUsd : Option ℚ
  askDepthUsd : Option ℚ
  obImbalance : Option ℚ
  tapeDeltaPct : Option ℚ

/-- The trade-core configuration constants read from `modules/config.py`
(in load order there; the loader's clamps are noted per theorem where
they matter). -/
structure Config where
  simulationMode : Bool
  dryRunOrders : Bool
  maxLev : ℤ
  riskNuclear : ℚ
  riskSafe : ℚ
  safeAssets : List String
  readinessHours : ℚ
  health : HCfg
  decisionMinPumpScore : ℤ
  decisionMinVolSpike : ℚ
  decisionMinRrAggressive : ℚ
  decisionMinRrSafe : ℚ
  execPostOnlyEnabled : Bool
  execPostOnlyOffsetPct : ℚ
  execIocFallbackEnabled : Bool
  execIocSlippagePct : ℚ
  execMarketFallbackEnabled : Bool
  execMarketGuardMaxSpreadPct : ℚ
  execMarketGuardMaxSizeToVol1mPct : ℚ
  execMarketGuardLimitRetryEnabled : Bool
  execMarketGuardRetryIocSlippagePct : ℚ
  simTakerFeeRate : ℚ
  simFundingRatePer8h : ℚ
  simSlippageMinPct : ℚ
  simSlippageMaxPct : ℚ
  simSlippageAtrMult : ℚ
  pyramidEnabled : Bool
  pyramidRrTrigger : ℚ
  pyramidAddFraction : ℚ
  pyramidMaxAdds : ℕ
  pyramidMinConviction : ℤ
  pyramidMaxExposurePct : ℚ
  regimeRiskMultTrend : ℚ
  regimeRiskMultChop : ℚ
  regimeRiskMultHighVol : ℚ
  regimeLevCapTrend : ℤ
  regimeLevCapChop : ℤ
  regimeLevCapHighVol : ℤ
  regimeMinRrAddTrend : ℚ
  regimeMinRrAddChop : ℚ
  regimeMinRrAddHighVol : ℚ

/-- One trade record of `state["trades"]` (the dict literal built in
`execute`, plus the fields written later in the lifecycle).  The
`guard_*` audit metadata columns are carried verbatim; the free-form
payload dicts are not part of the record. -/
structure Trade where
  ts : ℚ
  asset : String
  side : String
  size : ℚ
  initialSize : ℚ
  remainingSize : ℚ
  status : String
  entry : ℚ
  entryRefPrice : ℚ
  entrySlippagePct : ℚ
  bestPrice : Option ℚ
  leverage : ℤ
  stop : Option ℚ
  takeProfit : Option ℚ
  trailingActivationPct : Option ℚ
  trailingPct : Option ℚ
  expectedHoldMin : Option ℤ
  fundingLastTs : Option ℚ
  pumpScore : ℤ
  decisionId : Option String
  conviction : ℤ
  sleeve : String
  regime : String
  rr : Option ℚ
  volSpike : Option ℚ
  executionPath : String
  execGateSoftPenalty : ℤ
  guardSpreadPct : Option ℚ
  guardSizeToVol1mPct : Option ℚ
  partial15 : Bool
  partial30 : Bool
  pyramidBaseSize : ℚ
  pyramidAddCount : ℕ
  pyramidLastRr : Option ℚ
  pyramidLastTs : Option ℚ
  realizedPnl : ℚ
  realizedGrossPnl : ℚ
  realizedFees : ℚ
  realizedFunding : ℚ
  reason : String
  closedTs : Option ℚ
  closeReason : Option String

/-- A `state["positions"]` entry (the fields `execute`'s close branch reads). -/
structure Position where
  side : String
  size : ℚ

/-- A `trade_events` row as emitted by `_emit_trade_event`; the structured
payload is abstracted to the `reason` and size fields the properties
observe (event ids and wall-clock strings are dropped). -/
structure TradeEvent where
  etype : String
  decisionId : Option String
  tradeId : Option String
  asset : Option String
  reason : Option String := none
  qty : Option ℚ := none

/-- A `trade_journal` row as written by `save_trade_journal`. -/
structure JournalRow where
  tradeId : String
  ts : ℚ
  asset : String
  side : String
  size : ℚ
  entry : ℚ
  exitPrice : ℚ
  pnl : ℚ
  pnlGross : ℚ
  feeCost : ℚ
  fundingCost : ℚ
  reason : String

/-- The outcome of one exchange-client call (a raised exception is an
`err` with the exception's string). -/
inductive CallOutcome
  | ok
  | err (msg : String)
deriving DecidableEq

/-- The outcome of the keyword-style `market_order` call: it may also raise
`TypeError`, upon which the positional signature is retried. -/
inductive MarketOutcome
  | ok
  | err (msg : String)
  | typeErr (fallback : CallOutcome)
deriving DecidableEq

/-- The exchange client, embedded as an oracle giving the outcome of each
call site of `_submit_live_order`. -/
structure Client where
  postOnly : CallOutcome
  ioc : CallOutcome
  retryIoc : CallOutcome
  market : MarketOutcome

/-- The shared mutable `state` dict (the slice the trade core reads and
writes), the durable tables (`live`, `journal`, `events`) and the health
slice, threaded explicitly. -/
structure World where
  trades : List (String × Trade)
  positions : List (String × Position)
  price : List (String × ℚ)
  volCache : List (String × VolMetrics)
  liqCache : List (String × LiqMetrics)
  microCache : List (String × MicroMetrics)
  equity : ℚ
  simRealizedPnl : ℚ
  simBaseEquity : Option ℚ
  mode : String
  aggrTarget : ℚ
  safeTarget : ℚ
  regime : String
  startedAt : Option ℚ
  readyToTrade : Bool
  health : HealthSt
  drawdownPaused : Bool
  timers : List String
  live : List (String × Trade)
  journal : List JournalRow
  events : List TradeEvent
  execLastOk : Bool
  execLastPath : String
  execLastReason : String
  decisionGateLastOk : Bool
  decisionGateLastReason : String
  execGateLastOk : Bool
  execGateLastReason : String

/-! ## `modules/trade.py` — pure helpers -/

/-- `_infer_close_side(position, raw_size)`. -/
def inferCloseSide (position : Position) (rawSize : ℚ) : String :=
  let sideRaw := strLower (strTrim position.side)
  if sideRaw = "long" ∨ sideRaw = "buy" then "SELL"
  else if sideRaw = "short" ∨ sideRaw = "sell" then "BUY"
  else if rawSize > 0 then "SELL" else "BUY"

/-- `_close_side_from_open(open_side)`. -/
def closeSideFromOpen (openSide : String) : String :=
  if openSide = "BUY" then "SELL" else "BUY"

/-- `_exec_limit_price(reference_price, side, offset_pct, maker)`: the
maker price is improved toward the book, the taker price slipped away
from it; missing or non-positive references give `0`. -/
def execLimitPrice (referencePrice : Option ℚ) (side : String)
    (offsetPct : ℚ) (maker : Bool) : ℚ :=
  let ref := referencePrice.getD 0
  if ref ≤ 0 then 0
  else
    let offset := max 0 offsetPct / 100
    if maker then (if side = "BUY" then ref * (1 - offset) else ref * (1 + offset))
    else (if side = "BUY" then ref * (1 + offset) else ref * (1 - offset))

/-- `_sanitize_leverage(value)` (missing → 6, clamped to `[1, MAX_LEV]`). -/
def sanitizeLeverage (cfg : Config) (value : Option ℤ) : ℤ :=
  max 1 (min cfg.maxLev (value.getD 6))

/-- `_sanitize_risk_pct(value)`. -/
def sanitizeRiskPct (value : Option ℚ) : Option ℚ :=
  match value with
  | none => none
  | some r => if r ≤ 0 then none else some (min 1 r)

/-- `_sanitize_conviction(value)` (missing → 0, clamped to `[0, 100]`). -/
def sanitizeConviction (value : Option ℤ) : ℤ :=
  max 0 (min 100 (value.getD 0))

/-- `_is_valid_asset(asset)`. -/
def isValidAsset (asset : String) : Bool :=
  strEndsWith asset "-PERP-INTX" || strEndsWith asset "-USD" || strEndsWith asset "-USDC"

/-- `_is_perp(asset)`. -/
def isPerp (asset : String) : Bool := strEndsWith asset "-PERP-INTX"

/-- `_asset_base(asset)`. -/
def assetBase (asset : String) : String :=
  if strContainsChar asset '-' then
    strUpper (String.mk (asset.data.takeWhile (fun c => c != '-')))
  else ""

/-- `_is_stop_hit(side, stop, current_price)`. -/
def isStopHit (side : String) (stop : Option ℚ) (currentPrice : ℚ) : Prop :=
  match stop with
  | none => False
  | some s => if side = "BUY" then currentPrice ≤ s else currentPrice ≥ s

instance (side : String) (stop : Option ℚ) (c : ℚ) :
    Decidable (isStopHit side stop c) := by
  unfold isStopHit; cases stop <;> simp <;> infer_instance

/-- `_is_take_profit_hit(side, take_profit, current_price)`. -/
def isTakeProfitHit (side : String) (takeProfit : Option ℚ) (currentPrice : ℚ) : Prop :=
  match takeProfit with
  | none => False
  | some tp => if side = "BUY" then currentPrice ≥ tp else currentPrice ≤ tp

instance (side : String) (tp : Option ℚ) (c : ℚ) :
    Decidable (isTakeProfitHit side tp c) := by
  unfold isTakeProfitHit; cases tp <;> simp <;> infer_instance

/-- `_vol_spike_ratio(asset)`: 1h/6h ATR quotient, `None` when either leg
is missing or non-positive. -/
def volSpikeOf (vol : Option VolMetrics) : Option ℚ :=
  let atr1h := (vol.bind VolMetrics.atr1h).getD 0
  let atr6h := (vol.bind VolMetrics.atr6h).getD 0
  if atr1h ≤ 0 ∨ atr6h ≤ 0 then none else some (atr1h / max atr6h (1 / 1000000000000))

/-! ## `modules/trade.py` — market guard and execution micro-gate -/

/-- The result of `_evaluate_market_guard` (the `ok` flag and the reasons
list; the remaining dict entries are log-only metrics). -/
structure MarketGuardResult where
  ok : Bool
  reasons : List String

/-- `_evaluate_market_guard(asset, size)`: spread and order-size-to-1-minute
volume checks against the configured caps, with unavailable metrics
reported as reasons. -/
def evaluateMarketGuard (cfg : Config) (cache : Option LiqMetrics) (size : ℚ) :
    MarketGuardResult :=
  let spreadPct := cache.bind LiqMetrics.spreadPct
  let mid := cache.bind LiqMetrics.mid
  let volume1m := cache.bind LiqMetrics.volume1m
  let orderSize := |size|
  let maxSpread := qOr cfg.execMarketGuardMaxSpreadPct (35/100)
  let maxSizeToVolPct := qOr cfg.execMarketGuardMaxSizeToVol1mPct (1/2)
  let spreadReasons : List String :=
    if spreadPct = none ∨ mid = none ∨ mid.getD 0 ≤ 0 then ["spread_unavailable"]
    else if spreadPct.getD 0 > maxSpread then
      ["spread>" ++ fmtFixed 2 maxSpread ++ "%"]
    else []
  let volReasons : List String :=
    if volume1m = none ∨ volume1m.getD 0 ≤ 0 then ["vol1m_unavailable"]
    else
      let sizeToVolPct := orderSize / max (volume1m.getD 0) (1 / 1000000000000) * 100
      if sizeToVolPct > maxSizeToVolPct then
        ["size_to_vol1m>" ++ fmtFixed 2 maxSizeToVolPct ++ "%"]
      else []
  let reasons := spreadReasons ++ volReasons
  { ok := reasons.isEmpty, reasons := reasons }

/-- The result of `_execution_micro_gate` (the `metrics` dict is log/audit
payload and is not carried). -/
structure MicroGateResult where
  ok : Bool
  hardReasons : List String
  softPenalty : ℤ
  softNotes : List String

/-- `_execution_micro_gate(asset, side, size, price)`: hard-rejects only on
extreme spread or thin visible depth; book/tape conflict yields a soft
0–40 conviction penalty. -/
def executionMicroGate (cfg : Config) (cache : Option LiqMetrics)
    (micro : Option MicroMetrics) (side : String) (size price : ℚ) :
    MicroGateResult :=
  let spreadPct := cache.bind LiqMetrics.spreadPct
  let notional := |size| * price
  let baseSpreadCap := qOr cfg.execMarketGuardMaxSpreadPct (35/100)
  let hardSpreadCap := max (80/100) (baseSpreadCap * (25/10))
  let spreadReasons : List String :=
    if spreadPct.isSome ∧ spreadPct.getD 0 > hardSpreadCap then
      ["spread>" ++ fmtFixed 2 hardSpreadCap ++ "%"]
    else []
  let bidDepth := micro.bind MicroMetrics.bidDepthUsd
  let askDepth := micro.bind MicroMetrics.askDepthUsd
  let totalDepth : Option ℚ :=
    if bidDepth.isSome ∨ askDepth.isSome then some (bidDepth.getD 0 + askDepth.getD 0)
    else none
  let minDepth := max 10000 (notional * (12/10))
  let depthReasons : List String :=
    if totalDepth.isSome ∧ totalDepth.getD 0 > 0 ∧ totalDepth.getD 0 < minDepth then
      ["depth<" ++ fmtFixed 0 minDepth]
    else []
  let hardReasons := spreadReasons ++ depthReasons
  let obImbalance := micro.bind MicroMetrics.obImbalance
  let tapeDeltaPct := micro.bind MicroMetrics.tapeDeltaPct
  let sideU := strUpper side
  let buyPen : ℤ × List String :=
    if sideU = "BUY" then
      let obPart : ℤ × List String :=
        match obImbalance with
        | some ob =>
          if ob < 45/100 then (20, ["ob_imbalance_strongly_bearish"])
          else if ob < 50/100 then (10, ["ob_imbalance_bearish"])
          else (0, [])
        | none => (0, [])
      let tapePart : ℤ × List String :=
        match tapeDeltaPct with
        | some td =>
          if td < -10 then (20, ["tape_strong_sell"])
          else if td < 0 then (10, ["tape_sell"])
          else (0, [])
        | none => (0, [])
      (obPart.1 + tapePart.1, obPart.2 ++ tapePart.2)
    else if sideU = "SELL" then
      let obPart : ℤ × List String :=
        match obImbalance with
        | some ob =>
          if ob > 55/100 then (20, ["ob_imbalance_strongly_bullish"])
          else if ob > 50/100 then (10, ["ob_imbalance_bullish"])
          else (0, [])
        | none => (0, [])
      let tapePart : ℤ × List String :=
        match tapeDeltaPct with
        | some td =>
          if td > 10 then (20, ["tape_strong_buy"])
          else if td > 0 then (10, ["tape_buy"])
          else (0, [])
        | none => (0, [])
      (obPart.1 + tapePart.1, obPart.2 ++ tapePart.2)
    else (0, [])
  let softPenalty := max 0 (min 40 buyPen.1)
  { ok := hardReasons.isEmpty
    hardReasons := hardReasons
    softPenalty := softPenalty
    softNotes := buyPen.2.take 6 }

/-! ## `modules/trade.py` — order router (`_submit_live_order`) -/

/-- The result dict of `_submit_live_order`, extended with the accumulated
error list and the trace of client calls actually attempted (both
observable in the source through the built reason string and the client's
call sequence). -/
structure SubmitResult where
  ok : Bool
  path : String
  reason : String
  limitPrice : Option ℚ := none
  errors : List String := []
  attempts : List String := []

/-- The terminal failure result of `_submit_live_order`
(`order_path_exhausted` when no attempt was even made). -/
def submitFinishFailed (errors attempts : List String) : SubmitResult :=
  { ok := false, path := "failed"
    reason := if errors.isEmpty then "order_path_exhausted"
              else strTakeRight (String.intercalate "; " errors) 400
    errors := errors, attempts := attempts }

/-- The rejected result after a failed market guard (and failed or skipped
retry). -/
def submitRejected (errors attempts : List String) : SubmitResult :=
  { ok := false, path := "rejected"
    reason := if errors.isEmpty then "market_guard_rejected"
              else strTakeRight (String.intercalate "; " errors) 400
    errors := errors, attempts := attempts }

/-- The market stage of `_submit_live_order`: evaluate the market guard;
on failure optionally retry once as a wider-slippage IOC, else reject; on
success send the market order (retrying the positional signature on
`TypeError`). -/
def submitMarketStage (cfg : Config) (c : Client) (liq : Option LiqMetrics)
    (side : String) (size : ℚ) (referencePrice : Option ℚ)
    (errors attempts : List String) : SubmitResult :=
  if cfg.execMarketFallbackEnabled then
    let guard := evaluateMarketGuard cfg liq size
    if ¬guard.ok then
      let reason := String.intercalate ", "
        (if guard.reasons.isEmpty then ["market_guard_failed"] else guard.reasons)
      let errors := errors ++ ["market_guard:" ++ reason]
      if cfg.execMarketGuardLimitRetryEnabled then
        let retryPx := execLimitPrice referencePrice side
          cfg.execMarketGuardRetryIocSlippagePct false
        if retryPx > 0 then
          match c.retryIoc with
          | .ok =>
            { ok := true, path := "limit_retry_ioc"
              reason := "market_guard_reject:" ++ reason
              limitPrice := some retryPx, errors := errors
              attempts := attempts ++ ["limit_retry_ioc"] }
          | .err e =>
            submitRejected (errors ++ ["limit_retry_ioc:" ++ e])
              (attempts ++ ["limit_retry_ioc"])
        else submitRejected errors attempts
      else submitRejected errors attempts
    else
      match c.market with
      | .ok =>
        { ok := true, path := "market", reason := "ok", errors := errors
          attempts := attempts ++ ["market"] }
      | .typeErr fb =>
        match fb with
        | .ok =>
          { ok := true, path := "market", reason := "ok", errors := errors
            attempts := attempts ++ ["market", "market_positional"] }
        | .err e =>
          submitFinishFailed (errors ++ ["market:" ++ e])
            (attempts ++ ["market", "market_positional"])
      | .err e =>
        submitFinishFailed (errors ++ ["market:" ++ e]) (attempts ++ ["market"])
  else submitFinishFailed errors attempts

/-- The IOC stage of `_submit_live_order`. -/
def submitIocStage (cfg : Config) (c : Client) (liq : Option LiqMetrics)
    (side : String) (size : ℚ) (referencePrice : Option ℚ)
    (errors attempts : List String) : SubmitResult :=
  if cfg.execIocFallbackEnabled then
    let iocPx := execLimitPrice referencePrice side cfg.execIocSlippagePct false
    if iocPx > 0 then
      match c.ioc with
      | .ok =>
        { ok := true, path := "ioc", reason := "ok", limitPrice := some iocPx
          errors := errors, attempts := attempts ++ ["ioc"] }
      | .err e =>
        submitMarketStage cfg c liq side size referencePrice
          (errors ++ ["ioc:" ++ e]) (attempts ++ ["ioc"])
    else submitMarketStage cfg c liq side size referencePrice errors attempts
  else submitMarketStage cfg c liq side size referencePrice errors attempts

/-- `_submit_live_order(asset, side, size, reference_price, leverage)`:
post-only maker, then IOC taker, then the market guard with a market order
or one wider-slippage IOC retry; each failed attempt appends a tagged
message to the error accumulator, and terminal failures report the last
400 characters of the joined errors. -/
def submitLiveOrder (cfg : Config) (client : Option Client)
    (liq : Option LiqMetrics) (side : String) (size : ℚ)
    (referencePrice : Option ℚ) (leverage : Option ℤ) : SubmitResult :=
  match client with
  | none => { ok := false, path := "none", reason := "client_unavailable" }
  | some c =>
    let _ := leverage  -- forwarded to the client call sites only
    if cfg.execPostOnlyEnabled then
      let postPx := execLimitPrice referencePrice side cfg.execPostOnlyOffsetPct true
      if postPx > 0 then
        match c.postOnly with
        | .ok =>
          { ok := true, path := "post_only", reason := "ok"
            limitPrice := some postPx, errors := [], attempts := ["post_only"] }
        | .err e =>
          submitIocStage cfg c liq side size referencePrice
            ["post_only:" ++ e] ["post_only"]
      else submitIocStage cfg c liq side size referencePrice [] []
    else submitIocStage cfg c liq side size referencePrice [] []

/-! ## `modules/trade.py` — simulation accounting -/

/-- `_estimate_realized_pnl(open_side, entry, exit_price, size)`. -/
def estimateRealizedPnl (openSide : String) (entry exitPrice size : ℚ) : ℚ :=
  if openSide = "BUY" then (exitPrice - entry) * size else (entry - exitPrice) * size

/-- `_sim_slippage_pct(asset, reference_price, pump_score)`: ATR-scaled
simulated slippage, clamped to the configured band; the midpoint of the
band when the ATR or reference is unavailable. -/
def simSlippagePct (cfg : Config) (vol : Option VolMetrics)
    (referencePrice : ℚ) (pumpScore : ℤ) : ℚ :=
  let minPct := cfg.simSlippageMinPct
  let maxPct := qOr cfg.simSlippageMaxPct minPct
  let maxPct := if maxPct < minPct then minPct else maxPct
  let atrValue := if pumpScore ≥ 60 then vol.bind VolMetrics.atr1h
                  else vol.bind VolMetrics.atr6h
  let scaled :=
    match atrValue with
    | some a =>
      if referencePrice > 0 then
        minPct + a / referencePrice * 100 * cfg.simSlippageAtrMult
      else (minPct + maxPct) / 2
    | none => (minPct + maxPct) / 2
  clampQ scaled minPct maxPct

/-- `_apply_slippage_to_price(reference_price, side, slippage_pct)`. -/
def applySlippageToPrice (referencePrice : ℚ) (side : String) (slippagePct : ℚ) : ℚ :=
  let slip := max 0 slippagePct / 100
  if side = "BUY" then referencePrice * (1 + slip) else referencePrice * (1 - slip)

/-- `_estimate_taker_fee(fill_price, size)`. -/
def estimateTakerFee (cfg : Config) (fillPrice size : ℚ) : ℚ :=
  |fillPrice * size| * cfg.simTakerFeeRate

/-- `_estimate_funding_drag(trade, mark_price, size)`: pro-rata funding
cost since the trade's last funding timestamp; updates `funding_last_ts`
on the trade (exactly when the source does). -/
def estimateFundingDrag (cfg : Config) (now : ℚ) (t : Trade)
    (markPrice size : ℚ) : ℚ × Trade :=
  if ¬cfg.simulationMode then (0, t)
  else if cfg.simFundingRatePer8h ≤ 0 then (0, t)
  else
    let lastTs := t.fundingLastTs.getD t.ts
    let elapsedHours := max 0 ((now - lastTs) / 3600)
    if elapsedHours ≤ 0 then (0, t)
    else
      let notional := |size * markPrice|
      if notional ≤ 0 then (0, { t with fundingLastTs := some now })
      else
        (max 0 (notional * cfg.simFundingRatePer8h * (elapsedHours / 8)),
         { t with fundingLastTs := some now })

/-- `_apply_sim_realized_pnl(delta)`: roll the simulated realized P&L into
the simulated equity (nuclear mode keeps the aggressive target equal to
equity). -/
def applySimRealizedPnl (cfg : Config) (delta : ℚ) (w : World) : World :=
  if ¬cfg.simulationMode then w
  else
    let simR := w.simRealizedPnl + delta
    let baseEquity := w.simBaseEquity.getD w.equity
    let eq := max 0 (baseEquity + simR)
    let w := { w with simRealizedPnl := simR, equity := eq }
    if w.mode = "nuclear" then { w with aggrTarget := eq, safeTarget := 0 } else w

/-! ## `modules/trade.py` — ledger operations -/

/-- `_record_execution_result(ok, path, reason)`. -/
def recordExecutionResult (w : World) (ok : Bool) (path reason : String) : World :=
  { w with execLastOk := ok, execLastPath := path
           execLastReason := strTakeLeft reason 180 }

/-- `_emit_trade_event(...)`: append an audit event row. -/
def emitTradeEvent (w : World) (etype : String) (decisionId tradeId asset : Option String)
    (reason : Option String := none) (qty : Option ℚ := none) : World :=
  { w with events := w.events ++
      [{ etype := etype, decisionId := decisionId, tradeId := tradeId
         asset := asset, reason := reason, qty := qty }] }

/-- `_close_size(asset, open_side, size)`: simulated success under
`DRY_RUN_ORDERS`, otherwise a live close order through the router; records
the execution result either way. -/
def closeSizeOp (cfg : Config) (client : Option Client) (asset openSide : String)
    (size : ℚ) (w : World) : Bool × World :=
  if cfg.dryRunOrders then (true, recordExecutionResult w true "dry_run" "simulated")
  else
    match client with
    | none => (false, recordExecutionResult w false "none" "client_unavailable")
    | some c =>
      if size ≤ 0 then (false, recordExecutionResult w false "none" "invalid_size")
      else
        let res := submitLiveOrder cfg (some c) (alookup w.liqCache asset)
          (closeSideFromOpen openSide) size (alookup w.price asset) none
        (res.ok, recordExecutionResult w res.ok res.path res.reason)

/-- `_close_trade_partial(trade_id, fraction, reason)`: close
`min(round(initial×fraction, 8), remaining)` of the position, realize the
simulated P&L/fee/funding, shrink `remaining_size`, persist and emit a
`partial_close` event; `False` without state change when the trade is
missing/closed, the computed size is non-positive, or the close order
fails (the failed order still records its execution result). -/
def partialCloseTrade (cfg : Config) (client : Option Client) (now : ℚ)
    (tid : String) (fraction : ℚ) (reason : String) (w : World) : Bool × World :=
  match alookup w.trades tid with
  | none => (false, w)
  | some t =>
    if t.status ≠ "open" then (false, w)
    else
      let closeSize := min (round8 (t.initialSize * fraction)) t.remainingSize
      if closeSize ≤ 0 then (false, w)
      else
        let sent := closeSizeOp cfg client t.asset t.side closeSize w
        let w := sent.2
        if ¬sent.1 then (false, w)
        else
          let marketPrice := (alookup w.price t.asset).getD t.entry
          let closeSide := closeSideFromOpen t.side
          let slippagePct := if cfg.simulationMode then
              simSlippagePct cfg (alookup w.volCache t.asset) marketPrice t.pumpScore
            else 0
          let execPrice := if cfg.simulationMode then
              applySlippageToPrice marketPrice closeSide slippagePct
            else marketPrice
          let gross := estimateRealizedPnl t.side t.entry execPrice closeSize
          let fee := if cfg.simulationMode then estimateTakerFee cfg execPrice closeSize
                     else 0
          let drag := estimateFundingDrag cfg now t marketPrice closeSize
          let funding := drag.1
          let t := drag.2
          let net := gross - fee - funding
          let t := { t with
            realizedGrossPnl := t.realizedGrossPnl + gross
            realizedFees := t.realizedFees + fee
            realizedFunding := t.realizedFunding + funding
            realizedPnl := t.realizedPnl + net }
          let w := applySimRealizedPnl cfg net w
          let t := { t with remainingSize := round8 (t.remainingSize - closeSize) }
          let w := { w with trades := aset w.trades tid t, live := aset w.live tid t }
          let w := emitTradeEvent w "partial_close" t.decisionId (some tid)
            (some t.asset) (some reason) (some closeSize)
          (true, w)

/-- `_try_pyramid_add(trade_id, trade, current_price, rr_now, trigger)`:
add `round(base×fraction, 8)` to the position when the escalating RR
trigger, conviction minimum and exposure cap allow it; grows both `size`
and `remaining_size`, persists, and emits a `trade_pyramided` event. -/
def pyramidAddSize (cfg : Config) (t : Trade) : ℚ :=
  round8 (qOr t.pyramidBaseSize (qOr t.initialSize (qOr t.size 0))
    * max 0 (qOr cfg.pyramidAddFraction (3/10)))

/-- The commit continuation of `_try_pyramid_add`: grow `size` and
`remaining_size`, bump the add counter, persist and emit the
`trade_pyramided` event. -/
def pyramidApply (now : ℚ) (tid : String) (t : Trade) (addSize : ℚ)
    (rrNow : Option ℚ) (trigger : String) (w : World) : Bool × World :=
  let t := { t with
    size := round8 (qOr t.size 0 + addSize)
    remainingSize := round8 (qOr t.remainingSize 0 + addSize)
    pyramidAddCount := t.pyramidAddCount + 1
    pyramidLastRr := some (rrNow.getD 0)
    pyramidLastTs := some now }
  let w := { w with trades := aset w.trades tid t
                    live := aset w.live tid t }
  let w := emitTradeEvent w "trade_pyramided" t.decisionId
    (some tid) (some t.asset)
    (some (strTakeLeft (strTrim (sOr trigger "rr")) 60)) (some addSize)
  (true, w)

/-- The execution tail of `_try_pyramid_add`: dry-run, missing client, or
a live order through the router with health marking. -/
def pyramidExec (cfg : Config) (client : Option Client) (now : ℚ)
    (tid : String) (t : Trade) (addSize currentPrice : ℚ)
    (rrNow : Option ℚ) (trigger : String) (w : World) : Bool × World :=
  if cfg.dryRunOrders then
    pyramidApply now tid t addSize rrNow trigger
      (recordExecutionResult w true "dry_run" "simulated_pyramid")
  else
    match client with
    | none =>
      (false, recordExecutionResult w false "none" "client_unavailable")
    | some c =>
      let res := submitLiveOrder cfg (some c)
        (alookup w.liqCache t.asset) (strUpper t.side) addSize
        (some currentPrice)
        (if isPerp t.asset then some t.leverage else none)
      if res.ok then
        pyramidApply now tid t addSize rrNow trigger
          (recordExecutionResult
            { w with health := markExchangeSuccess cfg.health w.health }
            true res.path res.reason)
      else
        (false, recordExecutionResult
          { w with health := markExchangeFailure cfg.health w.health }
          false "failed" (sOr res.reason "pyramid_order_failed"))

def tryPyramidAdd (cfg : Config) (client : Option Client) (now : ℚ)
    (tid : String) (currentPrice : ℚ) (rrNow : Option ℚ) (trigger : String)
    (w : World) : Bool × World :=
  match alookup w.trades tid with
  | none => (false, w)
  | some t =>
    if ¬cfg.pyramidEnabled then (false, w)
    else if t.pyramidAddCount ≥ nOr cfg.pyramidMaxAdds 2 then (false, w)
    else if rrNow.isNone ∨ rrNow.getD 0 <
        qOr cfg.pyramidRrTrigger (3/2) + (1/2) * t.pyramidAddCount then
      (false, w)
    else if sanitizeConviction (some t.conviction) <
        sanitizeConviction (some cfg.pyramidMinConviction) then (false, w)
    else if currentPrice ≤ 0 then (false, w)
    else if pyramidAddSize cfg t ≤ 0 then (false, w)
    else if w.equity * max (1/100) (qOr cfg.pyramidMaxExposurePct (18/100)) > 0 ∧
        max 0 (t.remainingSize * currentPrice)
          + pyramidAddSize cfg t * currentPrice >
          w.equity * max (1/100) (qOr cfg.pyramidMaxExposurePct (18/100)) then
      (false, w)
    else if ¬(strUpper t.side = "BUY" ∨ strUpper t.side = "SELL") then (false, w)
    else pyramidExec cfg client now tid t (pyramidAddSize cfg t) currentPrice
      rrNow trigger w

/-- `_update_trailing_stop(trade, current_price)`: ratchet the
best-favorable price and tighten the stop toward it, never loosening. -/
def updateTrailingStop (t : Trade) (currentPrice : ℚ) : Trade :=
  match t.trailingPct with
  | none => t
  | some tp =>
    let trailFrac := tp / 100
    if trailFrac ≤ 0 then t
    else
      let bestPrice := t.bestPrice.getD currentPrice
      if t.side = "BUY" then
        let bestPrice := max bestPrice currentPrice
        let trailStop := bestPrice * (1 - trailFrac)
        let stop := match t.stop with
          | some s => max s trailStop
          | none => trailStop
        { t with stop := some stop, bestPrice := some bestPrice }
      else
        let bestPrice := min bestPrice currentPrice
        let trailStop := bestPrice * (1 + trailFrac)
        let stop := match t.stop with
          | some s => min s trailStop
          | none => trailStop
        { t with stop := some stop, bestPrice := some bestPrice }

/-- Apply an update to the trade stored under `tid` (Python mutates the
shared dict object in place). -/
def updTrade (w : World) (tid : String) (f : Trade → Trade) : World :=
  match alookup w.trades tid with
  | none => w
  | some t => { w with trades := aset w.trades tid (f t) }

/-- The settlement step of `_close_trade_full`: when remaining size is
positive and the close order goes through, realize the simulated
P&L/fee/funding, zero the remaining size and report the execution price as
the journal exit; otherwise leave the trade and report the market price. -/
def closeTradeSettle (cfg : Config) (client : Option Client) (now : ℚ)
    (t : Trade) (marketPrice : ℚ) (w : World) : Trade × World × ℚ :=
  let remaining := t.remainingSize
  if remaining > 0 then
    let sent := closeSizeOp cfg client t.asset t.side remaining w
    let w := sent.2
    if sent.1 then
      let closeSide := closeSideFromOpen t.side
      let slippagePct := if cfg.simulationMode then
          simSlippagePct cfg (alookup w.volCache t.asset) marketPrice t.pumpScore
        else 0
      let execPrice := if cfg.simulationMode then
          applySlippageToPrice marketPrice closeSide slippagePct
        else marketPrice
      let gross := estimateRealizedPnl t.side t.entry execPrice remaining
      let fee := if cfg.simulationMode then estimateTakerFee cfg execPrice remaining
                 else 0
      let drag := estimateFundingDrag cfg now t marketPrice remaining
      let funding := drag.1
      let t := drag.2
      let net := gross - fee - funding
      let t := { t with
        realizedGrossPnl := t.realizedGrossPnl + gross
        realizedFees := t.realizedFees + fee
        realizedFunding := t.realizedFunding + funding
        realizedPnl := t.realizedPnl + net
        remainingSize := 0 }
      let w := applySimRealizedPnl cfg net w
      (t, w, execPrice)
    else (t, w, marketPrice)
  else (t, w, marketPrice)

/-- `_close_trade_full(trade_id, reason, decision_id)`: close all remaining
size via `closeTradeSettle`, mark the trade closed, emit the reason-mapped
event, write the journal row and the `close_settled` event, and drop the
durable live row.  A missing trade or one not in status `open` returns with
no state change. -/
def closeTradeFull (cfg : Config) (client : Option Client) (now : ℚ)
    (tid : String) (reason : String) (decisionId : Option String)
    (w : World) : World :=
  match alookup w.trades tid with
  | none => w
  | some t =>
    if t.status ≠ "open" then w
    else
      let dId := match decisionId with
        | none => t.decisionId
        | some d => some d
      let marketPrice := (alookup w.price t.asset).getD t.entry
      let settle := closeTradeSettle cfg client now t marketPrice w
      let t := settle.1
      let w := settle.2.1
      let journalExit := settle.2.2
      let t := { t with status := "closed", closedTs := some now
                        closeReason := some reason }
      let w := { w with trades := aset w.trades tid t }
      let reasonEventType : Option String :=
        if reason = "stop" then some "stop_hit"
        else if reason = "take_profit" then some "tp_hit"
        else if reason = "pump_timer" ∨ reason = "pump_timer_recovery" then
          some "timer_exit"
        else none
      let w := match reasonEventType with
        | some et => emitTradeEvent w et dId (some tid) (some t.asset) (some reason)
        | none => w
      let w := { w with journal := w.journal ++
        [{ tradeId := tid, ts := now, asset := t.asset, side := t.side
           size := t.initialSize, entry := t.entry, exitPrice := journalExit
           pnl := t.realizedPnl, pnlGross := t.realizedGrossPnl
           feeCost := t.realizedFees, fundingCost := t.realizedFunding
           reason := reason }] }
      let w := emitTradeEvent w "close_settled" dId (some tid) (some t.asset)
        (some reason)
      { w with live := adel w.live tid }

/-- The simulated funding-drag stage of `_process_open_trade`. -/
def tickFunding (cfg : Config) (now : ℚ) (tid : String) (t0 : Trade)
    (currentPrice : ℚ) (w : World) : Trade × World :=
  if cfg.simulationMode then
    let drag := estimateFundingDrag cfg now t0 currentPrice t0.remainingSize
    let fc := drag.1
    let t := drag.2
    let t := if fc > 0 then
        { t with realizedFunding := t.realizedFunding + fc
                 realizedPnl := t.realizedPnl - fc }
      else t
    let w := { w with trades := aset w.trades tid t }
    let w := if fc > 0 then applySimRealizedPnl cfg (-fc) w else w
    (t, w)
  else (t0, w)

/-- The trailing-stop activation stage of `_process_open_trade`. -/
def tickTrailing (tid : String) (t1 : Trade) (currentPrice : ℚ) (w : World) :
    Trade × World :=
  match t1.trailingActivationPct with
  | none => (t1, w)
  | some ap =>
    if t1.entry = 0 then (t1, w)
    else
      let move := if t1.side = "BUY" then (currentPrice - t1.entry) / t1.entry
                  else (t1.entry - currentPrice) / t1.entry
      if move ≥ ap / 100 then
        let t := updateTrailingStop t1 currentPrice
        (t, { w with trades := aset w.trades tid t })
      else (t1, w)

/-- The exit-check stage of `_process_open_trade`: stop hit, take-profit
hit, the fully-partialed settlement, or persisting the live row. -/
def tickExitChecks (cfg : Config) (client : Option Client) (now : ℚ)
    (tid side : String) (currentPrice : ℚ) (w : World) : World :=
  match alookup w.trades tid with
  | none => w
  | some t3 =>
    if isStopHit side t3.stop currentPrice then
      closeTradeFull cfg client now tid "stop" t3.decisionId w
    else if isTakeProfitHit side t3.takeProfit currentPrice then
      closeTradeFull cfg client now tid "take_profit" t3.decisionId w
    else if t3.remainingSize ≤ 0 then
      let t4 := { t3 with status := "closed", closedTs := some now
                          closeReason := some "fully_partialed" }
      let w := { w with trades := aset w.trades tid t4 }
      let exitP := (alookup w.price t4.asset).getD t4.entry
      let w := { w with journal := w.journal ++
        [{ tradeId := tid, ts := now, asset := t4.asset, side := t4.side
           size := t4.initialSize, entry := t4.entry, exitPrice := exitP
           pnl := t4.realizedPnl, pnlGross := t4.realizedGrossPnl
           feeCost := t4.realizedFees, fundingCost := t4.realizedFunding
           reason := "fully_partialed" }] }
      let w := emitTradeEvent w "close_settled" t4.decisionId (some tid)
        (some t4.asset) (some "fully_partialed")
      { w with live := adel w.live tid }
    else { w with live := aset w.live tid t3 }

/-- `_process_open_trade(trade_id, trade)`: one monitoring pass — simulated
funding drag, current RR, trailing-stop activation, the once-only 1.5R/3.0R
partials, the pyramid attempt, then the exit checks. -/
def processOpenTrade (cfg : Config) (client : Option Client) (now : ℚ)
    (tid : String) (w : World) : World :=
  match alookup w.trades tid with
  | none => w
  | some t0 =>
    match alookup w.price t0.asset with
    | none => w
    | some currentPrice =>
      let funded := tickFunding cfg now tid t0 currentPrice w
      let t1 := funded.1
      let w := funded.2
      let side := t1.side
      let rrNow : Option ℚ :=
        match t1.stop with
        | none => none
        | some st => calc_rr_now side t1.entry st currentPrice
      let trailed := tickTrailing tid t1 currentPrice w
      let t2 := trailed.1
      let w := trailed.2
      let part15 : Bool × World :=
        if rrNow.isSome ∧ ¬t2.partial15 ∧ rrNow.getD 0 ≥ 3/2 then
          partialCloseTrade cfg client now tid (1/2) "1.5R" w
        else (false, w)
      let f15 := part15.1
      let w := part15.2
      let w := if f15 then updTrade w tid (fun t => { t with partial15 := true }) else w
      let part30 : Bool × World :=
        if rrNow.isSome ∧ ¬t2.partial30 ∧ rrNow.getD 0 ≥ 3 then
          partialCloseTrade cfg client now tid (3/10) "3.0R" w
        else (false, w)
      let f30 := part30.1
      let w := part30.2
      let w := if f30 then updTrade w tid (fun t => { t with partial30 := true }) else w
      let pyramidingTriggered := f15 ∨ f30
      let w :=
        if rrNow.isSome ∧ rrNow.getD 0 ≥ qOr cfg.pyramidRrTrigger (3/2) then
          (tryPyramidAdd cfg client now tid currentPrice rrNow
            (if pyramidingTriggered then "partial_close" else "rr_cross") w).2
        else w
      tickExitChecks cfg client now tid side currentPrice w

/-- One iteration of `monitor_trades_loop` for a given trade id: the loop
only processes trades whose status is `open`. -/
def monitorTick (cfg : Config) (client : Option Client) (now : ℚ)
    (tid : String) (w : World) : World :=
  match alookup w.trades tid with
  | none => w
  | some t => if t.status = "open" then processOpenTrade cfg client now tid w else w

/-- Run the monitoring loop for one trade over a sequence of
`(now, price map)` samples (the price-poll loop refreshes `state["price"]`
between ticks). -/
def runMonitor (cfg : Config) (client : Option Client) (tid : String) :
    List (ℚ × List (String × ℚ)) → World → World
  | [], w => w
  | x :: xs, w =>
    runMonitor cfg client tid xs (monitorTick cfg client x.1 tid { w with price := x.2 })

/-! ## `modules/trade.py` — `execute` -/

/-- The external decision dict consumed by `execute` (missing keys are
`none`). -/
structure Decision where
  decision : String := ""
  asset : Option String := none
  decisionId : Option String := none
  idTag : Option String := none
  price : Option ℚ := none
  sleeve : Option String := none
  pumpScore : Option ℤ := none
  leverage : Option ℤ := none
  contracts : Option ℚ := none
  riskPctOverride : Option ℚ := none
  stop : Option ℚ := none
  takeProfit : Option ℚ := none
  trailingActivationPct : Option ℚ := none
  trailingPct : Option ℚ := none
  expectedHoldMin : Option ℤ := none
  conviction : Option ℤ := none
  reason : Option String := none

/-- A regime profile dict from `get_regime_profile` (`modules/regime.py`). -/
structure RegimeProfile where
  regime : String
  riskMult : ℚ
  leverageCap : ℤ
  minRrAdd : ℚ

/-- `get_regime_profile()` from `modules/regime.py`, reading the
classifier's stored `state["regime"]` tag (empty/unset falls back to
`chop`). -/
def getRegimeProfile (cfg : Config) (regimeState : String) : RegimeProfile :=
  let regime := sOr regimeState "chop"
  if regime = "trend" then
    ⟨"trend", cfg.regimeRiskMultTrend, cfg.regimeLevCapTrend, cfg.regimeMinRrAddTrend⟩
  else if regime = "high_vol" then
    ⟨"high_vol", cfg.regimeRiskMultHighVol, cfg.regimeLevCapHighVol,
      cfg.regimeMinRrAddHighVol⟩
  else ⟨"chop", cfg.regimeRiskMultChop, cfg.regimeLevCapChop, cfg.regimeMinRrAddChop⟩

/-- The result dict of `_evaluate_entry_gate` (`vol_spike` carries the
4-decimal rounding applied when it is stored). -/
structure EntryGateResult where
  ok : Bool
  rr : Option ℚ
  minRr : ℚ
  volSpike : Option ℚ
  reasons : List String

/-- `_evaluate_entry_gate(...)`: pump-score, vol-spike and RR minimums,
with the RR minimum adjusted by sleeve and regime. -/
def evaluateEntryGate (cfg : Config) (decision : String) (vol : Option VolMetrics)
    (sleeve : String) (pumpScore : ℤ) (entry : ℚ) (stop takeProfit : Option ℚ)
    (profile : RegimeProfile) : EntryGateResult :=
  let rr := calc_rr decision entry stop takeProfit
  let minRrBase := if sleeve = "safe" then cfg.decisionMinRrSafe
                   else cfg.decisionMinRrAggressive
  let minRr := minRrBase + profile.minRrAdd
  let volSpike := volSpikeOf vol
  let minPump := iOr cfg.decisionMinPumpScore 0
  let minVolSpike := qOr cfg.decisionMinVolSpike 0
  let reasons :=
    (if pumpScore < minPump then ["pump_score<" ++ toString minPump] else [])
    ++ (match volSpike with
        | none => ["vol_spike_unavailable"]
        | some v => if v < minVolSpike then
            ["vol_spike<" ++ fmtFixed 2 minVolSpike] else [])
    ++ (match rr with
        | none => ["rr_unavailable"]
        | some r => if r < minRr then ["rr<" ++ fmtFixed 2 minRr] else [])
  { ok := reasons.isEmpty, rr := rr, minRr := minRr
    volSpike := volSpike.map (fun v => ((round (v * 10000) : ℤ) : ℚ) / 10000)
    reasons := reasons }

/-- `_hours_since_started()`. -/
def hoursSinceStarted (now : ℚ) (w : World) : ℚ :=
  match w.startedAt with
  | none => 0
  | some s => max 0 ((now - s) / 3600)

/-- `_readiness_ready()`: also records the flag into the state. -/
def readinessReady (cfg : Config) (now : ℚ) (w : World) : Bool × World :=
  if cfg.readinessHours ≤ 0 then (true, { w with readyToTrade := true })
  else
    let ready := decide (hoursSinceStarted now w ≥ cfg.readinessHours)
    (ready, { w with readyToTrade := ready })

/-- The trade record `execute` installs in `state["trades"]` on a
successful open (`modules/trade.py` lines 1519–1562): remaining size and
pyramid base equal the opened size, lifecycle flags cleared, the open fee
pre-charged against realized P&L. -/
def mkOpenTrade (now : ℚ) (asset side : String)
    (size entryPrice entryRefPrice entrySlippagePct : ℚ) (leverage : ℤ)
    (stop takeProfit trailActPct trailPct : Option ℚ)
    (expectedHoldMin : Option ℤ) (pumpScore : ℤ) (decisionId : Option String)
    (conviction : Option ℤ) (sleeve regime : String) (rr volSpike : Option ℚ)
    (executionPath : String) (softPenalty : ℤ)
    (guardSpreadPct guardSizeToVol : Option ℚ) (openFee : ℚ)
    (reason : Option String) : Trade :=
  { ts := now, asset := asset, side := side
    size := size, initialSize := size, remainingSize := size
    status := "open"
    entry := entryPrice, entryRefPrice := entryRefPrice
    entrySlippagePct := entrySlippagePct
    bestPrice := some entryPrice
    leverage := leverage
    stop := stop, takeProfit := takeProfit
    trailingActivationPct := trailActPct, trailingPct := trailPct
    expectedHoldMin := expectedHoldMin
    fundingLastTs := some now
    pumpScore := pumpScore, decisionId := decisionId
    conviction := sanitizeConviction conviction
    sleeve := sleeve, regime := regime
    rr := rr, volSpike := volSpike
    executionPath := executionPath, execGateSoftPenalty := softPenalty
    guardSpreadPct := guardSpreadPct, guardSizeToVol1mPct := guardSizeToVol
    partial15 := false, partial30 := false
    pyramidBaseSize := size, pyramidAddCount := 0
    pyramidLastRr := none, pyramidLastTs := none
    realizedPnl := -openFee, realizedGrossPnl := 0
    realizedFees := openFee, realizedFunding := 0
    reason := reason.getD "grok"
    closedTs := none, closeReason := none }

/-- `execute(dec)` from `modules/trade.py`: decision normalization, the
close branch (close matching ledger trades, then the exchange position),
or the open pipeline — health/drawdown/readiness gates, sleeve and pump
rules, regime-profiled leverage, stop/take-profit derivation, the entry
quality gate, sizing, the execution micro-gate, order routing and trade
registration.  `freshId` stands for the freshly drawn `uuid4`. -/
def execute (cfg : Config) (client : Option Client) (now : ℚ) (freshId : String)
    (dec : Decision) (w : World) : World :=
  let decision := strLower (strTrim dec.decision)
  if ¬(decision = "open_long" ∨ decision = "open_short" ∨ decision = "close") then w
  else
    match dec.asset with
    | none => w
    | some asset =>
      if asset = "" then w
      else if ¬isValidAsset asset then w
      else if decision = "close" then
        let w := emitTradeEvent w "trade_close_requested" dec.decisionId none
          (some asset)
        let w := (w.trades.map Prod.fst).foldl (fun w tid =>
          match alookup w.trades tid with
          | some t =>
            if t.status = "open" ∧ t.asset = asset then
              closeTradeFull cfg client now tid "manual_close" dec.decisionId w
            else w
          | none => w) w
        let position := (alookup w.positions asset).getD ⟨"", 0⟩
        let rawSize := position.size
        let size := |rawSize|
        if size ≤ 0 then w
        else
          let side := inferCloseSide position rawSize
          if cfg.dryRunOrders then recordExecutionResult w true "dry_run" "simulated"
          else
            match client with
            | none => recordExecutionResult w false "none" "client_unavailable"
            | some c =>
              let res := submitLiveOrder cfg (some c) (alookup w.liqCache asset)
                side size (alookup w.price asset) none
              if res.ok then
                let w := { w with health := markExchangeSuccess cfg.health w.health }
                recordExecutionResult w true res.path res.reason
              else
                let w := { w with health := markExchangeFailure cfg.health w.health }
                recordExecutionResult w false "failed"
                  (sOr res.reason "close_order_failed")
      else
        -- open_long / open_short
        if healthEntriesBlocked cfg.health w.health then w
        else if w.drawdownPaused then w
        else
          let readiness := readinessReady cfg now w
          let w := readiness.2
          if ¬readiness.1 then w
          else if decision = "open_short" ∧ ¬isPerp asset then w
          else
            let priceOpt : Option ℚ :=
              match dec.price with
              | some p => if p = 0 then alookup w.price asset else some p
              | none => alookup w.price asset
            match priceOpt with
            | none => w
            | some price =>
              let sleeve := strLower (dec.sleeve.getD "any")
              let sleeve := if ¬(sleeve = "aggressive" ∨ sleeve = "safe" ∨ sleeve = "any")
                then "any" else sleeve
              let sleeve := if w.mode = "hybrid" ∧ sleeve = "any" then "aggressive"
                else sleeve
              let pumpScore := dec.pumpScore.getD 0
              if sleeve = "safe" ∧
                  ¬(asset ∈ cfg.safeAssets ∨
                    ((assetBase asset = "BTC" ∨ assetBase asset = "ETH" ∨
                      assetBase asset = "SOL") ∧
                     (strEndsWith asset "-USD" ∨ strEndsWith asset "-USDC"))) then w
              else if sleeve = "safe" ∧ pumpScore ≥ 60 then w
              else
                let regimeProfile := getRegimeProfile cfg w.regime
                let regime := regimeProfile.regime
                let leverage := sanitizeLeverage cfg dec.leverage
                let leverage := if ¬cfg.simulationMode ∧ 0 < w.equity ∧ w.equity < 100
                  then min leverage 3 else leverage
                let leverageCap := regimeProfile.leverageCap
                let leverage := if leverage > leverageCap then leverageCap else leverage
                let atrValue := if pumpScore ≥ 60 then
                    (alookup w.volCache asset).bind VolMetrics.atr1h
                  else (alookup w.volCache asset).bind VolMetrics.atr6h
                let derived := derive_stop_take_profit decision price atrValue pumpScore
                let stop := if dec.stop = none then derived.1 else dec.stop
                let takeProfit := if dec.takeProfit = none then derived.2
                  else dec.takeProfit
                let trailActPct := some (dec.trailingActivationPct.getD 10)
                let trailPct := some (dec.trailingPct.getD 4)
                let gate := evaluateEntryGate cfg decision (alookup w.volCache asset)
                  sleeve pumpScore price stop takeProfit regimeProfile
                let rr := gate.rr
                let w := { w with
                  decisionGateLastOk := gate.ok
                  decisionGateLastReason :=
                    if gate.ok then "ok" else String.intercalate ";" gate.reasons }
                if ¬gate.ok then
                  emitTradeEvent w "trade_open_rejected_quality" dec.decisionId none
                    (some asset)
                else
                  let riskMult := regimeProfile.riskMult
                  let riskPctOverride := sanitizeRiskPct dec.riskPctOverride
                  let size :=
                    match dec.contracts with
                    | some ct =>
                      let size := |ct| * riskMult
                      match riskPctOverride with
                      | some rp =>
                        if price > 0 then
                          let budget := if w.mode = "hybrid" then
                              (if sleeve = "safe" then w.safeTarget else w.aggrTarget)
                            else w.equity
                          let maxNotional := budget * rp
                          let maxSize := if maxNotional > 0 then
                              round8 (maxNotional / price) else 0
                          if maxSize > 0 ∧ size > maxSize then maxSize else size
                        else size
                      | none => size
                    | none =>
                      let riskPct := riskPctOverride.getD
                        (if sleeve = "safe" then cfg.riskSafe else cfg.riskNuclear)
                      let budget := if w.mode = "hybrid" then
                          (if sleeve = "safe" then w.safeTarget else w.aggrTarget)
                        else w.equity
                      round8 (budget * riskPct * riskMult / price)
                  if size ≤ 0 then w
                  else
                    let side := if decision = "open_long" then "BUY" else "SELL"
                    let execGate := executionMicroGate cfg (alookup w.liqCache asset)
                      (alookup w.microCache asset) side size price
                    let w := { w with
                      execGateLastOk := execGate.ok
                      execGateLastReason := if execGate.ok then "ok"
                        else String.intercalate ";" execGate.hardReasons }
                    if ¬execGate.ok then
                      emitTradeEvent w "trade_open_rejected_exec_safety"
                        dec.decisionId none (some asset)
                    else
                      let softPenalty := execGate.softPenalty
                      let conviction :=
                        if softPenalty > 0 ∧ dec.conviction ≠ none then
                          some (max 0 (dec.conviction.getD 0 - softPenalty))
                        else dec.conviction
                      let w := emitTradeEvent w "trade_open_requested"
                        dec.decisionId none (some asset)
                      let proceed : String → World → World :=
                        fun executionPath w =>
                          let entryRefPrice := price
                          let entrySlippagePct := if cfg.simulationMode then
                              simSlippagePct cfg (alookup w.volCache asset)
                                entryRefPrice pumpScore
                            else 0
                          let entryPrice := if cfg.simulationMode then
                              applySlippageToPrice entryRefPrice side entrySlippagePct
                            else entryRefPrice
                          let openFee := if cfg.simulationMode then
                              estimateTakerFee cfg entryPrice size else 0
                          let w := if cfg.simulationMode ∧ openFee > 0 then
                              applySimRealizedPnl cfg (-openFee) w
                            else w
                          let tradeId := sOr (dec.idTag.getD "") freshId
                          let liq := alookup w.liqCache asset
                          let guardSpreadPct := liq.bind LiqMetrics.spreadPct
                          let vol1m := (liq.bind LiqMetrics.volume1m).getD 0
                          let guardSizeToVol := if vol1m > 0 then
                              some (size / max vol1m (1/1000000000000) * 100)
                            else none
                          let t := mkOpenTrade now asset side size entryPrice
                            entryRefPrice entrySlippagePct leverage stop takeProfit
                            trailActPct trailPct dec.expectedHoldMin pumpScore
                            dec.decisionId conviction sleeve regime rr gate.volSpike
                            executionPath softPenalty guardSpreadPct guardSizeToVol
                            openFee dec.reason
                          let w := { w with trades := aset w.trades tradeId t
                                            live := aset w.live tradeId t }
                          let w := emitTradeEvent w "trade_opened" dec.decisionId
                            (some tradeId) (some asset)
                          if pumpScore ≥ 60 ∧ dec.expectedHoldMin ≠ none then
                            { w with timers := w.timers ++ [tradeId] }
                          else w
                      if cfg.dryRunOrders then
                        proceed "dry_run" (recordExecutionResult w true "dry_run" "simulated")
                      else
                        match client with
                        | none =>
                          recordExecutionResult w false "none" "client_unavailable"
                        | some c =>
                          let res := submitLiveOrder cfg (some c)
                            (alookup w.liqCache asset) side size (some price)
                            (if isPerp asset then some leverage else none)
                          if res.ok then
                            let w := { w with
                              health := markExchangeSuccess cfg.health w.health }
                            proceed (sOr res.path "unknown")
                              (recordExecutionResult w true res.path res.reason)
                          else
                            let w := { w with
                              health := markExchangeFailure cfg.health w.health }
                            recordExecutionResult w false "failed"
                              (sOr res.reason "open_order_failed")

/-- The path tags `_submit_live_order` can return with a client present. -/
def RouterPaths : List String :=
  ["post_only", "ioc", "market", "limit_retry_ioc", "rejected", "failed"]

/-! ## Invariants and observation helpers -/

/-- The sizing slice of the spec's trade invariant: `remaining_size ∈ [0, size]`. -/
def TradeSizeInv (t : Trade) : Prop :=
  0 ≤ t.remainingSize ∧ t.remainingSize ≤ t.size

/-- `TradeSizeInv` for every trade in the ledger. -/
def WorldSizeInv (w : World) : Prop := ∀ p ∈ w.trades, TradeSizeInv p.2

/-- The accounting identity
`realized_net_pnl = realized_gross_pnl − realized_fees − realized_funding`. -/
def TradePnlInv (t : Trade) : Prop :=
  t.realizedPnl = t.realizedGrossPnl - t.realizedFees - t.realizedFunding

/-- `TradePnlInv` for every trade in the ledger. -/
def WorldPnlInv (w : World) : Prop := ∀ p ∈ w.trades, TradePnlInv p.2

/-- The remaining size recorded for a trade id (`0` when absent). -/
def remainingOf (w : World) (tid : String) : ℚ :=
  ((alookup w.trades tid).map Trade.remainingSize).getD 0

/-- The number of `partial_close` events for the given trade id and
partial reason (`"1.5R"` / `"3.0R"`). -/
def countPartialEvents (evs : List TradeEvent) (tid reason : String) : ℕ :=
  (evs.filter (fun e =>
    e.etype == "partial_close" && e.tradeId == some tid && e.reason == some reason)).length

/-- The `partial_15` lifecycle flag of a trade id (`true` when the id is
absent, as no further partial can fire then). -/
def partial15Flag (w : World) (tid : String) : Bool :=
  ((alookup w.trades tid).map Trade.partial15).getD true

/-- The `partial_30` lifecycle flag of a trade id. -/
def partial30Flag (w : World) (tid : String) : Bool :=
  ((alookup w.trades tid).map Trade.partial30).getD true

/-- The once-only bookkeeping measure for the two partial tiers: the event
counts stay below their budgets (a budget is spent when the corresponding
`partial_15`/`partial_30` flag is still unset) and never decrease. -/
def Measure (tid : String) (n15 n30 l15 l30 : ℕ) (w : World) : Prop :=
  countPartialEvents w.events tid "1.5R"
      + (if partial15Flag w tid then 0 else 1) ≤ n15 ∧
  countPartialEvents w.events tid "3.0R"
      + (if partial30Flag w tid then 0 else 1) ≤ n30 ∧
  l15 ≤ countPartialEvents w.events tid "1.5R" ∧
  l30 ≤ countPartialEvents w.events tid "3.0R"

/-! ## Concrete fixtures (the `config.py` defaults and a small world) -/

/-- The configuration defaults of `modules/config.py`. -/
def defaultCfg : Config :=
  { simulationMode := false
    dryRunOrders := true
    maxLev := 10
    riskNuclear := 12/100
    riskSafe := 15/1000
    safeAssets := ["BTC-PERP-INTX", "ETH-PERP-INTX", "SOL-PERP-INTX"]
    readinessHours := 12
    health := ⟨2, 5, 2, true⟩
    decisionMinPumpScore := 15
    decisionMinVolSpike := 1
    decisionMinRrAggressive := 3/2
    decisionMinRrSafe := 2
    execPostOnlyEnabled := true
    execPostOnlyOffsetPct := 2/100
    execIocFallbackEnabled := true
    execIocSlippagePct := 5/100
    execMarketFallbackEnabled := true
    execMarketGuardMaxSpreadPct := 35/100
    execMarketGuardMaxSizeToVol1mPct := 1/2
    execMarketGuardLimitRetryEnabled := true
    execMarketGuardRetryIocSlippagePct := 8/100
    simTakerFeeRate := 6/10000
    simFundingRatePer8h := 3/10000
    simSlippageMinPct := 10/100
    simSlippageMaxPct := 50/100
    simSlippageAtrMult := 50/100
    pyramidEnabled := true
    pyramidRrTrigger := 3/2
    pyramidAddFraction := 30/100
    pyramidMaxAdds := 2
    pyramidMinConviction := 80
    pyramidMaxExposurePct := 18/100
    regimeRiskMultTrend := 1
    regimeRiskMultChop := 7/10
    regimeRiskMultHighVol := 1/2
    regimeLevCapTrend := 8
    regimeLevCapChop := 5
    regimeLevCapHighVol := 3
    regimeMinRrAddTrend := 0
    regimeMinRrAddChop := 2/10
    regimeMinRrAddHighVol := 3/10 }

/-- A small open long position used as a concrete fixture. -/
def trade0 : Trade :=
  { ts := 0, asset := "BTC-PERP-INTX", side := "BUY"
    size := 1, initialSize := 1, remainingSize := 1
    status := "open", entry := 100, entryRefPrice := 100, entrySlippagePct := 0
    bestPrice := some 100, leverage := 6
    stop := some 90, takeProfit := some 200
    trailingActivationPct := none, trailingPct := none
    expectedHoldMin := none, fundingLastTs := some 0
    pumpScore := 0, decisionId := none, conviction := 80
    sleeve := "any", regime := "chop", rr := none, volSpike := none
    executionPath := "dry_run", execGateSoftPenalty := 0
    guardSpreadPct := none, guardSizeToVol1mPct := none
    partial15 := false, partial30 := false
    pyramidBaseSize := 1, pyramidAddCount := 0
    pyramidLastRr := none, pyramidLastTs := none
    realizedPnl := 0, realizedGrossPnl := 0, realizedFees := 0, realizedFunding := 0
    reason := "grok", closedTs := none, closeReason := none }

/-- `trade0` with both partial flags already set. -/
def trade1 : Trade := { trade0 with partial15 := true, partial30 := true }

/-- A world holding `trade0` as its one live trade. -/
def world0 : World :=
  { trades := [("t1", trade0)]
    positions := []
    price := [("BTC-PERP-INTX", 100)]
    volCache := [], liqCache := [], microCache := []
    equity := 10000, simRealizedPnl := 0, simBaseEquity := none
    mode := "", aggrTarget := 0, safeTarget := 0
    regime := "chop", startedAt := none, readyToTrade := true
    health := ⟨.healthy, 0, 0, false⟩
    drawdownPaused := false, timers := []
    live := [("t1", trade0)]
    journal := [], events := []
    execLastOk := false, execLastPath := "", execLastReason := ""
    decisionGateLastOk := false, decisionGateLastReason := ""
    execGateLastOk := false, execGateLastReason := "" }

/-- `world0` with the partials already taken (`trade1` live). -/
def world1 : World :=
  { world0 with trades := [("t1", trade1)], live := [("t1", trade1)] }

/-! ## Helper lemmas about `round8` -/

theorem round8_mono {x y : ℚ} (h : x ≤ y) : round8 x ≤ round8 y := by
  unfold round8
  have hr : round (x * 100000000) ≤ round (y * 100000000) := by
    rw [round_eq, round_eq]
    exact Int.floor_mono (by nlinarith)
  have hc : (0 : ℚ) < 100000000 := by norm_num
  exact (div_le_div_iff_of_pos_right hc).mpr (by exact_mod_cast hr)

theorem round8_zero : round8 0 = 0 := by simp [round8]

theorem round8_nonneg {x : ℚ} (h : 0 ≤ x) : 0 ≤ round8 x := by
  have := round8_mono h
  rwa [round8_zero] at this

theorem round8_le_add_half {x : ℚ} : round8 x ≤ x + 1 / 200000000 := by
  unfold round8
  have hr : (round (x * 100000000) : ℚ) ≤ x * 100000000 + 1 / 2 := by
    rw [round_eq]
    exact_mod_cast Int.floor_le (x * 100000000 + 1 / 2)
  have hc : (0 : ℚ) < 100000000 := by norm_num
  refine le_trans ((div_le_div_iff_of_pos_right hc).mpr hr) (le_of_eq ?_)
  ring

theorem round8_pos_ge {x : ℚ} (h : 0 < round8 x) : 1 / 100000000 ≤ round8 x := by
  unfold round8 at h ⊢
  have hn : (0 : ℤ) < round (x * 100000000) := by
    by_contra hc
    push_neg at hc
    have : (round (x * 100000000) : ℚ) / 100000000 ≤ 0 := by
      apply div_nonpos_of_nonpos_of_nonneg
      · exact_mod_cast hc
      · norm_num
    linarith
  have h1 : (1 : ℤ) ≤ round (x * 100000000) := hn
  have hc : (0 : ℚ) < 100000000 := by norm_num
  calc (1 : ℚ) / 100000000 ≤ (round (x * 100000000) : ℚ) / 100000000 :=
    (div_le_div_iff_of_pos_right hc).mpr (by exact_mod_cast h1)

/-! ## C6 — ATR-derived stop/take-profit and RR -/

/-- C6: for an `open_long` at entry 50,000 with ATR 500 and pump-score 70
(≥ 60, tight 1.8/2.7 pair), the derived stop is 49,100, the take-profit is
51,350, and the risk/reward is 1.5; for pump-score < 60 the wider 2.5/3.8
pair applies. -/
theorem C6_stop_take_profit_scenario :
    derive_stop_take_profit "open_long" 50000 (some 500) 70
        = (some 49100, some 51350) ∧
    calc_rr "open_long" 50000 (some 49100) (some 51350) = some (3/2) ∧
    (∀ (entry atr : ℚ) (p : ℤ), p < 60 →
      derive_stop_take_profit "open_long" entry (some atr) p
          = (some (entry - 25/10 * atr), some (entry + 38/10 * atr)) ∧
      derive_stop_take_profit "open_short" entry (some atr) p
          = (some (entry + 25/10 * atr), some (entry - 38/10 * atr))) := by
  refine ⟨?_, ?_, ?_⟩
  · simp only [derive_stop_take_profit]
    norm_num
  · simp only [calc_rr]
    norm_num
  · intro entry atr p hp
    have h60 : ¬(p ≥ 60) := by omega
    constructor
    · simp only [derive_stop_take_profit, if_neg h60]
      norm_num
    · simp only [derive_stop_take_profit, if_neg h60]
      rw [if_neg (by decide : ¬("open_short" = "open_long"))]

/-- Witness for `C6_stop_take_profit_scenario` at pump-score 59. -/
theorem C6_stop_take_profit_scenario_witness :
    (59 : ℤ) < 60 ∧
      derive_stop_take_profit "open_long" 100 (some 4) 59
        = (some (100 - 25/10 * 4), some (100 + 38/10 * 4)) :=
  ⟨by norm_num, (C6_stop_take_profit_scenario.2.2 100 4 59 (by norm_num)).1⟩

/-! ## C3 — HealthMonitor state machine -/

theorem setHealthState_hstate (s : HealthSt) (st : HState) :
    (setHealthState s st).hstate = st := by
  unfold setHealthState
  split
  · assumption
  · split <;> rfl

theorem setHealthState_failures (s : HealthSt) (st : HState) :
    (setHealthState s st).failures = s.failures := by
  unfold setHealthState
  split
  · rfl
  · split <;> rfl

theorem failN_succ (cfg : HCfg) (n : ℕ) (s : HealthSt) :
    failN cfg (n + 1) s = markExchangeFailure cfg (failN cfg n s) := by
  induction n generalizing s with
  | zero => rfl
  | succ n ih =>
    show failN cfg (n + 1) (markExchangeFailure cfg s) = _
    rw [ih]
    rfl

theorem succN_succ (cfg : HCfg) (n : ℕ) (s : HealthSt) :
    succN cfg (n + 1) s = markExchangeSuccess cfg (succN cfg n s) := by
  induction n generalizing s with
  | zero => rfl
  | succ n ih =>
    show succN cfg (n + 1) (markExchangeSuccess cfg s) = _
    rw [ih]
    rfl

theorem failN_from_healthy (cfg : HCfg) (s0 : HealthSt) (h0 : s0.hstate = .healthy)
    (hf : s0.failures = 0) :
    ∀ k, k < cfg.outageFailures →
      (failN cfg k s0).failures = k ∧
        ((failN cfg k s0).hstate = .healthy ∨ (failN cfg k s0).hstate = .degraded) := by
  intro k
  induction k with
  | zero => exact fun _ => ⟨hf, Or.inl h0⟩
  | succ k ih =>
    intro hk
    obtain ⟨hfk, hst⟩ := ih (Nat.lt_of_succ_lt hk)
    rw [failN_succ]
    set s := failN cfg k s0 with hs
    unfold markExchangeFailure
    have hne : ¬(s.failures + 1 ≥ cfg.outageFailures) := by omega
    rw [if_neg hne]
    rcases hst with h | h
    · by_cases hd : s.failures + 1 ≥ cfg.degradedFailures
      · rw [if_pos ⟨h, hd⟩]
        refine ⟨?_, Or.inr (setHealthState_hstate _ _)⟩
        rw [setHealthState_failures]
        simp only [HealthSt.failures]
        omega
      · rw [if_neg (fun hc => hd hc.2)]
        rw [if_neg (by simp [h])]
        exact ⟨by simpa using hfk, Or.inl h⟩
    · rw [if_neg (by simp [h])]
      rw [if_neg (by simp [h])]
      exact ⟨by simpa using hfk, Or.inr h⟩

theorem markSuccess_healthy (cfg : HCfg) (s : HealthSt) (h : s.hstate = .healthy) :
    (markExchangeSuccess cfg s).hstate = .healthy := by
  unfold markExchangeSuccess
  rw [if_pos h]
  exact h

theorem succN_healthy (cfg : HCfg) (n : ℕ) (s : HealthSt) (h : s.hstate = .healthy) :
    (succN cfg n s).hstate = .healthy := by
  induction n generalizing s with
  | zero => exact h
  | succ n ih => exact ih _ (markSuccess_healthy cfg s h)

theorem recovering_to_healthy (cfg : HCfg) :
    ∀ (n : ℕ) (s : HealthSt), s.hstate = .recovering →
      cfg.recoverStreak ≤ s.successes + n → 1 ≤ n →
      (succN cfg n s).hstate = .healthy := by
  intro n
  induction n with
  | zero => intro s _ _ h; omega
  | succ n ih =>
    intro s h hstreak _
    show (succN cfg n (markExchangeSuccess cfg s)).hstate = .healthy
    unfold markExchangeSuccess
    rw [if_neg (by simp [h]), if_neg (by simp [h])]
    by_cases hs : s.successes + 1 ≥ cfg.recoverStreak
    · rw [if_pos hs]
      exact succN_healthy cfg n _ (setHealthState_hstate _ _)
    · rw [if_neg hs]
      cases n with
      | zero => omega
      | succ m =>
        exact ih { s with failures := 0, successes := s.successes + 1 }
          (by simpa using h) (by simpa using by omega) (by omega)

/-- C3: from healthy, `outage_threshold` consecutive failures reach
`outage`; from outage a single success reaches `recovering`; from
recovering, `recovery_streak` consecutive successes reach `healthy`; and
any single failure while recovering reaches `outage` immediately.
The hypotheses are the `config.py` clamps (both thresholds ≥ 1). -/
theorem C3_health_state_machine (cfg : HCfg)
    (hT : 1 ≤ cfg.outageFailures) (hS : 1 ≤ cfg.recoverStreak) :
    (∀ s0 : HealthSt, s0.hstate = .healthy → s0.failures = 0 →
      (failN cfg cfg.outageFailures s0).hstate = .outage) ∧
    (∀ s : HealthSt, s.hstate = .outage →
      (markExchangeSuccess cfg s).hstate = .recovering) ∧
    (∀ s : HealthSt, s.hstate = .recovering →
      (succN cfg cfg.recoverStreak s).hstate = .healthy) ∧
    (∀ s : HealthSt, s.hstate = .recovering →
      (markExchangeFailure cfg s).hstate = .outage) := by
  refine ⟨?_, ?_, ?_, ?_⟩
  · intro s0 h0 hf
    obtain ⟨k, hk⟩ : ∃ k, cfg.outageFailures = k + 1 :=
      ⟨cfg.outageFailures - 1, by omega⟩
    rw [hk, failN_succ]
    obtain ⟨hfk, _⟩ := failN_from_healthy cfg s0 h0 hf k (by omega)
    unfold markExchangeFailure
    rw [if_pos (by omega)]
    exact setHealthState_hstate _ _
  · intro s h
    unfold markExchangeSuccess
    rw [if_neg (by simp [h]), if_pos h]
    exact setHealthState_hstate _ _
  · intro s h
    exact recovering_to_healthy cfg cfg.recoverStreak s h (by omega) hS
  · intro s h
    unfold markExchangeFailure
    by_cases hf : s.failures + 1 ≥ cfg.outageFailures
    · rw [if_pos hf]
      exact setHealthState_hstate _ _
    · rw [if_neg hf, if_neg (by simp [h]), if_pos h]
      exact setHealthState_hstate _ _

/-- Witness for `C3_health_state_machine` at the default thresholds
(degraded 2, outage 5, recovery streak 2). -/
theorem C3_health_state_machine_witness :
    (failN ⟨2, 5, 2, true⟩ 5 ⟨.healthy, 0, 0, false⟩).hstate = .outage ∧
    (markExchangeSuccess ⟨2, 5, 2, true⟩ ⟨.outage, 5, 0, false⟩).hstate = .recovering ∧
    (succN ⟨2, 5, 2, true⟩ 2 ⟨.recovering, 0, 1, false⟩).hstate = .healthy ∧
    (markExchangeFailure ⟨2, 5, 2, true⟩ ⟨.recovering, 0, 1, false⟩).hstate = .outage :=
  ⟨(C3_health_state_machine ⟨2, 5, 2, true⟩ (by norm_num) (by norm_num)).1 _ rfl rfl,
   (C3_health_state_machine ⟨2, 5, 2, true⟩ (by norm_num) (by norm_num)).2.1 _ rfl,
   (C3_health_state_machine ⟨2, 5, 2, true⟩ (by norm_num) (by norm_num)).2.2.1 _ rfl,
   (C3_health_state_machine ⟨2, 5, 2, true⟩ (by norm_num) (by norm_num)).2.2.2 _ rfl⟩

/-! ## C4 — DrawdownGuard -/

theorem evaluate_preserves_paused (cfg : DDCfg) (now equity : ℚ) (s : DDState) :
    (evaluateDrawdownStatus cfg now equity s).2.paused = s.paused := by
  unfold evaluateDrawdownStatus
  rfl

/-- C4: the drawdown percentage is `max(0, (peak−equity)/peak×100)`; limits
are checked in the priority order daily, weekly, ATH; an equity run dipping
6% from its daily peak under a 5% daily limit reports `breached` with
reason `daily`; and a run that never breaches never sets the paused flag. -/
theorem C4_drawdown_guard :
    (∀ c p : ℚ, 0 < p → pctDrawdown c p = max 0 ((p - c) / p * 100)) ∧
    (∀ (cfg : DDCfg) (now equity : ℚ) (s : DDState),
      (evaluateDrawdownStatus cfg now equity s).1.dailyDdPct ≥ cfg.dailyLimitPct →
      (evaluateDrawdownStatus cfg now equity s).1.breached = true ∧
      (evaluateDrawdownStatus cfg now equity s).1.reason = some "daily") ∧
    ((evaluateDrawdownStatus ⟨5, 35/2, 30, true, true⟩ 10 94
        (drawdownGuardStep ⟨5, 35/2, 30, true, true⟩ 0 100 DDState.init).1).1.breached
          = true ∧
     (evaluateDrawdownStatus ⟨5, 35/2, 30, true, true⟩ 10 94
        (drawdownGuardStep ⟨5, 35/2, 30, true, true⟩ 0 100 DDState.init).1).1.reason
          = some "daily") ∧
    (∀ (cfg : DDCfg) (inputs : List (ℚ × ℚ)) (s : DDState),
      s.paused = false → NoBreach cfg inputs s →
      (runDrawdownGuard cfg inputs s).paused = false) := by
  refine ⟨?_, ?_, ?_, ?_⟩
  · intro c p hp
    unfold pctDrawdown
    rw [if_neg (by linarith)]
  · intro cfg now equity s h
    unfold evaluateDrawdownStatus at h ⊢
    dsimp only at h ⊢
    rw [if_pos h]
    exact ⟨rfl, rfl⟩
  · have hstep : (drawdownGuardStep ⟨5, 35/2, 30, true, true⟩ 0 100 DDState.init).1
        = { DDState.init with
            history := [⟨0, 100⟩], dailyPeak := 100, dailyDate := some 0
            athPeak := 100, weeklyPeak := 100 } := by
      unfold drawdownGuardStep evaluateDrawdownStatus appendEquityPoint lastN
        pctDrawdown dayKey DDState.init
      norm_num
    rw [hstep]
    unfold evaluateDrawdownStatus appendEquityPoint lastN pctDrawdown dayKey
    norm_num
  · intro cfg inputs
    induction inputs with
    | nil => intro s h _; exact h
    | cons x xs ih =>
      intro s h hnb
      obtain ⟨hb, hnb'⟩ := hnb
      show (runDrawdownGuard cfg xs (drawdownGuardStep cfg x.1 x.2 s).1).paused = false
      refine ih _ ?_ hnb'
      unfold drawdownGuardStep
      simp only [hb, Bool.false_eq_true, if_false]
      rw [evaluate_preserves_paused]
      exact h

/-- Witness for `C4_drawdown_guard`: priority at a concrete breach, and a
flat two-sample equity run never pauses. -/
theorem C4_drawdown_guard_witness :
    (evaluateDrawdownStatus ⟨5, 35/2, 30, true, true⟩ 10 94
        ⟨[⟨0, 100⟩], 100, some 0, 100, 100, 0, 0, 0, false, ""⟩).1.reason
      = some "daily" ∧
    (runDrawdownGuard ⟨5, 35/2, 30, true, true⟩ [(0, 100), (10, 100)]
        DDState.init).paused = false := by
  constructor
  · refine (C4_drawdown_guard.2.1 ⟨5, 35/2, 30, true, true⟩ 10 94
      ⟨[⟨0, 100⟩], 100, some 0, 100, 100, 0, 0, 0, false, ""⟩ ?_).2
    unfold evaluateDrawdownStatus appendEquityPoint lastN pctDrawdown dayKey
    norm_num
  · refine C4_drawdown_guard.2.2.2 _ _ _ rfl ?_
    refine ⟨?_, ?_, trivial⟩
    · unfold evaluateDrawdownStatus appendEquityPoint lastN pctDrawdown dayKey
        DDState.init
      norm_num
    · unfold drawdownGuardStep evaluateDrawdownStatus appendEquityPoint lastN
        pctDrawdown dayKey DDState.init
      norm_num

/-! ## C10 — execution micro-gate depth reject and soft penalty -/

theorem spread_ne_depth (a b : String) : ("spread>" ++ a ++ "%") ≠ "depth<" ++ b := by
  intro h
  have h2 := congrArg String.data h
  simp [String.data_append] at h2

/-- C10: the depth hard-reject fires exactly when a total book depth is
reported, is strictly positive, and is below `max(10000, 1.2×notional)`;
in particular it never fires when both depth legs are missing or the
reported total is zero; and the soft conviction penalty is always in
`[0, 40]`. -/
theorem C10_micro_gate_depth_and_penalty :
    ∀ (cfg : Config) (cache : Option LiqMetrics) (micro : Option MicroMetrics)
      (side : String) (size price : ℚ),
      (("depth<" ++ fmtFixed 0 (max 10000 (|size| * price * (12/10))))
          ∈ (executionMicroGate cfg cache micro side size price).hardReasons ↔
        ((micro.bind MicroMetrics.bidDepthUsd).isSome ∨
            (micro.bind MicroMetrics.askDepthUsd).isSome) ∧
          0 < (micro.bind MicroMetrics.bidDepthUsd).getD 0 +
              (micro.bind MicroMetrics.askDepthUsd).getD 0 ∧
          (micro.bind MicroMetrics.bidDepthUsd).getD 0 +
              (micro.bind MicroMetrics.askDepthUsd).getD 0 <
            max 10000 (|size| * price * (12/10))) ∧
      (micro.bind MicroMetrics.bidDepthUsd = none ∧
          micro.bind MicroMetrics.askDepthUsd = none →
        ("depth<" ++ fmtFixed 0 (max 10000 (|size| * price * (12/10))))
          ∉ (executionMicroGate cfg cache micro side size price).hardReasons) ∧
      (0 ≤ (executionMicroGate cfg cache micro side size price).softPenalty ∧
        (executionMicroGate cfg cache micro side size price).softPenalty ≤ 40) := by
  intro cfg cache micro side size price
  unfold executionMicroGate
  dsimp only
  set b := micro.bind MicroMetrics.bidDepthUsd with hb0
  set a := micro.bind MicroMetrics.askDepthUsd with ha0
  set md : ℚ := max 10000 (|size| * price * (12/10)) with hmd
  set cap : ℚ := max (80/100) (qOr cfg.execMarketGuardMaxSpreadPct (35/100) * (25/10))
    with hcap
  have hns : ("depth<" ++ fmtFixed 0 md) ∉
      (if (cache.bind LiqMetrics.spreadPct).isSome ∧
          (cache.bind LiqMetrics.spreadPct).getD 0 > cap then
        ["spread>" ++ fmtFixed 2 cap ++ "%"]
      else []) := by
    split
    · intro hmem
      exact spread_ne_depth _ _ (List.mem_singleton.mp hmem).symm
    · simp
  have hdc : ((if (b.isSome ∨ a.isSome) then some (b.getD 0 + a.getD 0)
        else none).isSome ∧
      (if (b.isSome ∨ a.isSome) then some (b.getD 0 + a.getD 0)
        else none).getD 0 > 0 ∧
      (if (b.isSome ∨ a.isSome) then some (b.getD 0 + a.getD 0)
        else none).getD 0 < md) ↔
      ((b.isSome ∨ a.isSome) ∧ 0 < b.getD 0 + a.getD 0 ∧
        b.getD 0 + a.getD 0 < md) := by
    by_cases hP : (b.isSome ∨ a.isSome)
    · simp only [if_pos hP, Option.isSome_some, Option.getD_some, true_and]
      constructor
      · exact fun h => ⟨hP, h.1, h.2⟩
      · exact fun h => ⟨h.2.1, h.2.2⟩
    · simp [hP]
  have hiff : ("depth<" ++ fmtFixed 0 md) ∈
      ((if (cache.bind LiqMetrics.spreadPct).isSome ∧
          (cache.bind LiqMetrics.spreadPct).getD 0 > cap then
        ["spread>" ++ fmtFixed 2 cap ++ "%"]
       else []) ++
       (if ((if (b.isSome ∨ a.isSome) then some (b.getD 0 + a.getD 0)
            else none).isSome ∧
          (if (b.isSome ∨ a.isSome) then some (b.getD 0 + a.getD 0)
            else none).getD 0 > 0 ∧
          (if (b.isSome ∨ a.isSome) then some (b.getD 0 + a.getD 0)
            else none).getD 0 < md) then
         ["depth<" ++ fmtFixed 0 md]
        else [])) ↔
      ((b.isSome ∨ a.isSome) ∧ 0 < b.getD 0 + a.getD 0 ∧
        b.getD 0 + a.getD 0 < md) := by
    rw [List.mem_append]
    constructor
    · intro h
      rcases h with h | h
      · exact absurd h hns
      · by_cases hc : ((if (b.isSome ∨ a.isSome) then some (b.getD 0 + a.getD 0)
            else none).isSome ∧
          (if (b.isSome ∨ a.isSome) then some (b.getD 0 + a.getD 0)
            else none).getD 0 > 0 ∧
          (if (b.isSome ∨ a.isSome) then some (b.getD 0 + a.getD 0)
            else none).getD 0 < md)
        · exact hdc.mp hc
        · rw [if_neg hc] at h
          simp at h
    · intro hr
      refine Or.inr ?_
      rw [if_pos (hdc.mpr hr)]
      exact List.mem_singleton.mpr rfl
  refine ⟨hiff, ?_, ?_⟩
  · intro h hm
    obtain ⟨h1, -, -⟩ := hiff.mp hm
    rcases h1 with h1 | h1
    · rw [h.1] at h1
      simp at h1
    · rw [h.2] at h1
      simp at h1
  · exact ⟨le_max_left _ _, max_le (by norm_num) (min_le_left _ _)⟩

/-- Witness for `C10_micro_gate_depth_and_penalty`: with no micro-cache at
all, the depth reject does not fire and the penalty is in range. -/
theorem C10_micro_gate_depth_and_penalty_witness :
    ("depth<" ++ fmtFixed 0 (max 10000 (|(1 : ℚ)| * 100 * (12/10))))
        ∉ (executionMicroGate defaultCfg none none "BUY" 1 100).hardReasons ∧
    0 ≤ (executionMicroGate defaultCfg none none "BUY" 1 100).softPenalty :=
  ⟨(C10_micro_gate_depth_and_penalty defaultCfg none none "BUY" 1 100).2.1
      ⟨rfl, rfl⟩,
   (C10_micro_gate_depth_and_penalty defaultCfg none none "BUY" 1 100).2.2.1⟩

/-! ## Association-list lemmas -/

theorem alookup_aset {α : Type} (l : List (String × α)) (k : String) (v : α) :
    alookup (aset l k v) k = some v := by
  unfold alookup aset
  by_cases hf : (List.find? (fun p => p.1 == k) l).isSome
  · rw [if_pos hf]
    induction l with
    | nil => simp at hf
    | cons x xs ih =>
      by_cases hx : (x.1 == k) = true
      · simp [List.find?, hx]
      · have hx' : (x.1 == k) = false := by
          revert hx; cases (x.1 == k) <;> simp
        simp only [List.find?, hx'] at hf
        simp only [List.map_cons, hx', if_false, Bool.false_eq_true]
        simp only [List.find?, hx']
        exact ih hf
  · rw [if_neg hf]
    induction l with
    | nil => simp [List.find?]
    | cons x xs ih =>
      have hx : (x.1 == k) = false := by
        by_contra hc
        have hx' : (x.1 == k) = true := by
          revert hc; cases (x.1 == k) <;> simp
        exact hf (by simp only [List.find?, hx']; rfl)
      have hf' : ¬(List.find? (fun p => p.1 == k) xs).isSome = true := by
        intro h2
        exact hf (by simp only [List.find?, hx]; exact h2)
      simp only [List.cons_append, List.find?, hx]
      exact ih hf'

theorem mem_aset {α : Type} {l : List (String × α)} {k : String} {v : α}
    {p : String × α} (h : p ∈ aset l k v) : p = (k, v) ∨ p ∈ l := by
  unfold aset at h
  split at h
  · rcases List.mem_map.mp h with ⟨q, hq, hqe⟩
    by_cases hqk : q.1 == k
    · left; rw [← hqe]; simp [hqk]
    · right; rw [← hqe]; simp only [if_neg hqk]; exact hq
  · rcases List.mem_append.mp h with h | h
    · right; exact h
    · left; simpa using h

/-! ## Trades-untouched lemmas for the close path -/

theorem recordExecutionResult_trades (w : World) (ok : Bool) (path reason : String) :
    (recordExecutionResult w ok path reason).trades = w.trades := rfl

theorem closeSizeOp_trades (cfg : Config) (client : Option Client)
    (asset openSide : String) (size : ℚ) (w : World) :
    (closeSizeOp cfg client asset openSide size w).2.trades = w.trades := by
  unfold closeSizeOp
  split
  · rfl
  · split
    · rfl
    · split
      · rfl
      · rfl

theorem applySimRealizedPnl_trades (cfg : Config) (delta : ℚ) (w : World) :
    (applySimRealizedPnl cfg delta w).trades = w.trades := by
  unfold applySimRealizedPnl
  split
  · rfl
  · dsimp only
    split
    · rfl
    · rfl

/-! ## C8 — full close is idempotent on closed/absent trades -/

theorem closeTradeSettle_trades (cfg : Config) (client : Option Client)
    (now : ℚ) (t : Trade) (marketPrice : ℚ) (w : World) :
    (closeTradeSettle cfg client now t marketPrice w).2.1.trades = w.trades := by
  unfold closeTradeSettle
  by_cases hr : t.remainingSize > 0
  · rw [if_pos hr]
    dsimp only
    by_cases hs : (closeSizeOp cfg client t.asset t.side t.remainingSize w).1 = true
    · rw [if_pos hs]
      dsimp only
      rw [applySimRealizedPnl_trades, closeSizeOp_trades]
    · rw [if_neg hs]
      dsimp only
      rw [closeSizeOp_trades]
  · rw [if_neg hr]

theorem closeTradeFull_trades_open (cfg : Config) (client : Option Client)
    (now : ℚ) (tid reason : String) (decisionId : Option String) (w : World)
    (t : Trade) (ht : alookup w.trades tid = some t) (hopen : t.status = "open") :
    ∃ t', (closeTradeFull cfg client now tid reason decisionId w).trades
        = aset w.trades tid t' ∧ t'.status = "closed" := by
  unfold closeTradeFull
  simp only [ht]
  rw [if_neg (by simp [hopen])]
  have hw1 := closeTradeSettle_trades cfg client now t
    ((alookup w.price t.asset).getD t.entry) w
  rcases hset : closeTradeSettle cfg client now t
      ((alookup w.price t.asset).getD t.entry) w with ⟨t1, w1, p1⟩
  rw [hset] at hw1
  dsimp only at hw1
  dsimp only
  unfold emitTradeEvent
  refine ⟨{ t1 with
      status := "closed"
      closedTs := some now
      closeReason := some reason }, ?_, rfl⟩
  split <;> simp only [adel] <;> rw [hw1]

/-- C8: `_close_trade_full` on a trade id that is absent from the live map
or whose status is no longer `open` returns immediately with no state
change (no trade mutation, P&L, journal row or event); consequently a
second close call on the same id is a no-op. -/
theorem C8_close_twice_noop :
    (∀ (cfg : Config) (client : Option Client) (now : ℚ) (tid reason : String)
        (did : Option String) (w : World),
      (alookup w.trades tid = none ∨
        ∃ t, alookup w.trades tid = some t ∧ t.status ≠ "open") →
      closeTradeFull cfg client now tid reason did w = w) ∧
    (∀ (cfg : Config) (client : Option Client) (now1 now2 : ℚ)
        (tid r1 r2 : String) (d1 d2 : Option String) (w : World),
      closeTradeFull cfg client now2 tid r2 d2
          (closeTradeFull cfg client now1 tid r1 d1 w)
        = closeTradeFull cfg client now1 tid r1 d1 w) := by
  have hnoop : ∀ (cfg : Config) (client : Option Client) (now : ℚ)
      (tid reason : String) (did : Option String) (w : World),
      (alookup w.trades tid = none ∨
        ∃ t, alookup w.trades tid = some t ∧ t.status ≠ "open") →
      closeTradeFull cfg client now tid reason did w = w := by
    intro cfg client now tid reason did w h
    unfold closeTradeFull
    rcases h with h | ⟨t, ht, hs⟩
    · simp only [h]
    · simp only [ht]
      rw [if_pos hs]
  refine ⟨hnoop, ?_⟩
  intro cfg client now1 now2 tid r1 r2 d1 d2 w
  rcases hlk : alookup w.trades tid with _ | t
  · rw [hnoop cfg client now1 tid r1 d1 w (Or.inl hlk)]
    exact hnoop cfg client now2 tid r2 d2 w (Or.inl hlk)
  · by_cases hst : t.status = "open"
    · obtain ⟨t', htr, hcl⟩ :=
        closeTradeFull_trades_open cfg client now1 tid r1 d1 w t hlk hst
      refine hnoop cfg client now2 tid r2 d2 _ (Or.inr ⟨t', ?_, ?_⟩)
      · rw [htr]
        exact alookup_aset _ _ _
      · rw [hcl]
        decide
    · have hne : t.status ≠ "open" := hst
      rw [hnoop cfg client now1 tid r1 d1 w (Or.inr ⟨t, hlk, hne⟩)]
      exact hnoop cfg client now2 tid r2 d2 w (Or.inr ⟨t, hlk, hne⟩)

/-- Witness for `C8_close_twice_noop`: closing an id that is not live is a
no-op on a concrete world. -/
theorem C8_close_twice_noop_witness :
    closeTradeFull defaultCfg none 0 "t2" "manual_close" none world0 = world0 :=
  C8_close_twice_noop.1 defaultCfg none 0 "t2" "manual_close" none world0
    (Or.inl rfl)

/-- C9: a decision whose normalized `decision` field is not `open_long`,
`open_short` or `close` (e.g. `hold`) makes `execute` return with the
world — ledger, execution records, journal and events — unchanged. -/
theorem C9_non_actionable_decision_noop (cfg : Config) (client : Option Client)
    (now : ℚ) (freshId : String) (dec : Decision) (w : World)
    (h : ¬(strLower (strTrim dec.decision) = "open_long" ∨
           strLower (strTrim dec.decision) = "open_short" ∨
           strLower (strTrim dec.decision) = "close")) :
    execute cfg client now freshId dec w = w := by
  unfold execute
  rw [if_pos h]

/-- Witness for `C9_non_actionable_decision_noop` at a `hold` decision. -/
theorem C9_non_actionable_decision_noop_witness :
    execute defaultCfg none 0 "fresh" { decision := "hold" } world0 = world0 :=
  C9_non_actionable_decision_noop defaultCfg none 0 "fresh" { decision := "hold" }
    world0 (by decide)

/-! ## C5 — order-router escalation -/

theorem submitMarketStage_path (cfg : Config) (c : Client) (liq : Option LiqMetrics)
    (side : String) (size : ℚ) (ref : Option ℚ) (e a : List String) :
    (submitMarketStage cfg c liq side size ref e a).path ∈ RouterPaths := by
  unfold submitMarketStage submitRejected submitFinishFailed
  dsimp only
  repeat' split
  all_goals simp [RouterPaths]

theorem submitIocStage_path (cfg : Config) (c : Client) (liq : Option LiqMetrics)
    (side : String) (size : ℚ) (ref : Option ℚ) (e a : List String) :
    (submitIocStage cfg c liq side size ref e a).path ∈ RouterPaths := by
  unfold submitIocStage
  dsimp only
  repeat' split
  all_goals first
    | exact submitMarketStage_path _ _ _ _ _ _ _ _
    | simp [RouterPaths]

theorem submitMarketStage_attempts (cfg : Config) (c : Client)
    (liq : Option LiqMetrics) (side : String) (size : ℚ) (ref : Option ℚ)
    (e a : List String) :
    ∃ ext, (submitMarketStage cfg c liq side size ref e a).attempts = a ++ ext := by
  unfold submitMarketStage submitRejected submitFinishFailed
  dsimp only
  repeat' split
  all_goals first
    | exact ⟨_, rfl⟩
    | exact ⟨[], (List.append_nil _).symm⟩

/-- C5: for an order submitted through the router with a client present,
(i) a raised post-only send is followed immediately by the IOC attempt;
(ii) if the IOC send also raises and the market guard fails, the retry-IOC
path is attempted, and its failure yields the final `rejected` result with
every attempt's failure accumulated into the error list whose 400-character
joined suffix is the reason string; (iii) the result's path is always one
of `post_only`, `ioc`, `market`, `limit_retry_ioc`, `rejected`, `failed`;
and (iv) under `DRY_RUN_ORDERS` (simulation) the close path records
`dry_run` instead. -/
theorem C5_order_router_escalation :
    (∀ (cfg : Config) (c : Client) (liq : Option LiqMetrics) (side : String)
        (size : ℚ) (ref : Option ℚ) (lev : Option ℤ) (m1 : String),
      cfg.execPostOnlyEnabled = true → cfg.execIocFallbackEnabled = true →
      execLimitPrice ref side cfg.execPostOnlyOffsetPct true > 0 →
      execLimitPrice ref side cfg.execIocSlippagePct false > 0 →
      c.postOnly = .err m1 →
      (submitLiveOrder cfg (some c) liq side size ref lev).attempts.take 2
          = ["post_only", "ioc"]) ∧
    (∀ (cfg : Config) (c : Client) (liq : Option LiqMetrics) (side : String)
        (size : ℚ) (ref : Option ℚ) (lev : Option ℤ) (m1 m2 : String),
      cfg.execPostOnlyEnabled = true → cfg.execIocFallbackEnabled = true →
      execLimitPrice ref side cfg.execPostOnlyOffsetPct true > 0 →
      execLimitPrice ref side cfg.execIocSlippagePct false > 0 →
      c.postOnly = .err m1 → c.ioc = .err m2 →
      cfg.execMarketFallbackEnabled = true →
      (evaluateMarketGuard cfg liq size).ok = false →
      cfg.execMarketGuardLimitRetryEnabled = true →
      execLimitPrice ref side cfg.execMarketGuardRetryIocSlippagePct false > 0 →
      "limit_retry_ioc" ∈ (submitLiveOrder cfg (some c) liq side size ref lev).attempts ∧
      (c.retryIoc = .ok →
        (submitLiveOrder cfg (some c) liq side size ref lev).path = "limit_retry_ioc") ∧
      (∀ m3, c.retryIoc = .err m3 →
        (submitLiveOrder cfg (some c) liq side size ref lev).path = "rejected" ∧
        ("post_only:" ++ m1) ∈ (submitLiveOrder cfg (some c) liq side size ref lev).errors ∧
        ("ioc:" ++ m2) ∈ (submitLiveOrder cfg (some c) liq side size ref lev).errors ∧
        ("limit_retry_ioc:" ++ m3)
            ∈ (submitLiveOrder cfg (some c) liq side size ref lev).errors ∧
        (submitLiveOrder cfg (some c) liq side size ref lev).reason
          = strTakeRight (String.intercalate "; "
              (submitLiveOrder cfg (some c) liq side size ref lev).errors) 400)) ∧
    (∀ (cfg : Config) (c : Client) (liq : Option LiqMetrics) (side : String)
        (size : ℚ) (ref : Option ℚ) (lev : Option ℤ),
      (submitLiveOrder cfg (some c) liq side size ref lev).path ∈ RouterPaths) ∧
    (∀ (cfg : Config) (client : Option Client) (asset openSide : String)
        (size : ℚ) (w : World),
      cfg.dryRunOrders = true →
      (closeSizeOp cfg client asset openSide size w).1 = true ∧
      (closeSizeOp cfg client asset openSide size w).2.execLastPath = "dry_run") := by
  refine ⟨?_, ?_, ?_, ?_⟩
  · intro cfg c liq side size ref lev m1 hpost hioc hpx1 hpx2 hfail1
    unfold submitLiveOrder
    dsimp only
    rw [if_pos hpost, if_pos hpx1]
    simp only [hfail1]
    unfold submitIocStage
    rw [if_pos hioc]
    dsimp only
    rw [if_pos hpx2]
    rcases hi : c.ioc with _ | m2
    · simp
    · obtain ⟨ext, hext⟩ := submitMarketStage_attempts cfg c liq side size ref
        (["post_only:" ++ m1] ++ ["ioc:" ++ m2]) (["post_only"] ++ ["ioc"])
      rw [hext]
      simp [List.take]
  · intro cfg c liq side size ref lev m1 m2 hpost hioc hpx1 hpx2 hfail1 hfail2
      hmkt hguard hretry hpx3
    have hred : submitLiveOrder cfg (some c) liq side size ref lev
        = submitMarketStage cfg c liq side size ref
            (["post_only:" ++ m1] ++ ["ioc:" ++ m2]) (["post_only"] ++ ["ioc"]) := by
      unfold submitLiveOrder
      dsimp only
      rw [if_pos hpost, if_pos hpx1]
      simp only [hfail1]
      unfold submitIocStage
      rw [if_pos hioc]
      dsimp only
      rw [if_pos hpx2]
      simp only [hfail2]
    rw [hred]
    unfold submitMarketStage
    rw [if_pos hmkt]
    dsimp only
    rw [if_pos (by simp [hguard]), if_pos hretry, if_pos hpx3]
    refine ⟨?_, ?_, ?_⟩
    · rcases hr : c.retryIoc with _ | m3 <;> simp [hr, submitRejected]
    · intro hr
      simp [hr]
    · intro m3 hr
      simp [hr, submitRejected]
  · intro cfg c liq side size ref lev
    unfold submitLiveOrder
    dsimp only
    repeat' split
    all_goals first
      | exact submitIocStage_path _ _ _ _ _ _ _ _
      | simp [RouterPaths]
  · intro cfg client asset openSide size w h
    unfold closeSizeOp
    rw [if_pos h]
    exact ⟨rfl, rfl⟩

/-- Witness for `C5_order_router_escalation`: with every client call
raising and no liquidity cache, the order ends `rejected` after the
retry-IOC attempt, with the post-only failure in the error accumulator. -/
theorem C5_order_router_escalation_witness :
    (submitLiveOrder defaultCfg (some ⟨.err "b1", .err "b2", .err "b3", .ok⟩)
        none "BUY" 1 (some 100) none).path = "rejected" ∧
    ("post_only:" ++ "b1") ∈ (submitLiveOrder defaultCfg
        (some ⟨.err "b1", .err "b2", .err "b3", .ok⟩)
        none "BUY" 1 (some 100) none).errors ∧
    "limit_retry_ioc" ∈ (submitLiveOrder defaultCfg
        (some ⟨.err "b1", .err "b2", .err "b3", .ok⟩)
        none "BUY" 1 (some 100) none).attempts := by
  have h := C5_order_router_escalation.2.1 defaultCfg
    ⟨.err "b1", .err "b2", .err "b3", .ok⟩ none "BUY" 1 (some 100) none "b1" "b2"
    rfl rfl
    (by norm_num [execLimitPrice, defaultCfg])
    (by norm_num [execLimitPrice, defaultCfg])
    rfl rfl rfl
    (by simp [evaluateMarketGuard, qOr, defaultCfg])
    rfl
    (by norm_num [execLimitPrice, defaultCfg])
  have h3 := h.2.2 "b3" rfl
  exact ⟨h3.1, h3.2.1, h.1⟩

/-! ## C2 — the realized-P&L accounting identity -/

theorem alookup_mem {α : Type} {l : List (String × α)} {k : String} {v : α}
    (h : alookup l k = some v) : (k, v) ∈ l := by
  unfold alookup at h
  rcases hf : l.find? (fun p => p.1 == k) with _ | p
  · rw [hf] at h
    simp at h
  · rw [hf] at h
    simp only [Option.map_some'] at h
    have hp : (p.1 == k) = true := by simpa using List.find?_some hf
    have hm := List.mem_of_find?_eq_some hf
    have hk : p.1 = k := by simpa using hp
    cases p with
    | mk a b =>
      simp only at h hk
      have hb : b = v := by injection h
      rw [← hb, ← hk]
      exact hm

theorem worldPnlInv_of_trades_eq (w w' : World) (h : w'.trades = w.trades)
    (hw : WorldPnlInv w) : WorldPnlInv w' := by
  intro p hp
  rw [h] at hp
  exact hw p hp

theorem worldPnlInv_aset (w : World) (tid : String) (t' : Trade)
    (hw : WorldPnlInv w) (ht : TradePnlInv t') (w' : World)
    (hw' : w'.trades = aset w.trades tid t') : WorldPnlInv w' := by
  intro p hp
  rw [hw'] at hp
  rcases mem_aset hp with h | h
  · rw [h]
    exact ht
  · exact hw p h

theorem worldPnlInv_aset2 (w : World) (tid : String) (t' : Trade)
    (hw : WorldPnlInv w) (w' : World)
    (hw' : w'.trades = aset w.trades tid t') (ht : TradePnlInv t') :
    WorldPnlInv w' :=
  worldPnlInv_aset w tid t' hw ht w' hw'

theorem estimateFundingDrag_pnl_fields (cfg : Config) (now : ℚ) (t : Trade)
    (m s : ℚ) :
    (estimateFundingDrag cfg now t m s).2.realizedPnl = t.realizedPnl ∧
    (estimateFundingDrag cfg now t m s).2.realizedGrossPnl = t.realizedGrossPnl ∧
    (estimateFundingDrag cfg now t m s).2.realizedFees = t.realizedFees ∧
    (estimateFundingDrag cfg now t m s).2.realizedFunding = t.realizedFunding ∧
    (estimateFundingDrag cfg now t m s).2.remainingSize = t.remainingSize ∧
    (estimateFundingDrag cfg now t m s).2.size = t.size ∧
    (estimateFundingDrag cfg now t m s).2.initialSize = t.initialSize ∧
    (estimateFundingDrag cfg now t m s).2.partial15 = t.partial15 ∧
    (estimateFundingDrag cfg now t m s).2.partial30 = t.partial30 ∧
    (estimateFundingDrag cfg now t m s).2.status = t.status := by
  unfold estimateFundingDrag
  dsimp only
  repeat' split
  all_goals exact ⟨rfl, rfl, rfl, rfl, rfl, rfl, rfl, rfl, rfl, rfl⟩

theorem updateTrailingStop_fields (t : Trade) (cp : ℚ) :
    (updateTrailingStop t cp).realizedPnl = t.realizedPnl ∧
    (updateTrailingStop t cp).realizedGrossPnl = t.realizedGrossPnl ∧
    (updateTrailingStop t cp).realizedFees = t.realizedFees ∧
    (updateTrailingStop t cp).realizedFunding = t.realizedFunding ∧
    (updateTrailingStop t cp).remainingSize = t.remainingSize ∧
    (updateTrailingStop t cp).size = t.size ∧
    (updateTrailingStop t cp).initialSize = t.initialSize ∧
    (updateTrailingStop t cp).partial15 = t.partial15 ∧
    (updateTrailingStop t cp).partial30 = t.partial30 ∧
    (updateTrailingStop t cp).status = t.status := by
  unfold updateTrailingStop
  dsimp only
  repeat' split
  all_goals exact ⟨rfl, rfl, rfl, rfl, rfl, rfl, rfl, rfl, rfl, rfl⟩

theorem partialCloseTrade_pnl (cfg : Config) (client : Option Client) (now : ℚ)
    (tid : String) (fr : ℚ) (rsn : String) (w : World) (hw : WorldPnlInv w) :
    WorldPnlInv (partialCloseTrade cfg client now tid fr rsn w).2 := by
  unfold partialCloseTrade
  rcases hlk : alookup w.trades tid with _ | t
  · simp only [hlk]
    exact hw
  · simp only [hlk]
    have htk : TradePnlInv t := hw _ (alookup_mem hlk)
    split
    · exact hw
    · split
      · exact hw
      · split
        · exact worldPnlInv_of_trades_eq _ _ (closeSizeOp_trades _ _ _ _ _ _) hw
        · refine worldPnlInv_aset2 w tid _ hw _
            (congrArg (fun l => aset l tid _)
              (by rw [applySimRealizedPnl_trades, closeSizeOp_trades])) ?_
          · obtain ⟨h1, h2, h3, h4, -⟩ := estimateFundingDrag_pnl_fields cfg now t
              ((alookup (closeSizeOp cfg client t.asset t.side
                (min (round8 (t.initialSize * fr)) t.remainingSize) w).2.price
                t.asset).getD t.entry)
              (min (round8 (t.initialSize * fr)) t.remainingSize)
            unfold TradePnlInv at htk ⊢
            dsimp only
            rw [h1, h2, h3, h4]
            rw [htk]
            ring

theorem pyramidApply_pnl (now : ℚ) (tid : String) (t : Trade) (addSize : ℚ)
    (rrNow : Option ℚ) (trg : String) (w : World) (hw : WorldPnlInv w)
    (ht : TradePnlInv t) :
    WorldPnlInv (pyramidApply now tid t addSize rrNow trg w).2 := by
  unfold pyramidApply
  refine worldPnlInv_aset2 w tid _ hw _ rfl ?_
  exact ht

theorem pyramidExec_pnl (cfg : Config) (client : Option Client) (now : ℚ)
    (tid : String) (t : Trade) (addSize cp : ℚ) (rrNow : Option ℚ)
    (trg : String) (w : World) (hw : WorldPnlInv w) (ht : TradePnlInv t) :
    WorldPnlInv (pyramidExec cfg client now tid t addSize cp rrNow trg w).2 := by
  unfold pyramidExec
  split
  · exact pyramidApply_pnl now tid t addSize rrNow trg _
      (worldPnlInv_of_trades_eq _ _ rfl hw) ht
  · rcases client with _ | c
    · exact worldPnlInv_of_trades_eq _ _ rfl hw
    · dsimp only
      split <;> try split
      all_goals first
        | exact worldPnlInv_of_trades_eq _ _ rfl hw
        | exact pyramidApply_pnl now tid t addSize rrNow trg _
            (worldPnlInv_of_trades_eq _ _ rfl hw) ht

theorem tryPyramidAdd_pnl (cfg : Config) (client : Option Client) (now : ℚ)
    (tid : String) (cp : ℚ) (rr : Option ℚ) (trg : String) (w : World)
    (hw : WorldPnlInv w) :
    WorldPnlInv (tryPyramidAdd cfg client now tid cp rr trg w).2 := by
  unfold tryPyramidAdd
  rcases hlk : alookup w.trades tid with _ | t
  · exact hw
  · have htk : TradePnlInv t := hw _ (alookup_mem hlk)
    dsimp only
    repeat' split
    all_goals first
      | exact hw
      | exact pyramidExec_pnl cfg client now tid t (pyramidAddSize cfg t) cp
          rr trg w hw htk

theorem closeTradeSettle_pnl_trade (cfg : Config) (client : Option Client)
    (now : ℚ) (t : Trade) (mp : ℚ) (w : World) (ht : TradePnlInv t) :
    TradePnlInv (closeTradeSettle cfg client now t mp w).1 := by
  unfold closeTradeSettle
  dsimp only
  split
  · split
    · obtain ⟨h1, h2, h3, h4, -⟩ :=
        estimateFundingDrag_pnl_fields cfg now t mp t.remainingSize
      unfold TradePnlInv at ht ⊢
      dsimp only
      rw [h1, h2, h3, h4, ht]
      ring
    · exact ht
  · exact ht

theorem closeTradeFull_pnl (cfg : Config) (client : Option Client) (now : ℚ)
    (tid rsn : String) (did : Option String) (w : World) (hw : WorldPnlInv w) :
    WorldPnlInv (closeTradeFull cfg client now tid rsn did w) := by
  unfold closeTradeFull
  rcases hlk : alookup w.trades tid with _ | t
  · simp only [hlk]
    exact hw
  · simp only [hlk]
    have htk : TradePnlInv t := hw _ (alookup_mem hlk)
    split
    · exact hw
    · have hts := closeTradeSettle_pnl_trade cfg client now t
        ((alookup w.price t.asset).getD t.entry) w htk
      have htr := closeTradeSettle_trades cfg client now t
        ((alookup w.price t.asset).getD t.entry) w
      refine worldPnlInv_aset w tid
        { (closeTradeSettle cfg client now t
            ((alookup w.price t.asset).getD t.entry) w).1 with
          status := "closed", closedTs := some now
          closeReason := some rsn } hw hts _ ?_
      repeat' split
      all_goals
        show aset (closeTradeSettle cfg client now t
          ((alookup w.price t.asset).getD t.entry) w).2.1.trades tid _ =
          aset w.trades tid _
      all_goals rw [htr]

theorem worldPnlInv_ite {c : Prop} {h : Decidable c} {a b : World}
    (ha : WorldPnlInv a) (hb : WorldPnlInv b) :
    WorldPnlInv (@ite _ c h a b) := by
  split
  · exact ha
  · exact hb

theorem worldPnlInv_iteP {c : Prop} {h : Decidable c} {a b : Bool × World}
    (ha : WorldPnlInv a.2) (hb : WorldPnlInv b.2) :
    WorldPnlInv (@ite _ c h a b).2 := by
  split
  · exact ha
  · exact hb

theorem worldPnlInv_updTrade (w : World) (tid : String) (f : Trade → Trade)
    (hf : ∀ t, TradePnlInv t → TradePnlInv (f t)) (hw : WorldPnlInv w) :
    WorldPnlInv (updTrade w tid f) := by
  unfold updTrade
  rcases hlk : alookup w.trades tid with _ | t
  · simp only [hlk]
    exact hw
  · simp only [hlk]
    exact worldPnlInv_aset w tid _ hw (hf t (hw _ (alookup_mem hlk))) _ rfl

theorem tickFunding_pnl (cfg : Config) (now : ℚ) (tid : String) (t0 : Trade)
    (cp : ℚ) (w : World) (hw : WorldPnlInv w) (ht0 : TradePnlInv t0) :
    WorldPnlInv (tickFunding cfg now tid t0 cp w).2 ∧
      TradePnlInv (tickFunding cfg now tid t0 cp w).1 := by
  unfold tickFunding
  split
  · dsimp only
    have hfld := estimateFundingDrag_pnl_fields cfg now t0 cp t0.remainingSize
    obtain ⟨h1, h2, h3, h4, -⟩ := hfld
    constructor
    · split
      · refine worldPnlInv_aset w tid _ hw ?_ _
          (applySimRealizedPnl_trades _ _ _)
        unfold TradePnlInv at ht0 ⊢
        dsimp only
        rw [h1, h2, h3, h4, ht0]
        ring
      · refine worldPnlInv_aset w tid _ hw ?_ _ rfl
        unfold TradePnlInv at ht0 ⊢
        rw [h1, h2, h3, h4, ht0]
    · split
      · unfold TradePnlInv at ht0 ⊢
        dsimp only
        rw [h1, h2, h3, h4, ht0]
        ring
      · unfold TradePnlInv at ht0 ⊢
        rw [h1, h2, h3, h4, ht0]
  · exact ⟨hw, ht0⟩

theorem tickTrailing_pnl (tid : String) (t1 : Trade) (cp : ℚ) (w : World)
    (hw : WorldPnlInv w) (ht1 : TradePnlInv t1) :
    WorldPnlInv (tickTrailing tid t1 cp w).2 := by
  unfold tickTrailing
  have htr : TradePnlInv (updateTrailingStop t1 cp) := by
    obtain ⟨h1, h2, h3, h4, -⟩ := updateTrailingStop_fields t1 cp
    unfold TradePnlInv at ht1 ⊢
    rw [h1, h2, h3, h4, ht1]
  split
  · exact hw
  · split
    · exact hw
    · split
      all_goals dsimp only
      all_goals split
      all_goals first
        | exact hw
        | (refine worldPnlInv_aset2 w tid _ hw _ rfl ?_
           exact htr)

theorem tickExitChecks_pnl (cfg : Config) (client : Option Client) (now : ℚ)
    (tid side : String) (cp : ℚ) (w : World) (hw : WorldPnlInv w) :
    WorldPnlInv (tickExitChecks cfg client now tid side cp w) := by
  unfold tickExitChecks
  rcases hlk : alookup w.trades tid with _ | t3
  · simp only [hlk]
    exact hw
  · simp only [hlk]
    have htk : TradePnlInv t3 := hw _ (alookup_mem hlk)
    split
    · exact closeTradeFull_pnl cfg client now tid "stop" t3.decisionId w hw
    · split
      · exact closeTradeFull_pnl cfg client now tid "take_profit" t3.decisionId w hw
      · split
        · refine worldPnlInv_aset2 w tid _ hw _ rfl ?_
          exact htk
        · exact worldPnlInv_of_trades_eq _ _ rfl hw

theorem processOpenTrade_pnl (cfg : Config) (client : Option Client) (now : ℚ)
    (tid : String) (w : World) (hw : WorldPnlInv w) :
    WorldPnlInv (processOpenTrade cfg client now tid w) := by
  unfold processOpenTrade
  rcases hlk : alookup w.trades tid with _ | t0
  · exact hw
  · simp only [hlk]
    rcases hpr : alookup w.price t0.asset with _ | cp
    · simp only [hpr]
      exact hw
    · simp only [hpr]
      have ht0 : TradePnlInv t0 := hw _ (alookup_mem hlk)
      obtain ⟨hw1, ht1⟩ := tickFunding_pnl cfg now tid t0 cp w hw ht0
      have hw2 := tickTrailing_pnl tid (tickFunding cfg now tid t0 cp w).1 cp
        (tickFunding cfg now tid t0 cp w).2 hw1 ht1
      apply tickExitChecks_pnl
      refine worldPnlInv_ite (tryPyramidAdd_pnl _ _ _ _ _ _ _ _ ?_) ?_
      all_goals
        refine worldPnlInv_ite (worldPnlInv_updTrade _ _ _ (fun u hu => hu) ?_) ?_
      all_goals
        refine worldPnlInv_iteP (partialCloseTrade_pnl _ _ _ _ _ _ _ ?_) ?_
      all_goals
        refine worldPnlInv_ite (worldPnlInv_updTrade _ _ _ (fun u hu => hu) ?_) ?_
      all_goals
        refine worldPnlInv_iteP (partialCloseTrade_pnl _ _ _ _ _ _ _ ?_) ?_
      all_goals exact hw2

theorem monitorTick_pnl (cfg : Config) (client : Option Client) (now : ℚ)
    (tid : String) (w : World) (hw : WorldPnlInv w) :
    WorldPnlInv (monitorTick cfg client now tid w) := by
  unfold monitorTick
  rcases hlk : alookup w.trades tid with _ | t
  · simp only [hlk]
    exact hw
  · simp only [hlk]
    split
    · exact processOpenTrade_pnl cfg client now tid w hw
    · exact hw

/-- C2: the accounting identity
`realized_net = realized_gross − realized_fees − realized_funding` holds for
the freshly opened trade record (where the open fee is pre-charged) and is
preserved by every accounting update: partial close, pyramid add, funding
drag and full close (the whole monitor tick), for every trade in the
ledger. -/
theorem C2_realized_pnl_identity :
    (∀ (now : ℚ) (asset side : String) (size entryPrice entryRefPrice
        entrySlippagePct : ℚ) (leverage : ℤ)
        (stop takeProfit trailActPct trailPct : Option ℚ)
        (expectedHoldMin : Option ℤ) (pumpScore : ℤ)
        (decisionId : Option String) (conviction : Option ℤ)
        (sleeve regime : String) (rr volSpike : Option ℚ)
        (executionPath : String) (softPenalty : ℤ)
        (guardSpreadPct guardSizeToVol : Option ℚ) (openFee : ℚ)
        (reason : Option String),
      TradePnlInv (mkOpenTrade now asset side size entryPrice entryRefPrice
        entrySlippagePct leverage stop takeProfit trailActPct trailPct
        expectedHoldMin pumpScore decisionId conviction sleeve regime rr
        volSpike executionPath softPenalty guardSpreadPct guardSizeToVol
        openFee reason)) ∧
    (∀ (cfg : Config) (client : Option Client) (now : ℚ) (tid : String)
        (fr : ℚ) (rsn : String) (w : World), WorldPnlInv w →
      WorldPnlInv (partialCloseTrade cfg client now tid fr rsn w).2) ∧
    (∀ (cfg : Config) (client : Option Client) (now : ℚ) (tid : String)
        (cp : ℚ) (rr : Option ℚ) (trg : String) (w : World), WorldPnlInv w →
      WorldPnlInv (tryPyramidAdd cfg client now tid cp rr trg w).2) ∧
    (∀ (cfg : Config) (client : Option Client) (now : ℚ) (tid rsn : String)
        (did : Option String) (w : World), WorldPnlInv w →
      WorldPnlInv (closeTradeFull cfg client now tid rsn did w)) ∧
    (∀ (cfg : Config) (client : Option Client) (now : ℚ) (tid : String)
        (w : World), WorldPnlInv w →
      WorldPnlInv (monitorTick cfg client now tid w)) := by
  refine ⟨?_, ?_, ?_, ?_, ?_⟩
  · intro now asset side size entryPrice entryRefPrice entrySlippagePct leverage
      stop takeProfit trailActPct trailPct expectedHoldMin pumpScore decisionId
      conviction sleeve regime rr volSpike executionPath softPenalty
      guardSpreadPct guardSizeToVol openFee reason
    unfold TradePnlInv mkOpenTrade
    ring
  · exact partialCloseTrade_pnl
  · exact tryPyramidAdd_pnl
  · exact closeTradeFull_pnl
  · exact monitorTick_pnl

/-- Witness for `C2_realized_pnl_identity`: one monitor tick of `world0`
keeps the accounting identity for every live trade. -/
theorem C2_realized_pnl_identity_witness :
    WorldPnlInv (monitorTick defaultCfg none 0 "t1" world0) := by
  refine C2_realized_pnl_identity.2.2.2.2 defaultCfg none 0 "t1" world0 ?_
  intro p hp
  have hp' : p = ("t1", trade0) := by simpa [world0] using hp
  rw [hp']
  unfold TradePnlInv trade0
  norm_num

/-! ## C1 — the sizing invariant -/

theorem qOr_zero (x : ℚ) : qOr x 0 = x := by
  by_cases h : x = 0 <;> simp [qOr, h]

theorem worldSizeInv_of_trades_eq (w w' : World) (h : w'.trades = w.trades)
    (hw : WorldSizeInv w) : WorldSizeInv w' := by
  intro p hp
  rw [h] at hp
  exact hw p hp

theorem worldSizeInv_aset2 (w : World) (tid : String) (t' : Trade)
    (hw : WorldSizeInv w) (w' : World)
    (hw' : w'.trades = aset w.trades tid t') (ht : TradeSizeInv t') :
    WorldSizeInv w' := by
  intro p hp
  rw [hw'] at hp
  rcases mem_aset hp with h | h
  · rw [h]
    exact ht
  · exact hw p h

theorem worldSizeInv_ite {c : Prop} {h : Decidable c} {a b : World}
    (ha : WorldSizeInv a) (hb : WorldSizeInv b) :
    WorldSizeInv (@ite _ c h a b) := by
  split
  · exact ha
  · exact hb

theorem worldSizeInv_iteP {c : Prop} {h : Decidable c} {a b : Bool × World}
    (ha : WorldSizeInv a.2) (hb : WorldSizeInv b.2) :
    WorldSizeInv (@ite _ c h a b).2 := by
  split
  · exact ha
  · exact hb

theorem worldSizeInv_updTrade (w : World) (tid : String) (f : Trade → Trade)
    (hf : ∀ t, TradeSizeInv t → TradeSizeInv (f t)) (hw : WorldSizeInv w) :
    WorldSizeInv (updTrade w tid f) := by
  unfold updTrade
  rcases hlk : alookup w.trades tid with _ | t
  · simp only [hlk]
    exact hw
  · simp only [hlk]
    exact worldSizeInv_aset2 w tid _ hw _ rfl (hf t (hw _ (alookup_mem hlk)))

theorem round8_partial_le {rem init size fr : ℚ}
    (hcs : ¬ min (round8 (init * fr)) rem ≤ 0) (hsz : rem ≤ size)
    (h0 : 0 ≤ rem) :
    0 ≤ round8 (rem - min (round8 (init * fr)) rem) ∧
      round8 (rem - min (round8 (init * fr)) rem) ≤ size := by
  have hpos : 0 < min (round8 (init * fr)) rem := not_le.mp hcs
  have hler : min (round8 (init * fr)) rem ≤ rem := min_le_right _ _
  constructor
  · exact round8_nonneg (by linarith)
  · rcases le_total (round8 (init * fr)) rem with hle | hge
    · have hmin : min (round8 (init * fr)) rem = round8 (init * fr) :=
        min_eq_left hle
      rw [hmin] at hpos ⊢
      have h8 : 1 / 100000000 ≤ round8 (init * fr) := round8_pos_ge hpos
      have hh := round8_le_add_half (x := rem - round8 (init * fr))
      linarith
    · have hmin : min (round8 (init * fr)) rem = rem := min_eq_right hge
      rw [hmin, sub_self, round8_zero]
      linarith

theorem partialCloseTrade_shape (cfg : Config) (client : Option Client)
    (now : ℚ) (tid : String) (fr : ℚ) (rsn : String) (w : World) :
    (partialCloseTrade cfg client now tid fr rsn w).2.trades = w.trades ∨
    ∃ t t', alookup w.trades tid = some t ∧
      ¬ min (round8 (t.initialSize * fr)) t.remainingSize ≤ 0 ∧
      t'.remainingSize =
        round8 (t.remainingSize - min (round8 (t.initialSize * fr)) t.remainingSize) ∧
      t'.size = t.size ∧
      (partialCloseTrade cfg client now tid fr rsn w).2.trades =
        aset w.trades tid t' := by
  unfold partialCloseTrade
  rcases hlk : alookup w.trades tid with _ | t
  · simp only [hlk]
    left
    trivial
  · simp only [hlk]
    split
    · left
      rfl
    · split
      · left
        rfl
      · split
        · left
          exact closeSizeOp_trades _ _ _ _ _ _
        · right
          refine ⟨t, _, rfl, by assumption, ?_, ?_,
            congrArg (fun l => aset l tid _)
              (by rw [applySimRealizedPnl_trades, closeSizeOp_trades])⟩
          · obtain ⟨-, -, -, -, h5, -⟩ := estimateFundingDrag_pnl_fields cfg now t
              ((alookup (closeSizeOp cfg client t.asset t.side
                (min (round8 (t.initialSize * fr)) t.remainingSize) w).2.price
                t.asset).getD t.entry)
              (min (round8 (t.initialSize * fr)) t.remainingSize)
            show round8 (_ - _) = _
            rw [h5]
          · obtain ⟨-, -, -, -, -, h6, -⟩ := estimateFundingDrag_pnl_fields cfg now t
              ((alookup (closeSizeOp cfg client t.asset t.side
                (min (round8 (t.initialSize * fr)) t.remainingSize) w).2.price
                t.asset).getD t.entry)
              (min (round8 (t.initialSize * fr)) t.remainingSize)
            exact h6

theorem partialCloseTrade_size (cfg : Config) (client : Option Client)
    (now : ℚ) (tid : String) (fr : ℚ) (rsn : String) (w : World)
    (hw : WorldSizeInv w) :
    WorldSizeInv (partialCloseTrade cfg client now tid fr rsn w).2 := by
  rcases partialCloseTrade_shape cfg client now tid fr rsn w with h | h
  · exact worldSizeInv_of_trades_eq _ _ h hw
  · obtain ⟨t, t', hlk, hcs, hrem, hsz, htr⟩ := h
    have htk : TradeSizeInv t := hw _ (alookup_mem hlk)
    refine worldSizeInv_aset2 w tid t' hw _ htr ?_
    have hb := @round8_partial_le t.remainingSize t.initialSize t.size fr
      hcs htk.2 htk.1
    exact ⟨hrem ▸ hb.1, by rw [hrem, hsz]; exact hb.2⟩

theorem pyramidApply_size (now : ℚ) (tid : String) (t : Trade) (addSize : ℚ)
    (rrNow : Option ℚ) (trg : String) (w : World) (hw : WorldSizeInv w)
    (ht : TradeSizeInv t) (hadd : 0 ≤ addSize) :
    WorldSizeInv (pyramidApply now tid t addSize rrNow trg w).2 := by
  unfold pyramidApply
  refine worldSizeInv_aset2 w tid _ hw _ rfl ?_
  constructor
  · show (0:ℚ) ≤ round8 (qOr t.remainingSize 0 + addSize)
    rw [qOr_zero]
    exact round8_nonneg (by linarith [ht.1])
  · show round8 (qOr t.remainingSize 0 + addSize)
      ≤ round8 (qOr t.size 0 + addSize)
    rw [qOr_zero, qOr_zero]
    exact round8_mono (by linarith [ht.2])

theorem pyramidExec_size (cfg : Config) (client : Option Client) (now : ℚ)
    (tid : String) (t : Trade) (addSize cp : ℚ) (rrNow : Option ℚ)
    (trg : String) (w : World) (hw : WorldSizeInv w) (ht : TradeSizeInv t)
    (hadd : 0 ≤ addSize) :
    WorldSizeInv (pyramidExec cfg client now tid t addSize cp rrNow trg w).2 := by
  unfold pyramidExec
  split
  · exact pyramidApply_size now tid t addSize rrNow trg _
      (worldSizeInv_of_trades_eq _ _ rfl hw) ht hadd
  · rcases client with _ | c
    · exact worldSizeInv_of_trades_eq _ _ rfl hw
    · dsimp only
      split <;> try split
      all_goals first
        | exact worldSizeInv_of_trades_eq _ _ rfl hw
        | exact pyramidApply_size now tid t addSize rrNow trg _
            (worldSizeInv_of_trades_eq _ _ rfl hw) ht hadd

theorem tryPyramidAdd_size (cfg : Config) (client : Option Client) (now : ℚ)
    (tid : String) (cp : ℚ) (rr : Option ℚ) (trg : String) (w : World)
    (hw : WorldSizeInv w) :
    WorldSizeInv (tryPyramidAdd cfg client now tid cp rr trg w).2 := by
  unfold tryPyramidAdd
  rcases hlk : alookup w.trades tid with _ | t
  · exact hw
  · have htk : TradeSizeInv t := hw _ (alookup_mem hlk)
    dsimp only
    repeat' split
    all_goals first
      | exact hw
      | exact pyramidExec_size cfg client now tid t (pyramidAddSize cfg t) cp
          rr trg w hw htk
          (le_of_lt (not_le.mp (by assumption)))

theorem closeTradeSettle_size_trade (cfg : Config) (client : Option Client)
    (now : ℚ) (t : Trade) (mp : ℚ) (w : World) (ht : TradeSizeInv t) :
    TradeSizeInv (closeTradeSettle cfg client now t mp w).1 := by
  unfold closeTradeSettle
  dsimp only
  split
  · split
    · obtain ⟨-, -, -, -, -, h6, -⟩ :=
        estimateFundingDrag_pnl_fields cfg now t mp t.remainingSize
      constructor
      · exact le_refl 0
      · show (0:ℚ) ≤ _
        rw [h6]
        exact le_trans ht.1 ht.2
    · exact ht
  · exact ht

theorem closeTradeSettle_remaining (cfg : Config) (client : Option Client)
    (now : ℚ) (t : Trade) (mp : ℚ) (w : World) :
    (closeTradeSettle cfg client now t mp w).1.remainingSize = 0 ∨
    (closeTradeSettle cfg client now t mp w).1.remainingSize = t.remainingSize := by
  unfold closeTradeSettle
  dsimp only
  split
  · split
    · left
      rfl
    · right
      rfl
  · right
    rfl

theorem closeTradeFull_shape (cfg : Config) (client : Option Client) (now : ℚ)
    (tid rsn : String) (did : Option String) (w : World) :
    (closeTradeFull cfg client now tid rsn did w).trades = w.trades ∨
    ∃ t, alookup w.trades tid = some t ∧
      (closeTradeFull cfg client now tid rsn did w).trades =
        aset w.trades tid
          { (closeTradeSettle cfg client now t
              ((alookup w.price t.asset).getD t.entry) w).1 with
            status := "closed", closedTs := some now
            closeReason := some rsn } := by
  unfold closeTradeFull
  rcases hlk : alookup w.trades tid with _ | t
  · simp only [hlk]
    left
    trivial
  · simp only [hlk]
    split
    · left
      rfl
    · right
      have htr := closeTradeSettle_trades cfg client now t
        ((alookup w.price t.asset).getD t.entry) w
      refine ⟨t, rfl, ?_⟩
      repeat' split
      all_goals
        show aset (closeTradeSettle cfg client now t
          ((alookup w.price t.asset).getD t.entry) w).2.1.trades tid _ =
          aset w.trades tid _
      all_goals rw [htr]

theorem closeTradeFull_size (cfg : Config) (client : Option Client) (now : ℚ)
    (tid rsn : String) (did : Option String) (w : World) (hw : WorldSizeInv w) :
    WorldSizeInv (closeTradeFull cfg client now tid rsn did w) := by
  rcases closeTradeFull_shape cfg client now tid rsn did w with h | h
  · exact worldSizeInv_of_trades_eq _ _ h hw
  · obtain ⟨t, hlk, htr⟩ := h
    have htk : TradeSizeInv t := hw _ (alookup_mem hlk)
    refine worldSizeInv_aset2 w tid _ hw _ htr ?_
    exact closeTradeSettle_size_trade cfg client now t
      ((alookup w.price t.asset).getD t.entry) w htk

theorem tickFunding_size (cfg : Config) (now : ℚ) (tid : String) (t0 : Trade)
    (cp : ℚ) (w : World) (hw : WorldSizeInv w) (ht0 : TradeSizeInv t0) :
    WorldSizeInv (tickFunding cfg now tid t0 cp w).2 ∧
      TradeSizeInv (tickFunding cfg now tid t0 cp w).1 := by
  unfold tickFunding
  split
  · dsimp only
    obtain ⟨-, -, -, -, h5, h6, -⟩ :=
      estimateFundingDrag_pnl_fields cfg now t0 cp t0.remainingSize
    constructor
    · split
      · refine worldSizeInv_aset2 w tid _ hw _
          (applySimRealizedPnl_trades _ _ _) ?_
        exact ⟨by dsimp only; rw [h5]; exact ht0.1,
          by dsimp only; rw [h5, h6]; exact ht0.2⟩
      · refine worldSizeInv_aset2 w tid _ hw _ rfl ?_
        exact ⟨by rw [h5]; exact ht0.1, by rw [h5, h6]; exact ht0.2⟩
    · split
      · exact ⟨by dsimp only; rw [h5]; exact ht0.1,
          by dsimp only; rw [h5, h6]; exact ht0.2⟩
      · exact ⟨by rw [h5]; exact ht0.1, by rw [h5, h6]; exact ht0.2⟩
  · exact ⟨hw, ht0⟩

theorem tickTrailing_size (tid : String) (t1 : Trade) (cp : ℚ) (w : World)
    (hw : WorldSizeInv w) (ht1 : TradeSizeInv t1) :
    WorldSizeInv (tickTrailing tid t1 cp w).2 := by
  unfold tickTrailing
  have htr : TradeSizeInv (updateTrailingStop t1 cp) := by
    obtain ⟨-, -, -, -, h5, h6, -⟩ := updateTrailingStop_fields t1 cp
    exact ⟨by rw [h5]; exact ht1.1, by rw [h5, h6]; exact ht1.2⟩
  split
  · exact hw
  · split
    · exact hw
    · split
      all_goals dsimp only
      all_goals split
      all_goals first
        | exact hw
        | exact worldSizeInv_aset2 w tid _ hw _ rfl htr

theorem tickExitChecks_size (cfg : Config) (client : Option Client) (now : ℚ)
    (tid side : String) (cp : ℚ) (w : World) (hw : WorldSizeInv w) :
    WorldSizeInv (tickExitChecks cfg client now tid side cp w) := by
  unfold tickExitChecks
  rcases hlk : alookup w.trades tid with _ | t3
  · simp only [hlk]
    exact hw
  · simp only [hlk]
    have htk : TradeSizeInv t3 := hw _ (alookup_mem hlk)
    split
    · exact closeTradeFull_size cfg client now tid "stop" t3.decisionId w hw
    · split
      · exact closeTradeFull_size cfg client now tid "take_profit"
          t3.decisionId w hw
      · split
        · exact worldSizeInv_aset2 w tid _ hw _ rfl htk
        · exact worldSizeInv_of_trades_eq _ _ rfl hw

theorem processOpenTrade_size (cfg : Config) (client : Option Client) (now : ℚ)
    (tid : String) (w : World) (hw : WorldSizeInv w) :
    WorldSizeInv (processOpenTrade cfg client now tid w) := by
  unfold processOpenTrade
  rcases hlk : alookup w.trades tid with _ | t0
  · exact hw
  · simp only [hlk]
    rcases hpr : alookup w.price t0.asset with _ | cp
    · simp only [hpr]
      exact hw
    · simp only [hpr]
      have ht0 : TradeSizeInv t0 := hw _ (alookup_mem hlk)
      obtain ⟨hw1, ht1⟩ := tickFunding_size cfg now tid t0 cp w hw ht0
      have hw2 := tickTrailing_size tid (tickFunding cfg now tid t0 cp w).1 cp
        (tickFunding cfg now tid t0 cp w).2 hw1 ht1
      apply tickExitChecks_size
      refine worldSizeInv_ite (tryPyramidAdd_size _ _ _ _ _ _ _ _ ?_) ?_
      all_goals
        refine worldSizeInv_ite (worldSizeInv_updTrade _ _ _ (fun u hu => hu) ?_) ?_
      all_goals
        refine worldSizeInv_iteP (partialCloseTrade_size _ _ _ _ _ _ _ ?_) ?_
      all_goals
        refine worldSizeInv_ite (worldSizeInv_updTrade _ _ _ (fun u hu => hu) ?_) ?_
      all_goals
        refine worldSizeInv_iteP (partialCloseTrade_size _ _ _ _ _ _ _ ?_) ?_
      all_goals exact hw2

theorem monitorTick_size (cfg : Config) (client : Option Client) (now : ℚ)
    (tid : String) (w : World) (hw : WorldSizeInv w) :
    WorldSizeInv (monitorTick cfg client now tid w) := by
  unfold monitorTick
  rcases hlk : alookup w.trades tid with _ | t
  · simp only [hlk]
    exact hw
  · simp only [hlk]
    split
    · exact processOpenTrade_size cfg client now tid w hw
    · exact hw

theorem remainingOf_eq (w : World) (tid : String) (t : Trade)
    (h : alookup w.trades tid = some t) :
    remainingOf w tid = t.remainingSize := by
  unfold remainingOf
  rw [h]
  rfl

theorem remainingOf_trades_eq (w w' : World) (tid : String)
    (h : w'.trades = w.trades) : remainingOf w' tid = remainingOf w tid := by
  unfold remainingOf
  rw [h]

theorem partialCloseTrade_remaining_le (cfg : Config) (client : Option Client)
    (now : ℚ) (tid : String) (fr : ℚ) (rsn : String) (w : World) :
    remainingOf (partialCloseTrade cfg client now tid fr rsn w).2 tid ≤
      remainingOf w tid := by
  rcases partialCloseTrade_shape cfg client now tid fr rsn w with h | h
  · rw [remainingOf_trades_eq _ _ _ h]
  · obtain ⟨t, t', hlk, hcs, hrem, hsz, htr⟩ := h
    have h1 : remainingOf (partialCloseTrade cfg client now tid fr rsn w).2 tid
        = t'.remainingSize := by
      unfold remainingOf
      rw [htr, alookup_aset]
      rfl
    rw [h1, remainingOf_eq w tid t hlk, hrem]
    have hpos : 0 < min (round8 (t.initialSize * fr)) t.remainingSize :=
      not_le.mp hcs
    rcases le_total (round8 (t.initialSize * fr)) t.remainingSize with hle | hge
    · have hmin : min (round8 (t.initialSize * fr)) t.remainingSize =
        round8 (t.initialSize * fr) := min_eq_left hle
      rw [hmin] at hpos ⊢
      have h8 : 1 / 100000000 ≤ round8 (t.initialSize * fr) :=
        round8_pos_ge hpos
      have hh := round8_le_add_half
        (x := t.remainingSize - round8 (t.initialSize * fr))
      linarith
    · have hmin : min (round8 (t.initialSize * fr)) t.remainingSize =
        t.remainingSize := min_eq_right hge
      rw [hmin] at hpos ⊢
      rw [sub_self, round8_zero]
      linarith

theorem closeTradeFull_remaining_le (cfg : Config) (client : Option Client)
    (now : ℚ) (tid rsn : String) (did : Option String) (w : World)
    (hw : WorldSizeInv w) :
    remainingOf (closeTradeFull cfg client now tid rsn did w) tid ≤
      remainingOf w tid := by
  rcases closeTradeFull_shape cfg client now tid rsn did w with h | h
  · rw [remainingOf_trades_eq _ _ _ h]
  · obtain ⟨t, hlk, htr⟩ := h
    have htk : TradeSizeInv t := hw _ (alookup_mem hlk)
    have h1 : remainingOf (closeTradeFull cfg client now tid rsn did w) tid
        = (closeTradeSettle cfg client now t
            ((alookup w.price t.asset).getD t.entry) w).1.remainingSize := by
      unfold remainingOf
      rw [htr, alookup_aset]
      rfl
    rw [h1, remainingOf_eq w tid t hlk]
    rcases closeTradeSettle_remaining cfg client now t
      ((alookup w.price t.asset).getD t.entry) w with h2 | h2
    · rw [h2]
      exact htk.1
    · rw [h2]

set_option maxRecDepth 4000 in
/-- Counterexample data for the sizing claim as written: starting from
`world0` (one open trade with `remaining = initial = size = 1`), a pyramid
add with RR 2 under the default configuration raises `remaining_size`
to `1.3` while `initial_size` stays `1`, so `remaining_size ≤ initial_size`
fails and `remaining_size` strictly increases while the trade is open. -/
theorem C1_size_invariant_counterexample :
    ((alookup (tryPyramidAdd defaultCfg none 0 "t1" 100 (some 2) "rr_cross"
        world0).2.trades "t1").map Trade.remainingSize) = some (13/10) ∧
    ((alookup (tryPyramidAdd defaultCfg none 0 "t1" 100 (some 2) "rr_cross"
        world0).2.trades "t1").map Trade.initialSize) = some 1 ∧
    remainingOf world0 "t1" = 1 ∧
    ¬ ((13 : ℚ)/10 ≤ 1) := by
  refine ⟨?_, ?_, ?_, by norm_num⟩
  · norm_num [tryPyramidAdd, pyramidExec, pyramidApply, pyramidAddSize,
      defaultCfg, world0, trade0, alookup, aset, qOr, nOr, sOr,
      sanitizeConviction, recordExecutionResult, emitTradeEvent, strTakeLeft,
      strTrim, strUpper, round8, round_eq, List.find?]
  · norm_num [tryPyramidAdd, pyramidExec, pyramidApply, pyramidAddSize,
      defaultCfg, world0, trade0, alookup, aset, qOr, nOr, sOr,
      sanitizeConviction, recordExecutionResult, emitTradeEvent, strTakeLeft,
      strTrim, strUpper, round8, round_eq, List.find?]
  · norm_num [remainingOf, world0, trade0, alookup, List.find?]

/-- C1 (amended): a fresh trade opens with
`remaining_size = initial_size = size`, and `0 ≤ remaining_size ≤ size`
holds after every ledger operation (partial close, pyramid add, full
close, and the whole monitor tick); `remaining_size` never increases
across a partial close or a full close.  The original bound
`remaining_size ≤ initial_size` and global monotonicity fail at pyramid
adds, which grow `size` and `remaining_size` together while
`initial_size` stays fixed (see the counterexample). -/
theorem C1_size_invariant :
    (∀ (now : ℚ) (asset side : String) (size entryPrice entryRefPrice
        entrySlippagePct : ℚ) (leverage : ℤ)
        (stop takeProfit trailActPct trailPct : Option ℚ)
        (expectedHoldMin : Option ℤ) (pumpScore : ℤ)
        (decisionId : Option String) (conviction : Option ℤ)
        (sleeve regime : String) (rr volSpike : Option ℚ)
        (executionPath : String) (softPenalty : ℤ)
        (guardSpreadPct guardSizeToVol : Option ℚ) (openFee : ℚ)
        (reason : Option String),
      (mkOpenTrade now asset side size entryPrice entryRefPrice
        entrySlippagePct leverage stop takeProfit trailActPct trailPct
        expectedHoldMin pumpScore decisionId conviction sleeve regime rr
        volSpike executionPath softPenalty guardSpreadPct guardSizeToVol
        openFee reason).remainingSize = size ∧
      (mkOpenTrade now asset side size entryPrice entryRefPrice
        entrySlippagePct leverage stop takeProfit trailActPct trailPct
        expectedHoldMin pumpScore decisionId conviction sleeve regime rr
        volSpike executionPath softPenalty guardSpreadPct guardSizeToVol
        openFee reason).initialSize = size ∧
      (0 ≤ size → TradeSizeInv (mkOpenTrade now asset side size entryPrice
        entryRefPrice entrySlippagePct leverage stop takeProfit trailActPct
        trailPct expectedHoldMin pumpScore decisionId conviction sleeve
        regime rr volSpike executionPath softPenalty guardSpreadPct
        guardSizeToVol openFee reason))) ∧
    (∀ (cfg : Config) (client : Option Client) (now : ℚ) (tid : String)
        (fr : ℚ) (rsn : String) (w : World), WorldSizeInv w →
      WorldSizeInv (partialCloseTrade cfg client now tid fr rsn w).2) ∧
    (∀ (cfg : Config) (client : Option Client) (now : ℚ) (tid : String)
        (cp : ℚ) (rr : Option ℚ) (trg : String) (w : World), WorldSizeInv w →
      WorldSizeInv (tryPyramidAdd cfg client now tid cp rr trg w).2) ∧
    (∀ (cfg : Config) (client : Option Client) (now : ℚ) (tid rsn : String)
        (did : Option String) (w : World), WorldSizeInv w →
      WorldSizeInv (closeTradeFull cfg client now tid rsn did w)) ∧
    (∀ (cfg : Config) (client : Option Client) (now : ℚ) (tid : String)
        (w : World), WorldSizeInv w →
      WorldSizeInv (monitorTick cfg client now tid w)) ∧
    (∀ (cfg : Config) (client : Option Client) (now : ℚ) (tid : String)
        (fr : ℚ) (rsn : String) (w : World),
      remainingOf (partialCloseTrade cfg client now tid fr rsn w).2 tid ≤
        remainingOf w tid) ∧
    (∀ (cfg : Config) (client : Option Client) (now : ℚ) (tid rsn : String)
        (did : Option String) (w : World), WorldSizeInv w →
      remainingOf (closeTradeFull cfg client now tid rsn did w) tid ≤
        remainingOf w tid) := by
  refine ⟨?_, partialCloseTrade_size, tryPyramidAdd_size, closeTradeFull_size,
    monitorTick_size, partialCloseTrade_remaining_le,
    closeTradeFull_remaining_le⟩
  intro now asset side size entryPrice entryRefPrice entrySlippagePct leverage
    stop takeProfit trailActPct trailPct expectedHoldMin pumpScore decisionId
    conviction sleeve regime rr volSpike executionPath softPenalty
    guardSpreadPct guardSizeToVol openFee reason
  exact ⟨rfl, rfl, fun h => ⟨h, le_refl _⟩⟩

/-- Witness for `C1_size_invariant`: one monitor tick of `world0` keeps
`0 ≤ remaining ≤ size` for every live trade, and the closed-trade
`remaining` bound holds there concretely. -/
theorem C1_size_invariant_witness :
    WorldSizeInv (monitorTick defaultCfg none 0 "t1" world0) ∧
    remainingOf (closeTradeFull defaultCfg none 0 "t1" "stop" none world0)
      "t1" ≤ remainingOf world0 "t1" := by
  have hw0 : WorldSizeInv world0 := by
    intro p hp
    have hp' : p = ("t1", trade0) := by simpa [world0] using hp
    rw [hp']
    exact ⟨by norm_num [trade0], by norm_num [trade0]⟩
  exact ⟨C1_size_invariant.2.2.2.2.1 defaultCfg none 0 "t1" world0 hw0,
    C1_size_invariant.2.2.2.2.2.2 defaultCfg none 0 "t1" "stop" none world0 hw0⟩

/-! ## C7 — once-only partial-close machinery -/

theorem countPartialEvents_append (l1 l2 : List TradeEvent) (tid r : String) :
    countPartialEvents (l1 ++ l2) tid r =
      countPartialEvents l1 tid r + countPartialEvents l2 tid r := by
  unfold countPartialEvents
  rw [List.filter_append, List.length_append]

theorem closeSizeOp_events (cfg : Config) (client : Option Client)
    (asset openSide : String) (size : ℚ) (w : World) :
    (closeSizeOp cfg client asset openSide size w).2.events = w.events := by
  unfold closeSizeOp
  repeat' split
  all_goals rfl

theorem applySimRealizedPnl_events (cfg : Config) (delta : ℚ) (w : World) :
    (applySimRealizedPnl cfg delta w).events = w.events := by
  unfold applySimRealizedPnl
  split
  · rfl
  · dsimp only
    split <;> rfl

theorem updTrade_events (w : World) (tid : String) (f : Trade → Trade) :
    (updTrade w tid f).events = w.events := by
  unfold updTrade
  split
  · rfl
  · rfl

theorem closeTradeSettle_events (cfg : Config) (client : Option Client)
    (now : ℚ) (t : Trade) (mp : ℚ) (w : World) :
    (closeTradeSettle cfg client now t mp w).2.1.events = w.events := by
  unfold closeTradeSettle
  dsimp only
  split
  · split
    · show (applySimRealizedPnl _ _ _).events = _
      rw [applySimRealizedPnl_events, closeSizeOp_events]
    · exact closeSizeOp_events _ _ _ _ _ _
  · rfl

theorem tickFunding_events (cfg : Config) (now : ℚ) (tid : String) (t0 : Trade)
    (cp : ℚ) (w : World) :
    (tickFunding cfg now tid t0 cp w).2.events = w.events := by
  unfold tickFunding
  split
  · dsimp only
    split
    · rw [applySimRealizedPnl_events]
    · rfl
  · rfl

theorem tickTrailing_events (tid : String) (t1 : Trade) (cp : ℚ) (w : World) :
    (tickTrailing tid t1 cp w).2.events = w.events := by
  unfold tickTrailing
  split
  · rfl
  · split
    · rfl
    · dsimp only
      split <;> split <;> rfl

theorem partial15Flag_of (w : World) (tid : String) (t : Trade)
    (h : alookup w.trades tid = some t) : partial15Flag w tid = t.partial15 := by
  unfold partial15Flag
  rw [h]
  rfl

theorem partial30Flag_of (w : World) (tid : String) (t : Trade)
    (h : alookup w.trades tid = some t) : partial30Flag w tid = t.partial30 := by
  unfold partial30Flag
  rw [h]
  rfl

theorem partial15Flag_asetW (w : World) (tid : String) (t' : Trade)
    (w' : World) (h : w'.trades = aset w.trades tid t') :
    partial15Flag w' tid = t'.partial15 := by
  unfold partial15Flag
  rw [h, alookup_aset]
  rfl

theorem partial30Flag_asetW (w : World) (tid : String) (t' : Trade)
    (w' : World) (h : w'.trades = aset w.trades tid t') :
    partial30Flag w' tid = t'.partial30 := by
  unfold partial30Flag
  rw [h, alookup_aset]
  rfl

theorem updTrade_set15_flag (w : World) (tid : String) :
    partial15Flag (updTrade w tid (fun t => { t with partial15 := true }))
      tid = true := by
  unfold updTrade
  rcases hlk : alookup w.trades tid with _ | t
  · simp only [hlk]
    unfold partial15Flag
    rw [hlk]
    rfl
  · simp only [hlk]
    unfold partial15Flag
    dsimp only
    rw [alookup_aset]
    rfl

theorem updTrade_set15_flag30 (w : World) (tid : String) :
    partial30Flag (updTrade w tid (fun t => { t with partial15 := true }))
      tid = partial30Flag w tid := by
  unfold updTrade
  rcases hlk : alookup w.trades tid with _ | t
  · simp only [hlk]
  · simp only [hlk]
    unfold partial30Flag
    dsimp only
    rw [alookup_aset, hlk]
    rfl

theorem updTrade_set30_flag (w : World) (tid : String) :
    partial30Flag (updTrade w tid (fun t => { t with partial30 := true }))
      tid = true := by
  unfold updTrade
  rcases hlk : alookup w.trades tid with _ | t
  · simp only [hlk]
    unfold partial30Flag
    rw [hlk]
    rfl
  · simp only [hlk]
    unfold partial30Flag
    dsimp only
    rw [alookup_aset]
    rfl

theorem updTrade_set30_flag15 (w : World) (tid : String) :
    partial15Flag (updTrade w tid (fun t => { t with partial30 := true }))
      tid = partial15Flag w tid := by
  unfold updTrade
  rcases hlk : alookup w.trades tid with _ | t
  · simp only [hlk]
  · simp only [hlk]
    unfold partial15Flag
    dsimp only
    rw [alookup_aset, hlk]
    rfl

theorem cpe_hit (d a : Option String) (q : Option ℚ) (tid r : String) :
    countPartialEvents [⟨"partial_close", d, some tid, a, some r, q⟩] tid r
      = 1 := by
  simp [countPartialEvents]

theorem cpe_miss_reason (d a : Option String) (q : Option ℚ) (tid r rs : String)
    (h : rs ≠ r) :
    countPartialEvents [⟨"partial_close", d, some tid, a, some rs, q⟩] tid r
      = 0 := by
  simp [countPartialEvents, h]

theorem cpe_miss_etype (e : TradeEvent) (tid r : String)
    (h : ¬ e.etype = "partial_close") :
    countPartialEvents [e] tid r = 0 := by
  simp [countPartialEvents, h]

theorem partialCloseTrade_obs (cfg : Config) (client : Option Client)
    (now : ℚ) (tid : String) (fr : ℚ) (rs : String) (w : World) :
    ((partialCloseTrade cfg client now tid fr rs w).1 = false ∧
      (partialCloseTrade cfg client now tid fr rs w).2.events = w.events ∧
      (partialCloseTrade cfg client now tid fr rs w).2.trades = w.trades) ∨
    (∃ t t' d a q, alookup w.trades tid = some t ∧
      (partialCloseTrade cfg client now tid fr rs w).1 = true ∧
      (partialCloseTrade cfg client now tid fr rs w).2.trades =
        aset w.trades tid t' ∧
      (partialCloseTrade cfg client now tid fr rs w).2.events =
        w.events ++ [⟨"partial_close", d, some tid, a, some rs, q⟩] ∧
      t'.partial15 = t.partial15 ∧ t'.partial30 = t.partial30) := by
  unfold partialCloseTrade
  rcases hlk : alookup w.trades tid with _ | t
  · simp only [hlk]
    left
    exact ⟨trivial, trivial, trivial⟩
  · simp only [hlk]
    split
    · left
      exact ⟨rfl, rfl, rfl⟩
    · split
      · left
        exact ⟨rfl, rfl, rfl⟩
      · split
        · left
          exact ⟨rfl, closeSizeOp_events _ _ _ _ _ _,
            closeSizeOp_trades _ _ _ _ _ _⟩
        · right
          obtain ⟨-, -, -, -, -, -, -, h8, h9, -⟩ :=
            estimateFundingDrag_pnl_fields cfg now t
              ((alookup (closeSizeOp cfg client t.asset t.side
                (min (round8 (t.initialSize * fr)) t.remainingSize) w).2.price
                t.asset).getD t.entry)
              (min (round8 (t.initialSize * fr)) t.remainingSize)
          refine ⟨t, _, _, _, _, rfl, rfl,
            congrArg (fun l => aset l tid _)
              (by rw [applySimRealizedPnl_trades, closeSizeOp_trades]),
            congrArg (fun es => es ++ [_])
              (by rw [applySimRealizedPnl_events, closeSizeOp_events]),
            ?_, ?_⟩
          · exact h8
          · exact h9

theorem pyramidExec_obs (cfg : Config) (client : Option Client) (now : ℚ)
    (tid : String) (t : Trade) (addSize cp : ℚ) (rrNow : Option ℚ)
    (trg : String) (w : World) :
    ((pyramidExec cfg client now tid t addSize cp rrNow trg w).2.trades
        = w.trades ∧
      (pyramidExec cfg client now tid t addSize cp rrNow trg w).2.events
        = w.events) ∨
    (∃ t' d a rsn q,
      (pyramidExec cfg client now tid t addSize cp rrNow trg w).2.trades =
        aset w.trades tid t' ∧
      (pyramidExec cfg client now tid t addSize cp rrNow trg w).2.events =
        w.events ++ [⟨"trade_pyramided", d, some tid, a, rsn, q⟩] ∧
      t'.partial15 = t.partial15 ∧ t'.partial30 = t.partial30) := by
  unfold pyramidExec
  split
  · right
    exact ⟨_, _, _, _, _,
      congrArg (fun l => aset l tid _) rfl,
      congrArg (fun es => es ++ [_]) rfl, rfl, rfl⟩
  · rcases client with _ | c
    · left
      exact ⟨rfl, rfl⟩
    · dsimp only
      split <;> try split
      all_goals first
        | (left
           exact ⟨rfl, rfl⟩)
        | (right
           exact ⟨_, _, _, _, _,
             congrArg (fun l => aset l tid _) rfl,
             congrArg (fun es => es ++ [_]) rfl, rfl, rfl⟩)

theorem tryPyramidAdd_obs (cfg : Config) (client : Option Client) (now : ℚ)
    (tid : String) (cp : ℚ) (rr : Option ℚ) (trg : String) (w : World) :
    ((tryPyramidAdd cfg client now tid cp rr trg w).2.trades = w.trades ∧
      (tryPyramidAdd cfg client now tid cp rr trg w).2.events = w.events) ∨
    (∃ t t' d a rsn q, alookup w.trades tid = some t ∧
      (tryPyramidAdd cfg client now tid cp rr trg w).2.trades =
        aset w.trades tid t' ∧
      (tryPyramidAdd cfg client now tid cp rr trg w).2.events =
        w.events ++ [⟨"trade_pyramided", d, some tid, a, rsn, q⟩] ∧
      t'.partial15 = t.partial15 ∧ t'.partial30 = t.partial30) := by
  unfold tryPyramidAdd
  rcases hlk : alookup w.trades tid with _ | t
  · left
    exact ⟨rfl, rfl⟩
  · dsimp only
    repeat' split
    all_goals first
      | (left
         exact ⟨rfl, rfl⟩)
      | (rcases pyramidExec_obs cfg client now tid t (pyramidAddSize cfg t)
            cp rr trg w with ⟨h1, h2⟩ | ⟨t', d, a, rsn, q, h1, h2, h3, h4⟩
         · left
           exact ⟨h1, h2⟩
         · right
           exact ⟨t, t', d, a, rsn, q, rfl, h1, h2, h3, h4⟩)

theorem closeTradeSettle_flags (cfg : Config) (client : Option Client)
    (now : ℚ) (t : Trade) (mp : ℚ) (w : World) :
    (closeTradeSettle cfg client now t mp w).1.partial15 = t.partial15 ∧
    (closeTradeSettle cfg client now t mp w).1.partial30 = t.partial30 := by
  unfold closeTradeSettle
  dsimp only
  split
  · split
    · obtain ⟨-, -, -, -, -, -, -, h8, h9, -⟩ :=
        estimateFundingDrag_pnl_fields cfg now t mp t.remainingSize
      exact ⟨h8, h9⟩
    · exact ⟨rfl, rfl⟩
  · exact ⟨rfl, rfl⟩

theorem reasonEventType_ne_pc (rsn et : String)
    (h : (if rsn = "stop" then some "stop_hit"
      else if rsn = "take_profit" then some "tp_hit"
      else if rsn = "pump_timer" ∨ rsn = "pump_timer_recovery" then
        some "timer_exit"
      else none) = some et) : ¬ et = "partial_close" := by
  repeat' split at h
  · injection h with h2
    subst h2
    decide
  · injection h with h2
    subst h2
    decide
  · injection h with h2
    subst h2
    decide
  · exact Option.noConfusion h

theorem closeTradeFull_count (cfg : Config) (client : Option Client) (now : ℚ)
    (tid rsn : String) (did : Option String) (w : World) (tid2 r : String) :
    countPartialEvents (closeTradeFull cfg client now tid rsn did w).events
        tid2 r = countPartialEvents w.events tid2 r := by
  unfold closeTradeFull
  rcases hlk : alookup w.trades tid with _ | t
  · simp only [hlk]
  · simp only [hlk]
    split
    · rfl
    · have hse := closeTradeSettle_events cfg client now t
        ((alookup w.price t.asset).getD t.entry) w
    
      repeat' split
      all_goals first
        | (show countPartialEvents (((closeTradeSettle cfg client now t
              ((alookup w.price t.asset).getD t.entry) w).2.1.events
              ++ [_]) ++ [_]) tid2 r = _
           rw [countPartialEvents_append, countPartialEvents_append, hse]
           simp [countPartialEvents]
           try (intro he
                exact absurd he (reasonEventType_ne_pc _ _ (by assumption))))
        | (show countPartialEvents ((closeTradeSettle cfg client now t
              ((alookup w.price t.asset).getD t.entry) w).2.1.events
              ++ [_]) tid2 r = _
           rw [countPartialEvents_append, hse]
           simp [countPartialEvents])

theorem closeTradeFull_flag15 (cfg : Config) (client : Option Client)
    (now : ℚ) (tid rsn : String) (did : Option String) (w : World) :
    partial15Flag (closeTradeFull cfg client now tid rsn did w) tid =
      partial15Flag w tid := by
  rcases closeTradeFull_shape cfg client now tid rsn did w with h | ⟨t, hlk, htr⟩
  · unfold partial15Flag
    rw [h]
  · refine (partial15Flag_asetW w tid _ _ htr).trans ?_
    refine Eq.trans ?_ (partial15Flag_of w tid t hlk).symm
    exact (closeTradeSettle_flags cfg client now t
      ((alookup w.price t.asset).getD t.entry) w).1

theorem closeTradeFull_flag30 (cfg : Config) (client : Option Client)
    (now : ℚ) (tid rsn : String) (did : Option String) (w : World) :
    partial30Flag (closeTradeFull cfg client now tid rsn did w) tid =
      partial30Flag w tid := by
  rcases closeTradeFull_shape cfg client now tid rsn did w with h | ⟨t, hlk, htr⟩
  · unfold partial30Flag
    rw [h]
  · refine (partial30Flag_asetW w tid _ _ htr).trans ?_
    refine Eq.trans ?_ (partial30Flag_of w tid t hlk).symm
    exact (closeTradeSettle_flags cfg client now t
      ((alookup w.price t.asset).getD t.entry) w).2

theorem tickExitChecks_count (cfg : Config) (client : Option Client) (now : ℚ)
    (tid side : String) (cp : ℚ) (w : World) (tid2 r : String) :
    countPartialEvents (tickExitChecks cfg client now tid side cp w).events
        tid2 r = countPartialEvents w.events tid2 r := by
  unfold tickExitChecks
  rcases hlk : alookup w.trades tid with _ | t3
  · simp only [hlk]
  · simp only [hlk]
    split
    · exact closeTradeFull_count cfg client now tid "stop" t3.decisionId w
        tid2 r
    · split
      · exact closeTradeFull_count cfg client now tid "take_profit"
          t3.decisionId w tid2 r
      · split
        · show countPartialEvents (w.events ++ [_]) tid2 r = _
          rw [countPartialEvents_append]
          simp [countPartialEvents]
        · rfl

theorem tickExitChecks_flag15 (cfg : Config) (client : Option Client)
    (now : ℚ) (tid side : String) (cp : ℚ) (w : World) :
    partial15Flag (tickExitChecks cfg client now tid side cp w) tid =
      partial15Flag w tid := by
  unfold tickExitChecks
  rcases hlk : alookup w.trades tid with _ | t3
  · simp only [hlk]
  · simp only [hlk]
    split
    · exact closeTradeFull_flag15 cfg client now tid "stop" t3.decisionId w
    · split
      · exact closeTradeFull_flag15 cfg client now tid "take_profit"
          t3.decisionId w
      · split
        · refine (partial15Flag_asetW w tid _ _ rfl).trans ?_
          exact (partial15Flag_of w tid t3 hlk).symm
        · rfl

theorem tickExitChecks_flag30 (cfg : Config) (client : Option Client)
    (now : ℚ) (tid side : String) (cp : ℚ) (w : World) :
    partial30Flag (tickExitChecks cfg client now tid side cp w) tid =
      partial30Flag w tid := by
  unfold tickExitChecks
  rcases hlk : alookup w.trades tid with _ | t3
  · simp only [hlk]
  · simp only [hlk]
    split
    · exact closeTradeFull_flag30 cfg client now tid "stop" t3.decisionId w
    · split
      · exact closeTradeFull_flag30 cfg client now tid "take_profit"
          t3.decisionId w
      · split
        · refine (partial30Flag_asetW w tid _ _ rfl).trans ?_
          exact (partial30Flag_of w tid t3 hlk).symm
        · rfl

theorem tickFunding_flags (cfg : Config) (now : ℚ) (tid : String) (t0 : Trade)
    (cp : ℚ) (w : World) (hlk : alookup w.trades tid = some t0) :
    partial15Flag (tickFunding cfg now tid t0 cp w).2 tid =
      (tickFunding cfg now tid t0 cp w).1.partial15 ∧
    partial30Flag (tickFunding cfg now tid t0 cp w).2 tid =
      (tickFunding cfg now tid t0 cp w).1.partial30 ∧
    (tickFunding cfg now tid t0 cp w).1.partial15 = partial15Flag w tid ∧
    (tickFunding cfg now tid t0 cp w).1.partial30 = partial30Flag w tid := by
  obtain ⟨-, -, -, -, -, -, -, h8, h9, -⟩ :=
    estimateFundingDrag_pnl_fields cfg now t0 cp t0.remainingSize
  unfold tickFunding
  split
  · dsimp only
    constructor
    · split
      · refine (partial15Flag_asetW w tid _ _
          (applySimRealizedPnl_trades _ _ _)).trans ?_
        rfl
      · exact partial15Flag_asetW w tid _ _ rfl
    constructor
    · split
      · refine (partial30Flag_asetW w tid _ _
          (applySimRealizedPnl_trades _ _ _)).trans ?_
        rfl
      · exact partial30Flag_asetW w tid _ _ rfl
    constructor
    · split
      · exact (h8.trans (partial15Flag_of w tid t0 hlk).symm)
      · exact (h8.trans (partial15Flag_of w tid t0 hlk).symm)
    · split
      · exact (h9.trans (partial30Flag_of w tid t0 hlk).symm)
      · exact (h9.trans (partial30Flag_of w tid t0 hlk).symm)
  · exact ⟨(partial15Flag_of w tid t0 hlk).trans rfl,
      (partial30Flag_of w tid t0 hlk).trans rfl,
      (partial15Flag_of w tid t0 hlk).symm,
      (partial30Flag_of w tid t0 hlk).symm⟩

theorem tickTrailing_flags (tid : String) (t1 : Trade) (cp : ℚ) (x : World)
    (hx15 : partial15Flag x tid = t1.partial15)
    (hx30 : partial30Flag x tid = t1.partial30) :
    partial15Flag (tickTrailing tid t1 cp x).2 tid =
      (tickTrailing tid t1 cp x).1.partial15 ∧
    partial30Flag (tickTrailing tid t1 cp x).2 tid =
      (tickTrailing tid t1 cp x).1.partial30 ∧
    (tickTrailing tid t1 cp x).1.partial15 = t1.partial15 ∧
    (tickTrailing tid t1 cp x).1.partial30 = t1.partial30 := by
  obtain ⟨-, -, -, -, -, -, -, h8, h9, -⟩ := updateTrailingStop_fields t1 cp
  unfold tickTrailing
  split
  · exact ⟨hx15, hx30, rfl, rfl⟩
  · split
    · exact ⟨hx15, hx30, rfl, rfl⟩
    · dsimp only
      split <;> split
      all_goals first
        | exact ⟨hx15, hx30, rfl, rfl⟩
        | exact ⟨(partial15Flag_asetW x tid _ _ rfl).trans rfl,
            (partial30Flag_asetW x tid _ _ rfl).trans rfl, h8, h9⟩

theorem measure_of_eqs {tid : String} {n15 n30 l15 l30 : ℕ} {w w' : World}
    (hc15 : countPartialEvents w'.events tid "1.5R" =
      countPartialEvents w.events tid "1.5R")
    (hc30 : countPartialEvents w'.events tid "3.0R" =
      countPartialEvents w.events tid "3.0R")
    (hf15 : partial15Flag w' tid = partial15Flag w tid)
    (hf30 : partial30Flag w' tid = partial30Flag w tid)
    (h : Measure tid n15 n30 l15 l30 w) : Measure tid n15 n30 l15 l30 w' := by
  unfold Measure at h ⊢
  rw [hc15, hc30, hf15, hf30]
  exact h

theorem measure_of_frame {tid : String} {n15 n30 l15 l30 : ℕ} {w w' : World}
    (hev : w'.events = w.events) (htr : w'.trades = w.trades)
    (h : Measure tid n15 n30 l15 l30 w) : Measure tid n15 n30 l15 l30 w' := by
  refine measure_of_eqs (by rw [hev]) (by rw [hev]) ?_ ?_ h
  · unfold partial15Flag
    rw [htr]
  · unfold partial30Flag
    rw [htr]

theorem measure_ite {tid : String} {n15 n30 l15 l30 : ℕ} {c : Prop}
    {hD : Decidable c} {a b : World} (ha : Measure tid n15 n30 l15 l30 a)
    (hb : Measure tid n15 n30 l15 l30 b) :
    Measure tid n15 n30 l15 l30 (@ite _ c hD a b) := by
  split
  · exact ha
  · exact hb

theorem tickFunding_measure (cfg : Config) (now : ℚ) (tid : String)
    (t0 : Trade) (cp : ℚ) (w : World)
    (hlk : alookup w.trades tid = some t0) {n15 n30 l15 l30 : ℕ}
    (h : Measure tid n15 n30 l15 l30 w) :
    Measure tid n15 n30 l15 l30 (tickFunding cfg now tid t0 cp w).2 := by
  obtain ⟨f1, f2, f3, f4⟩ := tickFunding_flags cfg now tid t0 cp w hlk
  exact measure_of_eqs (by rw [tickFunding_events])
    (by rw [tickFunding_events]) (f1.trans f3) (f2.trans f4) h

theorem tickTrailing_measure (tid : String) (t1 : Trade) (cp : ℚ) (x : World)
    (hx15 : partial15Flag x tid = t1.partial15)
    (hx30 : partial30Flag x tid = t1.partial30) {n15 n30 l15 l30 : ℕ}
    (h : Measure tid n15 n30 l15 l30 x) :
    Measure tid n15 n30 l15 l30 (tickTrailing tid t1 cp x).2 := by
  obtain ⟨f1, f2, f3, f4⟩ := tickTrailing_flags tid t1 cp x hx15 hx30
  exact measure_of_eqs (by rw [tickTrailing_events])
    (by rw [tickTrailing_events]) (f1.trans (f3.trans hx15.symm))
    (f2.trans (f4.trans hx30.symm)) h

theorem tryPyramidAdd_measure (cfg : Config) (client : Option Client)
    (now : ℚ) (tid : String) (cp : ℚ) (rr : Option ℚ) (trg : String)
    (w : World) {n15 n30 l15 l30 : ℕ} (h : Measure tid n15 n30 l15 l30 w) :
    Measure tid n15 n30 l15 l30 (tryPyramidAdd cfg client now tid cp rr trg w).2 := by
  rcases tryPyramidAdd_obs cfg client now tid cp rr trg w with
    ⟨htr, hev⟩ | ⟨t, t', d, a, rsn, q, hlk, htr, hev, hf15, hf30⟩
  · exact measure_of_frame hev htr h
  · refine measure_of_eqs ?_ ?_ ?_ ?_ h
    · rw [hev, countPartialEvents_append,
        cpe_miss_etype ⟨"trade_pyramided", d, some tid, a, rsn, q⟩ tid
          "1.5R" (by simp)]
      omega
    · rw [hev, countPartialEvents_append,
        cpe_miss_etype ⟨"trade_pyramided", d, some tid, a, rsn, q⟩ tid
          "3.0R" (by simp)]
      omega
    · exact (partial15Flag_asetW w tid _ _ htr).trans
        (hf15.trans (partial15Flag_of w tid t hlk).symm)
    · exact (partial30Flag_asetW w tid _ _ htr).trans
        (hf30.trans (partial30Flag_of w tid t hlk).symm)

theorem tickExitChecks_measure (cfg : Config) (client : Option Client)
    (now : ℚ) (tid side : String) (cp : ℚ) (w : World) {n15 n30 l15 l30 : ℕ}
    (h : Measure tid n15 n30 l15 l30 w) :
    Measure tid n15 n30 l15 l30 (tickExitChecks cfg client now tid side cp w) :=
  measure_of_eqs (tickExitChecks_count cfg client now tid side cp w tid "1.5R")
    (tickExitChecks_count cfg client now tid side cp w tid "3.0R")
    (tickExitChecks_flag15 cfg client now tid side cp w)
    (tickExitChecks_flag30 cfg client now tid side cp w) h

theorem measureBlock15 {c : Prop} {hD : Decidable c} (cfg : Config)
    (client : Option Client) (now : ℚ) (tid : String) (fr : ℚ) (fb : Bool)
    (W : World) {n15 n30 l15 l30 : ℕ}
    (hc : c → fb = false) (hflag : partial15Flag W tid = fb)
    (h : Measure tid n15 n30 l15 l30 W) :
    Measure tid n15 n30 l15 l30
      (if ((@ite _ c hD (partialCloseTrade cfg client now tid fr "1.5R" W)
            ((false : Bool), W)).1 = true) then
        updTrade (@ite _ c hD (partialCloseTrade cfg client now tid fr
            "1.5R" W) ((false : Bool), W)).2 tid
          (fun t => { t with partial15 := true })
      else (@ite _ c hD (partialCloseTrade cfg client now tid fr "1.5R" W)
            ((false : Bool), W)).2) := by
  by_cases hcc : c
  · rw [if_pos hcc]
    rcases partialCloseTrade_obs cfg client now tid fr "1.5R" W with
      ⟨h1, hev, htr⟩ | ⟨t, t', d, a, q, hlk, h1, htr, hev, hf15, hf30⟩
    · rw [h1, if_neg (by simp : ¬ (false = true))]
      exact measure_of_frame hev htr h
    · rw [h1, if_pos rfl]
      obtain ⟨hb15, hb30, hl15, hl30⟩ := h
      have hpen : partial15Flag W tid = false := hflag.trans (hc hcc)
      have hcn15 : countPartialEvents (updTrade
          (partialCloseTrade cfg client now tid fr "1.5R" W).2 tid
          (fun t => { t with partial15 := true })).events tid "1.5R" =
          countPartialEvents W.events tid "1.5R" + 1 := by
        rw [updTrade_events, hev, countPartialEvents_append, cpe_hit]
      have hcn30 : countPartialEvents (updTrade
          (partialCloseTrade cfg client now tid fr "1.5R" W).2 tid
          (fun t => { t with partial15 := true })).events tid "3.0R" =
          countPartialEvents W.events tid "3.0R" := by
        rw [updTrade_events, hev, countPartialEvents_append,
          cpe_miss_reason d a q tid "3.0R" "1.5R" (by decide)]
        omega
      have hfl15 := updTrade_set15_flag
        (partialCloseTrade cfg client now tid fr "1.5R" W).2 tid
      have hfl30 : partial30Flag (updTrade
          (partialCloseTrade cfg client now tid fr "1.5R" W).2 tid
          (fun t => { t with partial15 := true })) tid =
          partial30Flag W tid := by
        rw [updTrade_set15_flag30]
        exact (partial30Flag_asetW W tid _ _ htr).trans
          (hf30.trans (partial30Flag_of W tid t hlk).symm)
      have hb15a : countPartialEvents W.events tid "1.5R" + 1 ≤ n15 := by
        rw [hpen] at hb15
        simpa using hb15
      refine ⟨?_, ?_, ?_, ?_⟩
      · rw [hcn15, hfl15]
        simpa using hb15a
      · rw [hcn30, hfl30]
        exact hb30
      · rw [hcn15]
        exact le_trans hl15 (Nat.le_succ _)
      · rw [hcn30]
        exact hl30
  · rw [if_neg hcc,
      if_neg (by simp : ¬ ((((false : Bool), W)).1 = true))]
    exact h

theorem block15_flag30 {c : Prop} {hD : Decidable c} (cfg : Config)
    (client : Option Client) (now : ℚ) (tid : String) (fr : ℚ) (W : World) :
    partial30Flag
      (if ((@ite _ c hD (partialCloseTrade cfg client now tid fr "1.5R" W)
            ((false : Bool), W)).1 = true) then
        updTrade (@ite _ c hD (partialCloseTrade cfg client now tid fr
            "1.5R" W) ((false : Bool), W)).2 tid
          (fun t => { t with partial15 := true })
      else (@ite _ c hD (partialCloseTrade cfg client now tid fr "1.5R" W)
            ((false : Bool), W)).2) tid = partial30Flag W tid := by
  by_cases hcc : c
  · rw [if_pos hcc]
    rcases partialCloseTrade_obs cfg client now tid fr "1.5R" W with
      ⟨h1, hev, htr⟩ | ⟨t, t', d, a, q, hlk, h1, htr, hev, hf15, hf30⟩
    · rw [h1, if_neg (by simp : ¬ (false = true))]
      unfold partial30Flag
      rw [htr]
    · rw [h1, if_pos rfl, updTrade_set15_flag30]
      exact (partial30Flag_asetW W tid _ _ htr).trans
        (hf30.trans (partial30Flag_of W tid t hlk).symm)
  · rw [if_neg hcc,
      if_neg (by simp : ¬ ((((false : Bool), W)).1 = true))]

theorem measureBlock30 {c : Prop} {hD : Decidable c} (cfg : Config)
    (client : Option Client) (now : ℚ) (tid : String) (fr : ℚ) (fb : Bool)
    (W : World) {n15 n30 l15 l30 : ℕ}
    (hc : c → fb = false) (hflag : partial30Flag W tid = fb)
    (h : Measure tid n15 n30 l15 l30 W) :
    Measure tid n15 n30 l15 l30
      (if ((@ite _ c hD (partialCloseTrade cfg client now tid fr "3.0R" W)
            ((false : Bool), W)).1 = true) then
        updTrade (@ite _ c hD (partialCloseTrade cfg client now tid fr
            "3.0R" W) ((false : Bool), W)).2 tid
          (fun t => { t with partial30 := true })
      else (@ite _ c hD (partialCloseTrade cfg client now tid fr "3.0R" W)
            ((false : Bool), W)).2) := by
  by_cases hcc : c
  · rw [if_pos hcc]
    rcases partialCloseTrade_obs cfg client now tid fr "3.0R" W with
      ⟨h1, hev, htr⟩ | ⟨t, t', d, a, q, hlk, h1, htr, hev, hf15, hf30⟩
    · rw [h1, if_neg (by simp : ¬ (false = true))]
      exact measure_of_frame hev htr h
    · rw [h1, if_pos rfl]
      obtain ⟨hb15, hb30, hl15, hl30⟩ := h
      have hpen : partial30Flag W tid = false := hflag.trans (hc hcc)
      have hcn30 : countPartialEvents (updTrade
          (partialCloseTrade cfg client now tid fr "3.0R" W).2 tid
          (fun t => { t with partial30 := true })).events tid "3.0R" =
          countPartialEvents W.events tid "3.0R" + 1 := by
        rw [updTrade_events, hev, countPartialEvents_append, cpe_hit]
      have hcn15 : countPartialEvents (updTrade
          (partialCloseTrade cfg client now tid fr "3.0R" W).2 tid
          (fun t => { t with partial30 := true })).events tid "1.5R" =
          countPartialEvents W.events tid "1.5R" := by
        rw [updTrade_events, hev, countPartialEvents_append,
          cpe_miss_reason d a q tid "1.5R" "3.0R" (by decide)]
        omega
      have hfl30 := updTrade_set30_flag
        (partialCloseTrade cfg client now tid fr "3.0R" W).2 tid
      have hfl15 : partial15Flag (updTrade
          (partialCloseTrade cfg client now tid fr "3.0R" W).2 tid
          (fun t => { t with partial30 := true })) tid =
          partial15Flag W tid := by
        rw [updTrade_set30_flag15]
        exact (partial15Flag_asetW W tid _ _ htr).trans
          (hf15.trans (partial15Flag_of W tid t hlk).symm)
      have hb30a : countPartialEvents W.events tid "3.0R" + 1 ≤ n30 := by
        rw [hpen] at hb30
        simpa using hb30
      refine ⟨?_, ?_, ?_, ?_⟩
      · rw [hcn15, hfl15]
        exact hb15
      · rw [hcn30, hfl30]
        simpa using hb30a
      · rw [hcn15]
        exact hl15
      · rw [hcn30]
        exact le_trans hl30 (Nat.le_succ _)
  · rw [if_neg hcc,
      if_neg (by simp : ¬ ((((false : Bool), W)).1 = true))]
    exact h

theorem processOpenTrade_measure (cfg : Config) (client : Option Client)
    (now : ℚ) (tid : String) (w : World) {n15 n30 l15 l30 : ℕ}
    (h : Measure tid n15 n30 l15 l30 w) :
    Measure tid n15 n30 l15 l30 (processOpenTrade cfg client now tid w) := by
  unfold processOpenTrade
  rcases hlk : alookup w.trades tid with _ | t0
  · exact h
  · simp only [hlk]
    rcases hpr : alookup w.price t0.asset with _ | cp
    · simp only [hpr]
      exact h
    · simp only [hpr]
      obtain ⟨ff1, ff2, ff3, ff4⟩ := tickFunding_flags cfg now tid t0 cp w hlk
      have h1 := tickFunding_measure cfg now tid t0 cp w hlk h
      obtain ⟨tf1, tf2, tf3, tf4⟩ := tickTrailing_flags tid
        (tickFunding cfg now tid t0 cp w).1 cp
        (tickFunding cfg now tid t0 cp w).2 ff1 ff2
      have h2 := tickTrailing_measure tid (tickFunding cfg now tid t0 cp w).1
        cp (tickFunding cfg now tid t0 cp w).2 ff1 ff2 h1
      apply tickExitChecks_measure
      refine measure_ite (tryPyramidAdd_measure _ _ _ _ _ _ _ _ ?_) ?_
      all_goals
        refine measureBlock30 cfg client now tid (3/10) _ _
          (fun hx => by simpa using hx.2.1)
          ((block15_flag30 cfg client now tid (1/2) _).trans tf2) ?_
      all_goals
        refine measureBlock15 cfg client now tid (1/2) _ _
          (fun hx => by simpa using hx.2.1) tf1 ?_
      all_goals exact h2

theorem monitorTick_measure (cfg : Config) (client : Option Client) (now : ℚ)
    (tid : String) (w : World) {n15 n30 l15 l30 : ℕ}
    (h : Measure tid n15 n30 l15 l30 w) :
    Measure tid n15 n30 l15 l30 (monitorTick cfg client now tid w) := by
  unfold monitorTick
  rcases hlk : alookup w.trades tid with _ | t
  · exact h
  · simp only [hlk]
    split
    · exact processOpenTrade_measure cfg client now tid w h
    · exact h

theorem runMonitor_measure (cfg : Config) (client : Option Client)
    (tid : String) (xs : List (ℚ × List (String × ℚ))) (w : World)
    {n15 n30 l15 l30 : ℕ} (h : Measure tid n15 n30 l15 l30 w) :
    Measure tid n15 n30 l15 l30 (runMonitor cfg client tid xs w) := by
  induction xs generalizing w with
  | nil => exact h
  | cons x xs ih =>
    exact ih _ (monitorTick_measure cfg client x.1 tid _ h)

set_option maxRecDepth 8000 in
/-- C7: along any sequence of monitor ticks, at most one more `1.5R`
partial-close event can ever be emitted for a trade whose `partial_15`
flag is unset, and none once it is set; likewise for the `3.0R` partial
and `partial_30` — so each tier fires at most once per trade, with the
flag set exactly when it fires.  Concretely: one tick of `world0` at
price 116 (RR 1.6) emits exactly one `partial_close` (reason `1.5R`) for
50% of the initial size (`qty = 1/2`, then the RR-triggered pyramid
event), and a second tick at the same price does not re-fire it. -/
theorem C7_partials_fire_once :
    (∀ (cfg : Config) (client : Option Client) (tid : String)
        (xs : List (ℚ × List (String × ℚ))) (w : World),
      countPartialEvents (runMonitor cfg client tid xs w).events tid "1.5R" ≤
        countPartialEvents w.events tid "1.5R" +
          (if partial15Flag w tid then 0 else 1)) ∧
    (∀ (cfg : Config) (client : Option Client) (tid : String)
        (xs : List (ℚ × List (String × ℚ))) (w : World),
      countPartialEvents (runMonitor cfg client tid xs w).events tid "3.0R" ≤
        countPartialEvents w.events tid "3.0R" +
          (if partial30Flag w tid then 0 else 1)) ∧
    (∀ (cfg : Config) (client : Option Client) (tid : String)
        (xs : List (ℚ × List (String × ℚ))) (w : World),
      partial15Flag w tid = true →
      countPartialEvents (runMonitor cfg client tid xs w).events tid "1.5R" =
        countPartialEvents w.events tid "1.5R") ∧
    (∀ (cfg : Config) (client : Option Client) (tid : String)
        (xs : List (ℚ × List (String × ℚ))) (w : World),
      partial30Flag w tid = true →
      countPartialEvents (runMonitor cfg client tid xs w).events tid "3.0R" =
        countPartialEvents w.events tid "3.0R") ∧
    ((runMonitor defaultCfg none "t1"
        [(1, [("BTC-PERP-INTX", 116)])] world0).events.map
          (fun e => (e.etype, e.tradeId, e.reason))) =
      [("partial_close", some "t1", some "1.5R"),
       ("trade_pyramided", some "t1", some "partial_close")] ∧
    ((runMonitor defaultCfg none "t1"
        [(1, [("BTC-PERP-INTX", 116)])] world0).events.map
          (fun e => e.qty)) = [some (1/2), some (3/10)] ∧
    countPartialEvents (runMonitor defaultCfg none "t1"
        [(1, [("BTC-PERP-INTX", 116)]), (2, [("BTC-PERP-INTX", 116)])]
        world0).events "t1" "1.5R" = 1 := by
  refine ⟨?_, ?_, ?_, ?_, ?_, ?_, ?_⟩
  · intro cfg client tid xs w
    have hm := runMonitor_measure cfg client tid xs w
      (⟨le_refl _, le_refl _, le_refl _, le_refl _⟩ : Measure tid _ _ _ _ w)
    exact le_trans (Nat.le_add_right _ _) hm.1
  · intro cfg client tid xs w
    have hm := runMonitor_measure cfg client tid xs w
      (⟨le_refl _, le_refl _, le_refl _, le_refl _⟩ : Measure tid _ _ _ _ w)
    exact le_trans (Nat.le_add_right _ _) hm.2.1
  · intro cfg client tid xs w hflag
    have h0 : Measure tid (countPartialEvents w.events tid "1.5R")
        (countPartialEvents w.events tid "3.0R" +
          (if partial30Flag w tid then 0 else 1))
        (countPartialEvents w.events tid "1.5R")
        (countPartialEvents w.events tid "3.0R") w := by
      refine ⟨?_, le_refl _, le_refl _, le_refl _⟩
      rw [hflag]
      simp
    have hm := runMonitor_measure cfg client tid xs w h0
    exact le_antisymm (le_trans (Nat.le_add_right _ _) hm.1) hm.2.2.1
  · intro cfg client tid xs w hflag
    have h0 : Measure tid (countPartialEvents w.events tid "1.5R" +
          (if partial15Flag w tid then 0 else 1))
        (countPartialEvents w.events tid "3.0R")
        (countPartialEvents w.events tid "1.5R")
        (countPartialEvents w.events tid "3.0R") w := by
      refine ⟨le_refl _, ?_, le_refl _, le_refl _⟩
      rw [hflag]
      simp
    have hm := runMonitor_measure cfg client tid xs w h0
    exact le_antisymm (le_trans (Nat.le_add_right _ _) hm.2.1) hm.2.2.2
  all_goals
    norm_num [runMonitor, monitorTick, processOpenTrade, tickFunding,
      tickTrailing, tickExitChecks, partialCloseTrade, closeSizeOp, updTrade,
      tryPyramidAdd, pyramidExec, pyramidApply, pyramidAddSize, closeTradeFull,
      calc_rr_now, isStopHit, isTakeProfitHit, recordExecutionResult,
      emitTradeEvent, applySimRealizedPnl, estimateFundingDrag,
      estimateRealizedPnl, estimateTakerFee, simSlippagePct,
      applySlippageToPrice, closeSideFromOpen, defaultCfg, world0, trade0,
      alookup, aset, adel, qOr, nOr, sOr, sanitizeConviction,
      round8, round_eq, List.find?,
      (show strUpper "BUY" = "BUY" from by decide),
      (show ¬ ("partial_close" = "") from by decide),
      (show strTrim "partial_close" = "partial_close" from by decide),
      (show strTakeLeft "partial_close" 60 = "partial_close" from by decide)]
  all_goals try decide

/-- Witness for `C7_partials_fire_once`: in `world1` both partial flags
are already set, and a monitor tick at RR 1.6 emits no further partial
events of either tier. -/
theorem C7_partials_fire_once_witness :
    partial15Flag world1 "t1" = true ∧
    countPartialEvents (runMonitor defaultCfg none "t1"
        [(1, [("BTC-PERP-INTX", 116)])] world1).events "t1" "1.5R" =
      countPartialEvents world1.events "t1" "1.5R" ∧
    partial30Flag world1 "t1" = true ∧
    countPartialEvents (runMonitor defaultCfg none "t1"
        [(1, [("BTC-PERP-INTX", 116)])] world1).events "t1" "3.0R" =
      countPartialEvents world1.events "t1" "3.0R" := by
  have h15 : partial15Flag world1 "t1" = true := by decide
  have h30 : partial30Flag world1 "t1" = true := by decide
  exact ⟨h15,
    C7_partials_fire_once.2.2.1 defaultCfg none "t1"
      [(1, [("BTC-PERP-INTX", 116)])] world1 h15,
    h30,
    C7_partials_fire_once.2.2.2.1 defaultCfg none "t1"
      [(1, [("BTC-PERP-INTX", 116)])] world1 h30⟩

end PiTrader
